import Mathlib

/-! ASFParser: a shallow embedding of the seek resolver, the decoder session and
the sample pipeline

The development follows `ASFManager.cpp`, `Decoder.cpp` and
`MediaController.cpp`.  Conventions of the embedding:

* machine integers are `Nat`/`Int` with explicit reduction modulo `2^32` or
  `2^64` where the source can wrap;
* `double` values are the rationals they denote, every arithmetic operation
  being followed by IEEE-754 binary64 round-to-nearest-even (`fl`);
* a method returns `none` where the C++ source dereferences a null pointer, or
  where the scripted environment has no further response;
* where the language leaves an arithmetic result undefined the model returns
  what the compiled program computes: signed 64-bit sums and differences wrap,
  and a `double` that no `int` can hold is converted to `INT_MIN`;
* external COM objects (demultiplexer, index, transform, byte stream, samples)
  are records of the responses they give, consumed in call order.
-/

namespace ASFParser

/-! ## Result codes -/

/-- The `HRESULT` values that occur in the sources, with a generic failure
code for any other error an external component may return. -/
inductive HRESULT where
  | S_OK
  | S_FALSE
  | E_FAIL
  | E_INVALIDARG
  | E_OUTOFMEMORY
  | E_NOTIMPL
  | MF_E_NOT_INITIALIZED
  | MF_E_ASF_NOINDEX
  | MF_E_NO_MORE_TYPES
  | MF_E_TRANSFORM_NEED_MORE_INPUT
  | MF_E_INVALIDMEDIATYPE
  | MF_E_INVALIDREQUEST
  | MF_E_TOPO_CODEC_NOT_FOUND
  | MF_E_NO_SAMPLE_TIMESTAMP
  | MF_E_BUFFERTOOSMALL
  | E_OTHER (code : Nat)
  deriving DecidableEq, Repr

/-- The `FAILED` test of the Windows headers: every code but the two success codes. -/
def FAILED : HRESULT → Bool
  | HRESULT.S_OK => false
  | HRESULT.S_FALSE => false
  | _ => true

/-- The `SUCCEEDED` test of the Windows headers. -/
def SUCCEEDED (hr : HRESULT) : Bool := !FAILED hr

/-- Media type identifiers compared by the sources. -/
inductive GUID where
  | GUID_NULL
  | MFMediaType_Audio
  | MFMediaType_Video
  | MFAudioFormat_PCM
  | MFVideoFormat_RGB32
  | other (n : Nat)
  deriving DecidableEq, Repr

/-! ## Machine arithmetic -/

/-- Reduction to an unsigned 32-bit value (`DWORD`, `UINT32`). -/
def wrap32 (x : Int) : Nat := (x % 2 ^ 32).toNat

/-- Reduction to an unsigned 64-bit value (`QWORD`, `UINT64`). -/
def wrap64 (x : Int) : Nat := (x % 2 ^ 64).toNat

/-- Reduction to a signed 64-bit value (`MFTIME`, `LONGLONG`), two's complement. -/
def wrapI64 (x : Int) : Int := (x + 2 ^ 63) % 2 ^ 64 - 2 ^ 63

/-- Round a rational to the nearest integer, ties to the even integer. -/
def rne (s : ℚ) : ℤ :=
  if s - ⌊s⌋ < 1 / 2 then ⌊s⌋
  else if 1 / 2 < s - ⌊s⌋ then ⌊s⌋ + 1
  else if ⌊s⌋ % 2 = 0 then ⌊s⌋ else ⌊s⌋ + 1

/-- Binary64 rounding of a positive rational: the significand is scaled into
`[2^52, 2^53)`, rounded to an integer (ties to even) and scaled back.  The
exponent range is unbounded; the values of this program stay far from the
overflow and subnormal thresholds. -/
def flPos (q : ℚ) : ℚ :=
  (rne (q * (2 : ℚ) ^ (52 - Int.log 2 q)) : ℚ) * (2 : ℚ) ^ (Int.log 2 q - 52)

/-- IEEE-754 binary64 round-to-nearest-even of an exact value. -/
def fl (q : ℚ) : ℚ :=
  if q = 0 then 0 else if 0 < q then flPos q else -flPos (-q)

/-- The C++ conversion `(int) x` of a finite `double`: truncation toward zero.
When the truncated value does not fit a signed 32-bit `int` the language
leaves the result undefined; the compiled program converts with the x86
instruction `cvttsd2si`, which then yields `INT_MIN` (`-2^31`), and goes on:
this is what the model returns. -/
def toInt32 (x : ℚ) : Option Int :=
  let z : Int := if 0 ≤ x then ⌊x⌋ else ⌈x⌉
  if -(2 : Int) ^ 31 ≤ z ∧ z < (2 : Int) ^ 31 then some z else some (-(2 : Int) ^ 31)

/-! ## Constants -/

/-- The constant `TEST_AUDIO_DURATION` of `MF_ASFParser.h` (5 s in 100 ns units). -/
def TEST_AUDIO_DURATION : Int := 50000000

/-- The constant `STREAMING` of `MF_ASFParser.h`. -/
def STREAMING : Nat := 1

/-- The constant `NOT_STREAMING` of `MF_ASFParser.h`. -/
def NOT_STREAMING : Nat := 2

/-- Modelled from the spec: the SDK constant `MFASF_SPLITTER_REVERSE`
(wmcontainer.h, not in the repository), the reverse-direction bit of the
demultiplexer flags. -/
def MFASF_SPLITTER_REVERSE : Nat := 1

/-- Modelled from the spec: the SDK constant `ASF_STATUSFLAGS_INCOMPLETE`
(wmcontainer.h, not in the repository), the demultiplexer status bit "more
samples available without new input". -/
def ASF_STATUSFLAGS_INCOMPLETE : Nat := 1

/-- Modelled from the spec: the SDK constant
`MFASF_INDEXER_READ_FOR_REVERSEPLAYBACK` (wmcontainer.h, not in the
repository), the index flag "favor reverse-playback entries". -/
def MFASF_INDEXER_READ_FOR_REVERSEPLAYBACK : Nat := 4

/-! ## Data model -/

/-- The numeric fields of `FILE_PROPERTIES_OBJECT` (`ASFManager.h`).  The
32-bit fields are meant below `2^32`, the 64-bit ones below `2^64`. -/
structure FILE_PROPERTIES_OBJECT where
  MaxBitRate : Nat := 0
  cbMaxPacketSize : Nat := 0
  cbMinPacketSize : Nat := 0
  cPackets : Nat := 0
  hnsPlayDuration : Nat := 0
  hnsSendDuration : Nat := 0
  flags : Nat := 0
  hnspreroll : Nat := 0
  hnsPresentationDuration : Nat := 0
  deriving DecidableEq, Repr

/-- The structure `SAMPLE_INFO` of `ASFManager.h`. -/
structure SAMPLE_INFO where
  fSeekedKeyFrame : Nat := 0
  wStreamNumber : Nat := 0
  cBufferCount : Nat := 0
  hnsSampleTime : Int := 0
  cbTotalLength : Nat := 0
  deriving DecidableEq, Repr

/-! ## External objects -/

/-- A media type object (`IMFMediaType`) with the responses of its getters. -/
structure IMFMediaType where
  hrGetMajorType : HRESULT := HRESULT.S_OK
  guidMajorType : GUID := GUID.GUID_NULL
  hrGetSubType : HRESULT := HRESULT.S_OK
  guidSubType : GUID := GUID.GUID_NULL
  hrGetFrameSize : HRESULT := HRESULT.S_OK
  width : Nat := 0
  height : Nat := 0
  hrGetStride : HRESULT := HRESULT.S_OK
  stride : Int := 0
  hrIsCompressedFormat : HRESULT := HRESULT.S_OK
  fIsCompressed : Bool := true
  deriving DecidableEq, Repr

/-- Responses of the platform during one `CMediaController::OpenAudioDevice`. -/
structure AudioDeviceEnv where
  hrCreateWaveFormat : HRESULT := HRESULT.S_OK
  formatSupported : Bool := true
  closeSucceeds : Bool := true
  threadError : Option HRESULT := none
  openSucceeds : Bool := true
  deriving DecidableEq, Repr

/-- Responses during one iteration of the output-draining loop of
`ProcessAudio` / `ProcessVideo`, in call order. -/
structure DrainStep where
  hrCreateMemoryBuffer : HRESULT := HRESULT.S_OK
  hrCreateSample : HRESULT := HRESULT.S_OK
  hrAddBuffer : HRESULT := HRESULT.S_OK
  hrProcessOutput : HRESULT := HRESULT.S_OK
  payload : Nat := 0
  hrCreateTestSample : HRESULT := HRESULT.S_OK
  hrConvert : HRESULT := HRESULT.S_OK
  hrAppend : HRESULT := HRESULT.S_OK
  hrBitmapAddBuffer : HRESULT := HRESULT.S_OK
  deriving DecidableEq, Repr

/-- Responses of the transform and the platform during one call of
`ProcessAudio` or `ProcessVideo`. -/
structure ProcessScript where
  hrGetOutputStreamInfo : HRESULT := HRESULT.S_OK
  hrCreateBitmapSample : HRESULT := HRESULT.S_OK
  hrProcessInput : HRESULT := HRESULT.S_OK
  drain : List DrainStep := []
  hrConvertToContiguous : HRESULT := HRESULT.S_OK
  hrGetOutputCurrentType : HRESULT := HRESULT.S_OK
  currentType : Option IMFMediaType := none
  hrLock : HRESULT := HRESULT.S_OK
  dataNonNull : Bool := true
  bitmapAllocated : Bool := true
  hrUnlock : HRESULT := HRESULT.S_OK
  deriving DecidableEq, Repr

/-- A decode transform (`IMFTransform`): its answers during configuration and
the scripts of its future `ProcessMessage` and process calls. -/
structure IMFTransform where
  hrGetStreamIDs : HRESULT := HRESULT.S_OK
  inputID : Nat := 0
  outputID : Nat := 0
  hrSetInputType : HRESULT := HRESULT.S_OK
  availableTypes : List (HRESULT × Option IMFMediaType) := []
  hrSetOutputType : HRESULT := HRESULT.S_OK
  messages : List HRESULT := []
  process : List ProcessScript := []
  deriving DecidableEq, Repr

/-- A frame bitmap built by `CreateBitmapForKeyFrame`: the decoded buffers it
was built from and the media type that described them. -/
structure Bitmap where
  pixels : List Nat
  mediaType : IMFMediaType
  deriving DecidableEq, Repr

/-- The state of `CMediaController` (`MediaController.cpp`). -/
structure CMediaController where
  m_pAudioTestSample : Option (List Nat) := none
  m_pBitmap : Option Bitmap := none
  m_Width : Nat := 0
  m_Height : Nat := 0
  m_hWaveOut : Bool := false
  m_fHasTestMedia : Bool := false
  deriving DecidableEq, Repr

/-- The state of `CDecoder` (`Decoder.h`). -/
structure CDecoder where
  m_pMFT : Option IMFTransform := none
  m_dwInputID : Nat := 0
  m_dwOutputID : Nat := 0
  m_DecoderState : Nat := 0
  m_pMediaController : Option CMediaController := none
  deriving DecidableEq, Repr

/-- A compressed sample delivered by the demultiplexer (`IMFSample`) with the
responses of the calls made on it. -/
structure IMFSample where
  hrGetSampleTime : HRESULT := HRESULT.S_OK
  hnsSampleTime : Int := 0
  cleanPoint : Nat := 0
  hrSetDiscontinuity : HRESULT := HRESULT.S_OK
  hrGetBufferCount : HRESULT := HRESULT.S_OK
  cBufferCount : Nat := 0
  hrGetTotalLength : HRESULT := HRESULT.S_OK
  cbTotalLength : Nat := 0
  deriving DecidableEq, Repr

/-! ## CMediaController -/

/-- The method `CMediaController::Reset`. -/
def CMediaController.Reset (mc : CMediaController) : HRESULT × CMediaController :=
  let hr := HRESULT.S_OK
  let mc1 := { mc with m_pBitmap := none, m_pAudioTestSample := none }
  if SUCCEEDED hr then (hr, { mc1 with m_fHasTestMedia := false }) else (hr, mc1)

/-- The method `CMediaController::CloseAudioDevice`. -/
def CMediaController.CloseAudioDevice (mc : CMediaController) (env : AudioDeviceEnv) :
    HRESULT × CMediaController :=
  if mc.m_hWaveOut then
    if !env.closeSucceeds then (HRESULT.E_FAIL, mc)
    else (HRESULT.S_OK, { mc with m_hWaveOut := false })
  else (HRESULT.S_OK, mc)

/-- The method `CMediaController::OpenAudioDevice`. -/
def CMediaController.OpenAudioDevice (mc : CMediaController) (env : AudioDeviceEnv)
    (pMediaType : Option IMFMediaType) : HRESULT × CMediaController :=
  match pMediaType with
  | none => (HRESULT.E_INVALIDARG, mc)
  | some _ =>
    if FAILED env.hrCreateWaveFormat then (env.hrCreateWaveFormat, mc)
    else if !env.formatSupported then (HRESULT.MF_E_INVALIDMEDIATYPE, mc)
    else
      let r := mc.CloseAudioDevice env
      if FAILED r.1 then r
      else
        match env.threadError with
        | some e => (e, r.2)
        | none =>
          if env.openSucceeds then (r.1, { r.2 with m_hWaveOut := true })
          else (HRESULT.E_FAIL, r.2)

/-- The method `CMediaController::AddToAudioTestSample`, for a non-null output
sample whose decoded payload is `s.payload`. -/
def CMediaController.AddToAudioTestSample (mc : CMediaController) (s : DrainStep) :
    HRESULT × CMediaController :=
  if mc.m_pAudioTestSample.isNone ∧ FAILED s.hrCreateTestSample then (s.hrCreateTestSample, mc)
  else
    let mc1 : CMediaController :=
      { mc with m_pAudioTestSample := some (mc.m_pAudioTestSample.getD []) }
    if FAILED s.hrConvert then (s.hrConvert, mc1)
    else if FAILED s.hrAppend then (s.hrAppend, mc1)
    else
      (s.hrAppend,
        { mc1 with
          m_pAudioTestSample := some (mc.m_pAudioTestSample.getD [] ++ [s.payload]),
          m_fHasTestMedia := true })

/-- The method `CMediaController::CreateBitmapForKeyFrame`. -/
def CMediaController.CreateBitmapForKeyFrame (mc : CMediaController) (pPixelData : Option (List Nat))
    (pMediaType : Option IMFMediaType) (bitmapAllocated : Bool) : HRESULT × CMediaController :=
  match pPixelData, pMediaType with
  | some px, some ty =>
    if FAILED ty.hrGetFrameSize then (ty.hrGetFrameSize, mc)
    else
      let mc1 := { mc with m_Width := ty.width, m_Height := ty.height }
      if FAILED ty.hrGetStride then (ty.hrGetStride, mc1)
      else if bitmapAllocated then
        (ty.hrGetStride,
          { mc1 with m_pBitmap := some { pixels := px, mediaType := ty }, m_fHasTestMedia := true })
      else (HRESULT.E_OUTOFMEMORY, { mc1 with m_pBitmap := none })
  | _, _ => (HRESULT.E_INVALIDARG, mc)

/-! ## CDecoder -/

/-- The constructor `CDecoder::CDecoder`. -/
def CDecoder.new : CDecoder :=
  { m_pMFT := none, m_dwInputID := 0, m_dwOutputID := 0, m_DecoderState := 0,
    m_pMediaController := none }

/-- The inline method `CDecoder::GetDecoderStatus`. -/
def CDecoder.GetDecoderStatus (d : CDecoder) : Nat := d.m_DecoderState

/-- The inline method `CDecoder::Reset`. -/
def CDecoder.Reset (d : CDecoder) : CDecoder :=
  { d with m_pMFT := none, m_pMediaController := none }

/-- The method `CDecoder::UnLoad`. -/
def CDecoder.UnLoad (d : CDecoder) : HRESULT × CDecoder :=
  match d.m_pMFT with
  | none => (HRESULT.S_OK, d)
  | some _ =>
    match d.m_pMediaController with
    | some mc => ((mc.Reset).1, { d with m_pMediaController := some (mc.Reset).2, m_pMFT := none })
    | none => (HRESULT.S_OK, { d with m_pMFT := none })

/-- The output-type loop of `CDecoder::ConfigureDecoder`.  The list holds
the responses of `GetOutputAvailableType` from the current index on; past its
end the transform answers `MF_E_NO_MORE_TYPES` without a type.  The result is
`none` when `m_pMediaController` is dereferenced while null. -/
def ConfigureDecoder.loop (mft : IMFTransform) (env : AudioDeviceEnv)
    (mc : Option CMediaController) :
    List (HRESULT × Option IMFMediaType) → HRESULT → HRESULT →
      Option (HRESULT × Option CMediaController)
  | types, hr, hrRes =>
    if hrRes = HRESULT.MF_E_NO_MORE_TYPES then some (hr, mc)
    else
      match types with
      | [] => some (HRESULT.E_FAIL, mc)
      | (_, none) :: _ => some (HRESULT.E_FAIL, mc)
      | (hrRes1, some ty) :: rest =>
        if SUCCEEDED hrRes1 then
          if FAILED ty.hrGetMajorType then some (ty.hrGetMajorType, mc)
          else if FAILED ty.hrGetSubType then some (ty.hrGetSubType, mc)
          else if ty.guidMajorType = GUID.MFMediaType_Audio ∧
              ty.guidSubType = GUID.MFAudioFormat_PCM then
            if FAILED mft.hrSetOutputType then some (mft.hrSetOutputType, mc)
            else
              match mc with
              | none => none
              | some c =>
                some ((c.OpenAudioDevice env (some ty)).1, some (c.OpenAudioDevice env (some ty)).2)
          else if ty.guidMajorType = GUID.MFMediaType_Video ∧
              ty.guidSubType = GUID.MFVideoFormat_RGB32 then
            some (mft.hrSetOutputType, mc)
          else ConfigureDecoder.loop mft env mc rest ty.hrGetSubType hrRes1
        else some (HRESULT.E_FAIL, mc)

/-- The method `CDecoder::ConfigureDecoder`. -/
def CDecoder.ConfigureDecoder (d : CDecoder) (pMediaType : Option IMFMediaType)
    (env : AudioDeviceEnv) : Option (HRESULT × CDecoder) :=
  match pMediaType with
  | none => some (HRESULT.E_INVALIDARG, d)
  | some _ =>
    match d.m_pMFT with
    | none => some (HRESULT.MF_E_NOT_INITIALIZED, d)
    | some mft =>
      let d1 : CDecoder :=
        if SUCCEEDED mft.hrGetStreamIDs then
          { d with m_dwInputID := mft.inputID, m_dwOutputID := mft.outputID }
        else d
      if SUCCEEDED mft.hrGetStreamIDs ∨ mft.hrGetStreamIDs = HRESULT.E_NOTIMPL then
        if FAILED mft.hrSetInputType then some (mft.hrSetInputType, d1)
        else
          (ConfigureDecoder.loop mft env d1.m_pMediaController mft.availableTypes
              mft.hrSetInputType HRESULT.S_OK).map
            fun r => (r.1, { d1 with m_pMediaController := r.2 })
      else some (mft.hrGetStreamIDs, d1)

/-- Responses of the platform during one `CDecoder::Initialize`: the result of
`CoCreateInstance` with the transform it creates, the result of
`CMediaController::CreateInstance`, and the audio device. -/
structure InitEnv where
  hrCoCreateInstance : HRESULT := HRESULT.S_OK
  transform : Option IMFTransform := none
  hrCreateController : HRESULT := HRESULT.S_OK
  audio : AudioDeviceEnv := {}
  deriving DecidableEq, Repr

/-- The `done:` label of `CDecoder::Initialize`: a failure is replaced by the
result of `UnLoad`. -/
def Initialize.done (r : HRESULT × CDecoder) : HRESULT × CDecoder :=
  if FAILED r.1 then r.2.UnLoad else r

/-- The method `CDecoder::Initialize`. -/
def CDecoder.Initialize (d : CDecoder) (clsid : GUID) (pMediaType : Option IMFMediaType)
    (env : InitEnv) : Option (HRESULT × CDecoder) :=
  if pMediaType.isNone ∨ clsid = GUID.GUID_NULL then some (HRESULT.E_INVALIDARG, d)
  else
    let u : HRESULT × CDecoder := if d.m_pMFT.isSome then d.UnLoad else (HRESULT.S_OK, d)
    if FAILED u.1 then some (Initialize.done u)
    else
      let d1 : CDecoder :=
        { u.2 with m_pMFT := if FAILED env.hrCoCreateInstance then none else env.transform }
      if FAILED env.hrCoCreateInstance then some (Initialize.done (env.hrCoCreateInstance, d1))
      else
        let c : HRESULT × CDecoder :=
          if d1.m_pMediaController.isNone then
            (env.hrCreateController,
              if FAILED env.hrCreateController then d1
              else { d1 with m_pMediaController := some {} })
          else (env.hrCoCreateInstance, d1)
        if FAILED c.1 then some (Initialize.done c)
        else (c.2.ConfigureDecoder pMediaType env.audio).map Initialize.done

/-- The method `CDecoder::StartDecoding`; `none` when the transform has no
scripted response left. -/
def CDecoder.StartDecoding (d : CDecoder) : Option (HRESULT × CDecoder) :=
  match d.m_pMFT with
  | none => some (HRESULT.MF_E_NOT_INITIALIZED, d)
  | some mft =>
    match mft.messages with
    | [] => none
    | hr :: rest =>
      let d1 := { d with m_pMFT := some { mft with messages := rest } }
      if SUCCEEDED hr then some (hr, { d1 with m_DecoderState := STREAMING })
      else some (hr, d1)

/-- The method `CDecoder::StopDecoding`; `none` when the transform has no
scripted response left. -/
def CDecoder.StopDecoding (d : CDecoder) : Option (HRESULT × CDecoder) :=
  match d.m_pMFT with
  | none => some (HRESULT.MF_E_NOT_INITIALIZED, d)
  | some mft =>
    match mft.messages with
    | [] => none
    | hr :: rest =>
      let d1 := { d with m_pMFT := some { mft with messages := rest } }
      if SUCCEEDED hr then some (hr, { d1 with m_DecoderState := NOT_STREAMING })
      else some (hr, d1)

/-- The output-draining loop `while (SUCCEEDED(hr))` of `CDecoder::ProcessAudio`
with the code that follows it; one `DrainStep` is consumed per iteration and
the result is `none` when the script ends before the loop does. -/
def ProcessAudio.loop : List DrainStep → HRESULT → CMediaController →
    Option (HRESULT × CMediaController)
  | steps, hr, mc =>
    if SUCCEEDED hr then
      match steps with
      | [] => none
      | s :: rest =>
        if FAILED s.hrCreateMemoryBuffer then some (s.hrCreateMemoryBuffer, mc)
        else if FAILED s.hrCreateSample then some (s.hrCreateSample, mc)
        else if FAILED s.hrAddBuffer then some (s.hrAddBuffer, mc)
        else if s.hrProcessOutput = HRESULT.MF_E_TRANSFORM_NEED_MORE_INPUT then
          some (HRESULT.S_OK, mc)
        else if FAILED s.hrProcessOutput then some (s.hrProcessOutput, mc)
        else if FAILED (mc.AddToAudioTestSample s).1 then some (mc.AddToAudioTestSample s)
        else ProcessAudio.loop rest (mc.AddToAudioTestSample s).1 (mc.AddToAudioTestSample s).2
    else some (hr, mc)

/-- The method `CDecoder::ProcessAudio`. -/
def CDecoder.ProcessAudio (d : CDecoder) (pSample : Option IMFSample) :
    Option (HRESULT × CDecoder) :=
  match pSample with
  | none => some (HRESULT.E_INVALIDARG, d)
  | some _ =>
    match d.m_pMFT, d.m_pMediaController with
    | some mft, some mc =>
      match mft.process with
      | [] => none
      | ps :: rest =>
        let d1 : CDecoder := { d with m_pMFT := some { mft with process := rest } }
        if FAILED ps.hrGetOutputStreamInfo then some (ps.hrGetOutputStreamInfo, d1)
        else if FAILED ps.hrProcessInput then some (ps.hrProcessInput, d1)
        else
          (ProcessAudio.loop ps.drain ps.hrProcessInput mc).map
            fun r => (r.1, { d1 with m_pMediaController := some r.2 })
    | _, _ => some (HRESULT.MF_E_NOT_INITIALIZED, d)

/-- The code of `CDecoder::ProcessVideo` that follows the draining loop: the
accumulated buffers `acc` of the bitmap sample are made contiguous and handed
with the current output type to `CreateBitmapForKeyFrame`. -/
def ProcessVideo.afterLoop (ps : ProcessScript) (acc : List Nat) (mc : CMediaController) :
    HRESULT × CMediaController :=
  if FAILED ps.hrConvertToContiguous then (ps.hrConvertToContiguous, mc)
  else if FAILED ps.hrGetOutputCurrentType then (ps.hrGetOutputCurrentType, mc)
  else if FAILED ps.hrLock then (ps.hrLock, mc)
  else
    let r := mc.CreateBitmapForKeyFrame (if ps.dataNonNull then some acc else none)
      ps.currentType ps.bitmapAllocated
    if FAILED r.1 then r else (ps.hrUnlock, r.2)

/-- The output-draining loop `while (SUCCEEDED(hr))` of `CDecoder::ProcessVideo`
with the code that follows it; one `DrainStep` is consumed per iteration and
the result is `none` when the script ends before the loop does. -/
def ProcessVideo.loop (ps : ProcessScript) : List DrainStep → HRESULT → List Nat →
    CMediaController → Option (HRESULT × CMediaController)
  | steps, hr, acc, mc =>
    if SUCCEEDED hr then
      match steps with
      | [] => none
      | s :: rest =>
        if FAILED s.hrCreateMemoryBuffer then some (s.hrCreateMemoryBuffer, mc)
        else if FAILED s.hrCreateSample then some (s.hrCreateSample, mc)
        else if FAILED s.hrAddBuffer then some (s.hrAddBuffer, mc)
        else if s.hrProcessOutput = HRESULT.MF_E_TRANSFORM_NEED_MORE_INPUT then
          some (HRESULT.S_OK, mc)
        else if FAILED s.hrBitmapAddBuffer then some (s.hrBitmapAddBuffer, mc)
        else ProcessVideo.loop ps rest s.hrBitmapAddBuffer (acc ++ [s.payload]) mc
    else some (ProcessVideo.afterLoop ps acc mc)

/-- The method `CDecoder::ProcessVideo`. -/
def CDecoder.ProcessVideo (d : CDecoder) (pSample : Option IMFSample) :
    Option (HRESULT × CDecoder) :=
  match pSample with
  | none => some (HRESULT.E_INVALIDARG, d)
  | some _ =>
    match d.m_pMFT, d.m_pMediaController with
    | some mft, some mc =>
      match mft.process with
      | [] => none
      | ps :: rest =>
        let d1 : CDecoder := { d with m_pMFT := some { mft with process := rest } }
        if FAILED ps.hrGetOutputStreamInfo then some (ps.hrGetOutputStreamInfo, d1)
        else if FAILED ps.hrCreateBitmapSample then some (ps.hrCreateBitmapSample, d1)
        else if FAILED ps.hrProcessInput then some (ps.hrProcessInput, d1)
        else
          (ProcessVideo.loop ps ps.drain ps.hrProcessInput [] mc).map
            fun r => (r.1, { d1 with m_pMediaController := some r.2 })
    | _, _ => some (HRESULT.MF_E_NOT_INITIALIZED, d)

/-! ## CASFManager -/

/-- The demultiplexer (`IMFASFSplitter`): its current flags and the results
of its configuration calls. -/
structure IMFASFSplitter where
  dwFlags : Nat := 0
  hrFlush : HRESULT := HRESULT.S_OK
  hrSetFlags : HRESULT := HRESULT.S_OK
  hrGetFlags : HRESULT := HRESULT.S_OK
  hrSelectStreams : HRESULT := HRESULT.S_OK
  deriving DecidableEq, Repr

/-- The index object (`IMFASFIndexer`): its current flags, the answer of
`GetIndexStatus` per stream number, the result of `SetFlags`, and the answer
of `GetSeekPositionForValue` per stream number, seek time and current flags
(result code, byte offset, approximate time). -/
structure IMFASFIndexer where
  dwFlags : Nat := 0
  indexStatus : Nat → HRESULT × Bool
  hrSetFlags : HRESULT := HRESULT.S_OK
  seekPosition : Nat → Int → Nat → HRESULT × Nat × Int

/-- A stream configuration object of the profile (`IMFASFStreamConfig`): its
stream number, the result of the `GetStream` call that hands it out, and the
answers of `GetStreamType` and `GetMediaType`. -/
structure IMFASFStreamConfig where
  wStreamNumber : Nat := 0
  hrGetStream : HRESULT := HRESULT.S_OK
  hrGetStreamType : HRESULT := HRESULT.S_OK
  guidStreamType : GUID := GUID.GUID_NULL
  hrGetMediaType : HRESULT := HRESULT.S_OK
  mediaType : Option IMFMediaType := none
  deriving DecidableEq, Repr

/-- The profile object (`IMFASFProfile`): its streams in profile order (their
number is the stream count it declares), the result of `GetStreamCount`, the
result of `GetStreamByNumber` for a number it holds, and the code it answers
for a number it does not hold. -/
structure IMFASFProfile where
  hrGetStreamCount : HRESULT := HRESULT.S_OK
  streams : List IMFASFStreamConfig := []
  hrGetStreamByNumber : HRESULT := HRESULT.S_OK
  hrNoSuchStream : HRESULT := HRESULT.MF_E_INVALIDREQUEST
  deriving DecidableEq, Repr

/-- The attributes of the presentation descriptor read by `CreateASFSplitter`. -/
structure IMFPresentationDescriptor where
  hrGetDataStartOffset : HRESULT := HRESULT.S_OK
  cbDataStartOffset : Nat := 0
  hrGetDataLength : HRESULT := HRESULT.S_OK
  cbDataLength : Nat := 0
  deriving DecidableEq, Repr

/-- The content information object (`IMFASFContentInfo`): the answers of
`GetProfile` and `GeneratePresentationDescriptor`. -/
structure IMFASFContentInfo where
  id : Nat := 0
  hrGetProfile : HRESULT := HRESULT.S_OK
  profile : IMFASFProfile := {}
  hrGeneratePresentationDescriptor : HRESULT := HRESULT.S_OK
  presentation : IMFPresentationDescriptor := {}
  deriving DecidableEq, Repr

/-- The byte stream handle (`IMFByteStream`), opaque here. -/
structure IMFByteStream where
  id : Nat := 0
  deriving DecidableEq, Repr

/-- The state of `CASFManager` (`ASFManager.h`). -/
structure CASFManager where
  m_CurrentStreamID : Nat := 0
  m_guidCurrentMediaType : GUID := GUID.GUID_NULL
  m_pDecoder : Option CDecoder := none
  m_fileinfo : Option FILE_PROPERTIES_OBJECT := none
  m_pContentInfo : Option IMFASFContentInfo := none
  m_pSplitter : Option IMFASFSplitter := none
  m_pIndexer : Option IMFASFIndexer := none
  m_pDataBuffer : Option Nat := none
  m_pByteStream : Option IMFByteStream := none
  m_cbDataOffset : Nat := 0
  m_cbDataLength : Nat := 0

/-- The constructor `CASFManager::CASFManager`. -/
def CASFManager.new : CASFManager :=
  { m_CurrentStreamID := 0, m_guidCurrentMediaType := GUID.GUID_NULL, m_fileinfo := none,
    m_pDecoder := none, m_pContentInfo := none, m_pIndexer := none, m_pSplitter := none,
    m_pDataBuffer := none, m_pByteStream := none, m_cbDataOffset := 0, m_cbDataLength := 0 }

/-- The `double fraction` of `CASFManager::GetSeekPositionManually` for a
non-zero duration: the operands are converted to binary64 and every operation
rounds. -/
def seekFraction (fi : FILE_PROPERTIES_OBJECT) (reverse : Bool) (hnsSeekTime : Int) : ℚ :=
  if reverse then
    fl (fl (fl (fi.hnsPresentationDuration : ℚ) - fl (hnsSeekTime : ℚ)) /
      fl (fi.hnsPresentationDuration : ℚ))
  else fl (fl (hnsSeekTime : ℚ) / fl (fi.hnsPresentationDuration : ℚ))

/-- The `int seeked_packets` of `CASFManager::GetSeekPositionManually`: the
packet count times the fraction, rounded to binary64 and converted to `int`.
A zero duration makes the fraction, and with it the product, infinite or NaN,
which the compiled program converts to `INT_MIN` as well. -/
def seekedPackets (fi : FILE_PROPERTIES_OBJECT) (reverse : Bool) (hnsSeekTime : Int) :
    Option Int :=
  if fi.hnsPresentationDuration = 0 then some (-(2 : Int) ^ 31)
  else toInt32 (fl ((fi.cPackets : ℚ) * seekFraction fi reverse hnsSeekTime))

/-- The `UINT32 averagepacketsize` of `CASFManager::GetSeekPositionManually`. -/
def averagepacketsize (fi : FILE_PROPERTIES_OBJECT) : Nat :=
  wrap32 (fi.cbMaxPacketSize + fi.cbMinPacketSize) / 2

/-- The method `CASFManager::GetSeekPositionManually`; the last argument and
the second component of the result are `*cbDataOffset` before and after. -/
def CASFManager.GetSeekPositionManually (m : CASFManager) (hnsSeekTime : Int)
    (cbDataOffset : Nat) : Option (HRESULT × Nat) :=
  match m.m_pSplitter with
  | none => none
  | some sp =>
    if FAILED sp.hrGetFlags then some (sp.hrGetFlags, cbDataOffset)
    else
      match m.m_fileinfo with
      | none => none
      | some fi =>
        (seekedPackets fi (sp.dwFlags &&& MFASF_SPLITTER_REVERSE != 0) hnsSeekTime).map
          fun seeked_packets =>
            (HRESULT.S_OK, wrap64 ((averagepacketsize fi : Int) * seeked_packets))

/-- The global function `GetSeekPositionWithIndexer` (`ASFManager.cpp`); the
result carries the index afterwards, `*pcbDataOffset` and `*phnsApproxSeekTime`. -/
def GetSeekPositionWithIndexer (pIndexer : IMFASFIndexer) (wStreamNumber : Nat)
    (hnsSeekTime : Int) (bReverse : Bool) (cbDataOffset : Nat) (hnsApproxSeekTime : Int) :
    HRESULT × IMFASFIndexer × Nat × Int :=
  let st := pIndexer.indexStatus wStreamNumber
  if st.1 != HRESULT.MF_E_BUFFERTOOSMALL ∧ FAILED st.1 then
    (st.1, pIndexer, cbDataOffset, hnsApproxSeekTime)
  else if !st.2 then (HRESULT.MF_E_ASF_NOINDEX, pIndexer, cbDataOffset, hnsApproxSeekTime)
  else if bReverse ∧ FAILED pIndexer.hrSetFlags then
    (pIndexer.hrSetFlags, pIndexer, cbDataOffset, hnsApproxSeekTime)
  else
    let ix : IMFASFIndexer :=
      if bReverse then { pIndexer with dwFlags := MFASF_INDEXER_READ_FOR_REVERSEPLAYBACK }
      else pIndexer
    let r := ix.seekPosition wStreamNumber hnsSeekTime ix.dwFlags
    if FAILED r.1 then (r.1, ix, cbDataOffset, hnsApproxSeekTime) else (r.1, ix, r.2.1, r.2.2)

/-- The method `CASFManager::GetSeekPositionWithIndexer`. -/
def CASFManager.GetSeekPositionWithIndexer (m : CASFManager) (hnsSeekTime : Int)
    (cbDataOffset : Nat) (hnsApproxSeekTime : Int) :
    Option (HRESULT × CASFManager × Nat × Int) :=
  match m.m_pIndexer with
  | none => some (HRESULT.MF_E_ASF_NOINDEX, m, cbDataOffset, hnsApproxSeekTime)
  | some ix =>
    match m.m_pSplitter with
    | none => none
    | some sp =>
      if FAILED sp.hrGetFlags then some (sp.hrGetFlags, m, cbDataOffset, hnsApproxSeekTime)
      else
        let r := ASFParser.GetSeekPositionWithIndexer ix m.m_CurrentStreamID hnsSeekTime
          (sp.dwFlags &&& MFASF_SPLITTER_REVERSE != 0) cbDataOffset hnsApproxSeekTime
        some (r.1, { m with m_pIndexer := some r.2.1 }, r.2.2.1, r.2.2.2)

/-- The method `CASFManager::GetSeekPosition`.  The seek time is passed by
pointer in the source but only read. -/
def CASFManager.GetSeekPosition (m : CASFManager) (hnsSeekTime : Int) (cbDataOffset : Nat)
    (hnsApproxSeekTime : Int) : Option (HRESULT × CASFManager × Nat × Int) :=
  if m.m_guidCurrentMediaType = GUID.MFMediaType_Audio ∨ m.m_pIndexer.isNone then
    (m.GetSeekPositionManually hnsSeekTime cbDataOffset).map
      fun r => (r.1, m, r.2, hnsApproxSeekTime)
  else if m.m_guidCurrentMediaType = GUID.MFMediaType_Video then
    m.GetSeekPositionWithIndexer hnsSeekTime cbDataOffset hnsApproxSeekTime
  else some (HRESULT.E_FAIL, m, cbDataOffset, hnsApproxSeekTime)

/-- The method `CASFManager::GetTestDuration`; `none` when `m_fileinfo` is null.
The 64-bit additions and subtractions wrap. -/
def CASFManager.GetTestDuration (m : CASFManager) (hnsSeekTime : Int) (bReverse : Bool) :
    Option Int :=
  match m.m_fileinfo with
  | none => none
  | some fi =>
    let hnsMaxSeekableTime : Int := wrapI64 ((fi.hnsPlayDuration : Int) - fi.hnspreroll)
    if bReverse then
      if wrapI64 (hnsSeekTime - TEST_AUDIO_DURATION) < 0 then some 0
      else some (wrapI64 (hnsSeekTime - TEST_AUDIO_DURATION))
    else
      if wrapI64 (hnsSeekTime + TEST_AUDIO_DURATION) > hnsMaxSeekableTime then
        some hnsMaxSeekableTime
      else some (wrapI64 (hnsSeekTime + TEST_AUDIO_DURATION))

/-- The method `CASFManager::GetSampleInfo` for non-null arguments. -/
def GetSampleInfo (pSample : IMFSample) (pSampleInfo : SAMPLE_INFO) : HRESULT × SAMPLE_INFO :=
  if FAILED pSample.hrGetBufferCount then (pSample.hrGetBufferCount, pSampleInfo)
  else
    let i1 := { pSampleInfo with cBufferCount := pSample.cBufferCount }
    if FAILED pSample.hrGetTotalLength then (pSample.hrGetTotalLength, i1)
    else
      let i2 := { i1 with cbTotalLength := pSample.cbTotalLength }
      let i3 := if FAILED pSample.hrGetSampleTime then i2
        else { i2 with hnsSampleTime := pSample.hnsSampleTime }
      if pSample.hrGetSampleTime = HRESULT.MF_E_NO_SAMPLE_TIMESTAMP then (HRESULT.S_OK, i3)
      else (pSample.hrGetSampleTime, i3)

/-! ## The sample pipeline -/

/-- Responses of the platform during one `ReadDataIntoBuffer`, in call order. -/
structure ReadResp where
  hrCreateMemoryBuffer : HRESULT := HRESULT.S_OK
  hrLock : HRESULT := HRESULT.S_OK
  hrSetCurrentPosition : HRESULT := HRESULT.S_OK
  hrRead : HRESULT := HRESULT.S_OK
  hrUnlock : HRESULT := HRESULT.S_OK
  hrSetCurrentLength : HRESULT := HRESULT.S_OK
  deriving DecidableEq, Repr

/-- The answer of one `IMFASFSplitter::GetNextSample`. -/
structure NextSample where
  hr : HRESULT := HRESULT.S_OK
  dwStatusFlags : Nat := 0
  wStreamNumber : Nat := 0
  pSample : Option IMFSample := none
  deriving DecidableEq, Repr

/-- Responses of the environment during one iteration of the chunk loop of
`GenerateSamplesLoop`: the read, `ParseData`, and the successive
`GetNextSample` calls of the draining loop. -/
structure ChunkResp where
  read : ReadResp := {}
  hrParseData : HRESULT := HRESULT.S_OK
  samples : List NextSample := []
  deriving DecidableEq, Repr

/-- What a scan carries along: the session, the caller's `SAMPLE_INFO`, the
records handed to the display callback (oldest first), the reads issued on the
byte stream as (offset, length), and the completion flag. -/
structure ScanState where
  mgr : CASFManager
  info : SAMPLE_INFO := {}
  sink : List SAMPLE_INFO := []
  reads : List (Nat × Nat) := []
  fComplete : Bool := false

/-- The method `CASFManager::ReadDataIntoBuffer`: the result code and whether
`Read` was reached; `none` when the stream pointer is dereferenced while null. -/
def ReadDataIntoBuffer (pStream : Option IMFByteStream) (r : ReadResp) :
    Option (HRESULT × Bool) :=
  if FAILED r.hrCreateMemoryBuffer then some (r.hrCreateMemoryBuffer, false)
  else if FAILED r.hrLock then some (r.hrLock, false)
  else
    match pStream with
    | none => none
    | some _ =>
      if FAILED r.hrSetCurrentPosition then some (r.hrSetCurrentPosition, false)
      else if FAILED r.hrRead then some (r.hrRead, true)
      else if FAILED r.hrUnlock then some (r.hrUnlock, true)
      else some (r.hrSetCurrentLength, true)

/-- The method `CASFManager::SendAudioSampleToDecoder` for a non-null sample;
`none` when `m_pDecoder` is null. -/
def CASFManager.SendAudioSampleToDecoder (st : ScanState) (pSample : IMFSample)
    (hnsTestSampleEndTime : Int) (bReverse : Bool) : Option (HRESULT × ScanState) :=
  match st.mgr.m_pDecoder with
  | none => none
  | some d =>
    if FAILED pSample.hrGetSampleTime then some (pSample.hrGetSampleTime, st)
    else
      let bShouldDecode : Bool :=
        if bReverse then decide (pSample.hnsSampleTime > hnsTestSampleEndTime)
        else decide (pSample.hnsSampleTime < hnsTestSampleEndTime)
      if bShouldDecode then
        (if d.GetDecoderStatus != STREAMING then d.StartDecoding
          else some (pSample.hrGetSampleTime, d)).bind fun s =>
        if FAILED s.1 then some (s.1, { st with mgr := { st.mgr with m_pDecoder := some s.2 } })
        else
          (s.2.ProcessAudio (some pSample)).bind fun p =>
          let st1 : ScanState := { st with mgr := { st.mgr with m_pDecoder := some p.2 } }
          if FAILED p.1 then some (p.1, st1)
          else
            let i := (GetSampleInfo pSample st1.info).2
            some (p.1, { st1 with info := i, sink := st1.sink ++ [i], fComplete := !bShouldDecode })
      else
        d.StopDecoding.bind fun s =>
        let st1 : ScanState := { st with mgr := { st.mgr with m_pDecoder := some s.2 } }
        if FAILED s.1 then some (s.1, st1)
        else some (s.1, { st1 with fComplete := !bShouldDecode })

/-- The preroll adjustment of `CASFManager::SendKeyFrameToDecoder`. -/
def adjustPreroll (hnsCurrentSampleTime : Int) (hnspreroll : Nat) : Int :=
  if wrap64 hnsCurrentSampleTime > hnspreroll then
    wrapI64 ((wrap64 hnsCurrentSampleTime : Int) - hnspreroll)
  else hnsCurrentSampleTime

/-- The method `CASFManager::SendKeyFrameToDecoder` for a non-null sample;
`none` when `m_pDecoder` or `m_fileinfo` is null. -/
def CASFManager.SendKeyFrameToDecoder (st : ScanState) (pSample : IMFSample)
    (hnsSeekTime : Int) (bReverse : Bool) : Option (HRESULT × ScanState) :=
  if FAILED pSample.hrGetSampleTime then some (pSample.hrGetSampleTime, st)
  else
    match st.mgr.m_fileinfo with
    | none => none
    | some fi =>
      let hnsCurrentSampleTime := adjustPreroll pSample.hnsSampleTime fi.hnspreroll
      if pSample.cleanPoint = 0 then some (pSample.hrGetSampleTime, st)
      else
        let fShouldDecode : Bool :=
          if bReverse then decide (hnsCurrentSampleTime ≤ hnsSeekTime)
          else decide (hnsCurrentSampleTime ≥ hnsSeekTime)
        if fShouldDecode then
          match st.mgr.m_pDecoder with
          | none => none
          | some d =>
            (if d.GetDecoderStatus != STREAMING then d.StartDecoding
              else some (pSample.hrGetSampleTime, d)).bind fun s =>
            let st0 : ScanState := { st with mgr := { st.mgr with m_pDecoder := some s.2 } }
            if FAILED s.1 then some (s.1, st0)
            else if FAILED pSample.hrSetDiscontinuity then some (pSample.hrSetDiscontinuity, st0)
            else
              (s.2.ProcessVideo (some pSample)).bind fun p =>
              let st1 : ScanState := { st with mgr := { st.mgr with m_pDecoder := some p.2 } }
              if FAILED p.1 then some (p.1, st1)
              else
                let i := { (GetSampleInfo pSample st1.info).2 with fSeekedKeyFrame := 1 }
                p.2.StopDecoding.map fun e =>
                  (e.1,
                    { st1 with
                      mgr := { st1.mgr with m_pDecoder := some e.2 },
                      info := i, sink := st1.sink ++ [i], fComplete := true })
        else some (pSample.hrGetSampleTime, st)

/-- How the draining loop of `GenerateSamplesLoop` was left: by `goto done`
(`abort`) or by its end or `break`. -/
structure DrainExit where
  hr : HRESULT
  abort : Bool
  st : ScanState

/-- The `do ... while (dwStatusFlags & ASF_STATUSFLAGS_INCOMPLETE)` loop of
`CASFManager::GenerateSamplesLoop`; `none` when the scripted answers end while
the demultiplexer still reports more samples, or on a null dereference. -/
def GenerateSamplesLoop.drain (hnsSeekTime hnsTestSampleDuration : Int) (bReverse : Bool) :
    List NextSample → ScanState → Option DrainExit
  | [], _ => none
  | r :: rest, st =>
    if FAILED r.hr then some { hr := r.hr, abort := true, st := st }
    else
      let next : ScanState → Option DrainExit := fun s =>
        if r.dwStatusFlags &&& ASF_STATUSFLAGS_INCOMPLETE != 0 then
          GenerateSamplesLoop.drain hnsSeekTime hnsTestSampleDuration bReverse rest s
        else some { hr := r.hr, abort := false, st := s }
      match r.pSample with
      | none => next st
      | some pSample =>
        let st1 : ScanState := { st with info := { st.info with wStreamNumber := r.wStreamNumber } }
        if st1.mgr.m_pDecoder.isSome then
          (if st1.mgr.m_guidCurrentMediaType = GUID.MFMediaType_Audio then
              (CASFManager.SendAudioSampleToDecoder st1 pSample hnsTestSampleDuration bReverse).map
                fun x => x.2
            else if st1.mgr.m_guidCurrentMediaType = GUID.MFMediaType_Video then
              (CASFManager.SendKeyFrameToDecoder st1 pSample hnsSeekTime bReverse).map
                fun x => x.2
            else some st1).bind fun st2 =>
          if st2.fComplete then some { hr := r.hr, abort := false, st := st2 } else next st2
        else next st1

/-- The method `CASFManager::GenerateSamplesLoop`: one `ChunkResp` is consumed
per iteration of the chunk loop; `none` when the script ends before the loop
does, or on a null dereference. -/
def CASFManager.GenerateSamplesLoop (hnsSeekTime hnsTestSampleDuration : Int) (bReverse : Bool) :
    List ChunkResp → Nat → Nat → HRESULT → ScanState → Option (HRESULT × ScanState)
  | chunks, cbDataOffset, cbDataLen, hr, st =>
    if !st.fComplete ∧ cbDataLen > 0 then
      match chunks with
      | [] => none
      | c :: rest =>
        let cbRead := min (1024 * 4) cbDataLen
        let pos := if bReverse then wrap32 ((cbDataOffset : Int) - cbRead) else cbDataOffset
        (ReadDataIntoBuffer st.mgr.m_pByteStream c.read).bind fun rd =>
          let st1 : ScanState :=
            if rd.2 then { st with reads := st.reads ++ [(pos, cbRead)] } else st
          if FAILED rd.1 then some (rd.1, st1)
          else
            let cbDataOffset1 :=
              if bReverse then wrap32 ((cbDataOffset : Int) - cbRead)
              else wrap32 ((cbDataOffset : Int) + cbRead)
            let cbDataLen1 := wrap32 ((cbDataLen : Int) - cbRead)
            if FAILED c.hrParseData then some (c.hrParseData, st1)
            else
              (GenerateSamplesLoop.drain hnsSeekTime hnsTestSampleDuration bReverse
                  c.samples st1).bind fun e =>
                if e.abort then some (e.hr, e.st)
                else
                  CASFManager.GenerateSamplesLoop hnsSeekTime hnsTestSampleDuration bReverse
                    rest cbDataOffset1 cbDataLen1 e.hr e.st
    else some (hr, st)

/-- Responses of the environment during one `GenerateSamples`. -/
structure ScanEnv where
  chunks : List ChunkResp := []
  deriving DecidableEq, Repr

/-- The part of `CASFManager::GenerateSamples` that follows a successful
`GetSeekPosition`: the audio boundary, the start of the decoder, the byte range
and the scan.  `hrSeek` is the value of `hr` left by `GetSeekPosition`. -/
def GenerateSamples.afterSeek (m2 : CASFManager) (hrSeek : HRESULT) (cbStartOffset : Nat)
    (hnsSeekTime : Int) (bReverse : Bool) (pSampleInfo : SAMPLE_INFO) (env : ScanEnv) :
    Option (HRESULT × ScanState) :=
  (if m2.m_guidCurrentMediaType = GUID.MFMediaType_Audio then
      m2.GetTestDuration hnsSeekTime bReverse
    else some 0).bind fun hnsTestSampleDuration =>
  (match m2.m_pDecoder with
    | none => some m2
    | some d =>
      (if d.GetDecoderStatus != STREAMING then d.StartDecoding else some (hrSeek, d)).map
        fun (s : HRESULT × CDecoder) =>
          if FAILED s.1 then { m2 with m_pDecoder := none }
          else { m2 with m_pDecoder := some s.2 }).bind fun m3 =>
  let cbReadLen := wrap32 ((m3.m_cbDataLength : Int) - cbStartOffset)
  if bReverse then
    CASFManager.GenerateSamplesLoop hnsSeekTime hnsTestSampleDuration bReverse env.chunks
      (wrap32 ((m3.m_cbDataLength : Int) + m3.m_cbDataOffset - cbStartOffset))
      cbReadLen HRESULT.S_OK { mgr := m3, info := pSampleInfo }
  else
    CASFManager.GenerateSamplesLoop hnsSeekTime hnsTestSampleDuration bReverse env.chunks
      (wrap32 ((m3.m_cbDataOffset : Int) + cbStartOffset))
      cbReadLen HRESULT.S_OK { mgr := m3, info := pSampleInfo }

/-- The method `CASFManager::GenerateSamples`.  The result carries the
session afterwards, the caller's `SAMPLE_INFO`, the records handed to the
display callback and the reads issued. -/
def CASFManager.GenerateSamples (m : CASFManager) (hnsSeekTime : Int) (dwFlags : Nat)
    (pSampleInfo : SAMPLE_INFO) (env : ScanEnv) : Option (HRESULT × ScanState) :=
  match m.m_pSplitter with
  | none => some (HRESULT.MF_E_NOT_INITIALIZED, { mgr := m, info := pSampleInfo })
  | some sp =>
    if FAILED sp.hrFlush then some (sp.hrFlush, { mgr := m, info := pSampleInfo })
    else
      let dwFlags1 := if FAILED sp.hrSetFlags then 0 else dwFlags
      let m1 : CASFManager :=
        if FAILED sp.hrSetFlags then m else { m with m_pSplitter := some { sp with dwFlags := dwFlags } }
      let bReverse : Bool := dwFlags1 &&& MFASF_SPLITTER_REVERSE == MFASF_SPLITTER_REVERSE
      (m1.GetSeekPosition hnsSeekTime 0 0).bind fun g =>
        if FAILED g.1 then some (g.1, { mgr := g.2.1, info := pSampleInfo })
        else GenerateSamples.afterSeek g.2.1 g.1 g.2.2.1 hnsSeekTime bReverse pSampleInfo env

/-- The method `CASFManager::Reset`. -/
def CASFManager.Reset (m : CASFManager) : CASFManager :=
  { m with
    m_pContentInfo := none, m_pDataBuffer := none, m_pIndexer := none, m_pSplitter := none,
    m_pByteStream := none, m_cbDataOffset := 0, m_cbDataLength := 0, m_pDecoder := none,
    m_fileinfo := none }

/-! ## Opening a file, enumerating and selecting streams -/

/-- Responses of the platform during one `CASFManager::OpenASFFile`, in call
order: `MFCreateFile` and the byte stream it creates, the calls of
`CreateASFContentInfo` with the content information object it parses, the calls
of `CreateASFSplitter` with the demultiplexer it creates, and the calls of
`CreateASFIndexer` with the index object it creates. -/
structure OpenEnv where
  hrMFCreateFile : HRESULT := HRESULT.S_OK
  pStream : Option IMFByteStream := some {}
  hrMFCreateASFContentInfo : HRESULT := HRESULT.S_OK
  readHeaderSize : ReadResp := {}
  hrGetHeaderSize : HRESULT := HRESULT.S_OK
  readHeader : ReadResp := {}
  hrParseHeader : HRESULT := HRESULT.S_OK
  contentInfo : IMFASFContentInfo := {}
  hrMFCreateASFSplitter : HRESULT := HRESULT.S_OK
  hrSplitterInitialize : HRESULT := HRESULT.S_OK
  splitter : IMFASFSplitter := {}
  hrMFCreateASFIndexer : HRESULT := HRESULT.S_OK
  hrIndexerInitialize : HRESULT := HRESULT.S_OK
  hrGetLength : HRESULT := HRESULT.S_OK
  qwLength : Nat := 0
  hrGetIndexPosition : HRESULT := HRESULT.S_OK
  qwIndexOffset : Nat := 0
  hrMFCreateASFIndexerByteStream : HRESULT := HRESULT.S_OK
  hrSetIndexByteStreams : HRESULT := HRESULT.S_OK
  indexer : IMFASFIndexer :=
    { indexStatus := fun _ => (HRESULT.S_OK, false),
      seekPosition := fun _ _ _ => (HRESULT.E_FAIL, 0, 0) }

/-- The method `CASFManager::CreateASFContentInfo`: the result code and the
object written to `*ppContentInfo`, if any. -/
def CreateASFContentInfo (pContentByteStream : Option IMFByteStream) (env : OpenEnv) :
    Option (HRESULT × Option IMFASFContentInfo) :=
  match pContentByteStream with
  | none => some (HRESULT.E_INVALIDARG, none)
  | some _ =>
    if FAILED env.hrMFCreateASFContentInfo then some (env.hrMFCreateASFContentInfo, none)
    else
      (ReadDataIntoBuffer pContentByteStream env.readHeaderSize).bind fun r1 =>
        if FAILED r1.1 then some (r1.1, none)
        else if FAILED env.hrGetHeaderSize then some (env.hrGetHeaderSize, none)
        else
          (ReadDataIntoBuffer pContentByteStream env.readHeader).bind fun r2 =>
            if FAILED r2.1 then some (r2.1, none)
            else if FAILED env.hrParseHeader then some (env.hrParseHeader, none)
            else some (env.hrParseHeader, some env.contentInfo)

/-- The method `CASFManager::CreateASFSplitter`, called with `&m_pSplitter`. -/
def CASFManager.CreateASFSplitter (m : CASFManager) (pContentByteStream : Option IMFByteStream)
    (env : OpenEnv) : HRESULT × CASFManager :=
  match pContentByteStream with
  | none => (HRESULT.E_INVALIDARG, m)
  | some _ =>
    match m.m_pContentInfo with
    | none => (HRESULT.MF_E_NOT_INITIALIZED, m)
    | some ci =>
      if FAILED env.hrMFCreateASFSplitter then (env.hrMFCreateASFSplitter, m)
      else if FAILED env.hrSplitterInitialize then (env.hrSplitterInitialize, m)
      else if FAILED ci.hrGeneratePresentationDescriptor then
        (ci.hrGeneratePresentationDescriptor, m)
      else if FAILED ci.presentation.hrGetDataStartOffset then
        (ci.presentation.hrGetDataStartOffset, m)
      else if FAILED ci.presentation.hrGetDataLength then
        (ci.presentation.hrGetDataLength, m)
      else
        (ci.presentation.hrGetDataLength,
          { m with
            m_pByteStream := pContentByteStream,
            m_cbDataOffset := ci.presentation.cbDataStartOffset,
            m_cbDataLength := ci.presentation.cbDataLength,
            m_pSplitter := some env.splitter })

/-- The global function `CreateASFIndexer`: the result code and the object
written to `*ppIndexer`, if any; `none` when the stream pointer is
dereferenced while null. -/
def CreateASFIndexer (pContentByteStream : Option IMFByteStream) (env : OpenEnv) :
    Option (HRESULT × Option IMFASFIndexer) :=
  if FAILED env.hrMFCreateASFIndexer then some (env.hrMFCreateASFIndexer, none)
  else if FAILED env.hrIndexerInitialize then some (env.hrIndexerInitialize, none)
  else
    match pContentByteStream with
    | none => none
    | some _ =>
      if FAILED env.hrGetLength then some (env.hrGetLength, none)
      else if FAILED env.hrGetIndexPosition then some (env.hrGetIndexPosition, none)
      else if env.qwIndexOffset ≥ env.qwLength then some (env.hrGetIndexPosition, none)
      else if FAILED env.hrMFCreateASFIndexerByteStream then
        some (env.hrMFCreateASFIndexerByteStream, none)
      else if FAILED env.hrSetIndexByteStreams then some (env.hrSetIndexByteStreams, none)
      else some (env.hrSetIndexByteStreams, some env.indexer)

/-- The method `CASFManager::OpenASFFile`. -/
def CASFManager.OpenASFFile (m : CASFManager) (env : OpenEnv) : Option (HRESULT × CASFManager) :=
  if FAILED env.hrMFCreateFile then some (env.hrMFCreateFile, m)
  else
    (CreateASFContentInfo env.pStream env).bind fun c =>
      let m1 : CASFManager :=
        match c.2 with
        | some ci => { m.Reset with m_pContentInfo := some ci }
        | none => m.Reset
      if FAILED c.1 then some (c.1, m1)
      else
        let s := m1.CreateASFSplitter env.pStream env
        if FAILED s.1 then some s
        else
          (CreateASFIndexer env.pStream env).map fun i =>
            (i.1,
              match i.2 with
              | some ix => { s.2 with m_pIndexer := some ix }
              | none => s.2)

/-- Responses of the allocator during one `CASFManager::EnumerateStreams`:
whether the two `new (std::nothrow)` calls return an array. -/
structure EnumEnv where
  numbersAllocated : Bool := true
  typesAllocated : Bool := true
  deriving DecidableEq, Repr

/-- What `CASFManager::EnumerateStreams` leaves behind: the result code, the
arrays written to `*ppwStreamNumbers` and `*ppguidMajorType` (`none` when not
written), and `*pcTotalStreams`. -/
structure EnumResult where
  hr : HRESULT
  pwStreamNumbers : Option (List Nat)
  pguidMajorType : Option (List GUID)
  cTotalStreams : Nat
  deriving DecidableEq, Repr

/-- The test `&cStreams == 0` of `CASFManager::EnumerateStreams`: it compares
the address of a local variable with null, which never holds. -/
def addressOfStreamCountIsNull : Bool := false

/-- The `for` loop of `CASFManager::EnumerateStreams` over the streams from
the current index on: the last result code and the array entries filled. -/
def EnumerateStreams.loop :
    List IMFASFStreamConfig → HRESULT → List Nat → List GUID → HRESULT × List Nat × List GUID
  | [], hr, numbers, types => (hr, numbers, types)
  | s :: rest, _, numbers, types =>
    if FAILED s.hrGetStream then (s.hrGetStream, numbers, types)
    else if FAILED s.hrGetStreamType then (s.hrGetStreamType, numbers ++ [s.wStreamNumber], types)
    else
      EnumerateStreams.loop rest s.hrGetStreamType (numbers ++ [s.wStreamNumber])
        (types ++ [s.guidStreamType])

/-- The method `CASFManager::EnumerateStreams` for non-null arguments;
`cTotalStreams` is `*pcTotalStreams` before the call.  The result is `none`
where the `done:` block applies `delete []` to an array pointer that was never
initialised: when `GetProfile`, `GetStreamCount` or the first allocation
fails. -/
def CASFManager.EnumerateStreams (m : CASFManager) (cTotalStreams : Nat) (env : EnumEnv) :
    Option EnumResult :=
  match m.m_pContentInfo with
  | none =>
    some { hr := HRESULT.MF_E_NOT_INITIALIZED, pwStreamNumbers := none, pguidMajorType := none,
           cTotalStreams := cTotalStreams }
  | some ci =>
    if FAILED ci.hrGetProfile then none
    else if FAILED ci.profile.hrGetStreamCount then none
    else if addressOfStreamCountIsNull then none
    else if !env.numbersAllocated then none
    else if !env.typesAllocated then
      some { hr := HRESULT.E_OUTOFMEMORY, pwStreamNumbers := none, pguidMajorType := none,
             cTotalStreams := 0 }
    else
      let r := EnumerateStreams.loop ci.profile.streams ci.profile.hrGetStreamCount [] []
      if FAILED r.1 then
        some { hr := r.1, pwStreamNumbers := none, pguidMajorType := none, cTotalStreams := 0 }
      else
        some { hr := r.1, pwStreamNumbers := some r.2.1, pguidMajorType := some r.2.2,
               cTotalStreams := ci.profile.streams.length }

/-- Responses of the platform during one `CASFManager::SetupStreamDecoder`:
the result of `MFTEnum` with the decoder class identifiers it finds, and the
responses during `CDecoder::Initialize`. -/
structure SelectEnv where
  hrMFTEnum : HRESULT := HRESULT.S_OK
  decoderCLSIDs : List GUID := []
  init : InitEnv := {}
  deriving DecidableEq, Repr

/-- The call `IMFASFProfile::GetStreamByNumber`: the first stream of the
profile with that number. -/
def IMFASFProfile.GetStreamByNumber (p : IMFASFProfile) (wStreamNumber : Nat) :
    HRESULT × Option IMFASFStreamConfig :=
  match p.streams.find? fun s => s.wStreamNumber == wStreamNumber with
  | some s => (p.hrGetStreamByNumber, some s)
  | none => (p.hrNoSuchStream, none)

/-- The method `CASFManager::SetupStreamDecoder`; the last argument and the
last component of the result are `*pguidCurrentMediaType` before and after.
The result is `none` when a stream or media type pointer is dereferenced
while null.  `CDecoder::CreateInstance` uses the throwing `new` and returns
`S_OK` whenever it returns. -/
def CASFManager.SetupStreamDecoder (m : CASFManager) (wStreamNumber : Nat)
    (guidCurrentMediaType : GUID) (env : SelectEnv) : Option (HRESULT × CASFManager × GUID) :=
  match m.m_pContentInfo with
  | none => some (HRESULT.MF_E_NOT_INITIALIZED, m, guidCurrentMediaType)
  | some ci =>
    if wStreamNumber = 0 then some (HRESULT.E_INVALIDARG, m, guidCurrentMediaType)
    else if FAILED ci.hrGetProfile then some (ci.hrGetProfile, m, guidCurrentMediaType)
    else if FAILED (ci.profile.GetStreamByNumber wStreamNumber).1 then
      some ((ci.profile.GetStreamByNumber wStreamNumber).1, m, guidCurrentMediaType)
    else
      match (ci.profile.GetStreamByNumber wStreamNumber).2 with
      | none => none
      | some pStream =>
        if FAILED pStream.hrGetMediaType then
          some (pStream.hrGetMediaType, m, guidCurrentMediaType)
        else
          match pStream.mediaType with
          | none => none
          | some pMediaType =>
            if FAILED pMediaType.hrGetMajorType then
              some (pMediaType.hrGetMajorType, m, guidCurrentMediaType)
            else if FAILED pMediaType.hrGetSubType then
              some (pMediaType.hrGetSubType, m, guidCurrentMediaType)
            else if FAILED pMediaType.hrIsCompressedFormat then
              some (pMediaType.hrIsCompressedFormat, m, guidCurrentMediaType)
            else if pMediaType.fIsCompressed then
              if pMediaType.guidMajorType = GUID.MFMediaType_Video ∨
                  pMediaType.guidMajorType = GUID.MFMediaType_Audio then
                if FAILED env.hrMFTEnum then some (env.hrMFTEnum, m, guidCurrentMediaType)
                else
                  match env.decoderCLSIDs with
                  | [] => some (HRESULT.MF_E_TOPO_CODEC_NOT_FOUND, m, guidCurrentMediaType)
                  | clsid :: _ =>
                    ((m.m_pDecoder.getD CDecoder.new).Initialize clsid (some pMediaType)
                        env.init).map fun (r : HRESULT × CDecoder) =>
                      if FAILED r.1 then
                        (r.1, { m with m_pDecoder := some r.2 }, guidCurrentMediaType)
                      else (r.1, { m with m_pDecoder := some r.2 }, pMediaType.guidMajorType)
              else some (HRESULT.MF_E_INVALIDMEDIATYPE, m, guidCurrentMediaType)
            else some (HRESULT.MF_E_INVALIDREQUEST, m, guidCurrentMediaType)

/-- The method `CASFManager::SelectStream` for a non-null
`pguidCurrentMediaType`; the last argument and the last component of the
result are `*pguidCurrentMediaType` before and after. -/
def CASFManager.SelectStream (m : CASFManager) (wStreamNumber : Nat)
    (guidCurrentMediaType : GUID) (env : SelectEnv) : Option (HRESULT × CASFManager × GUID) :=
  if wStreamNumber = 0 then some (HRESULT.E_INVALIDARG, m, guidCurrentMediaType)
  else
    match m.m_pSplitter, m.m_pContentInfo with
    | some sp, some _ =>
      if FAILED sp.hrSelectStreams then some (sp.hrSelectStreams, m, guidCurrentMediaType)
      else
        (m.SetupStreamDecoder wStreamNumber guidCurrentMediaType env).map
          fun (r : HRESULT × CASFManager × GUID) =>
            if FAILED r.1 then r
            else
              (r.1,
                { r.2.1 with m_CurrentStreamID := wStreamNumber,
                             m_guidCurrentMediaType := r.2.2 },
                r.2.2)
    | _, _ => some (HRESULT.MF_E_NOT_INITIALIZED, m, guidCurrentMediaType)


/-! ## The specification's formula and the sessions used as concrete inputs -/

/-- The packet index of interpolated resolution as the specification words it,
in exact arithmetic: `floor(packetCount * fraction)` with
`fraction = time / duration` forward and `(duration - time) / duration` in
reverse. -/
def specPacketIndex (fi : FILE_PROPERTIES_OBJECT) (reverse : Bool) (time : Int) : ℤ :=
  ⌊(fi.cPackets : ℚ) *
    (if reverse then
      ((fi.hnsPresentationDuration : ℚ) - (time : ℚ)) / (fi.hnsPresentationDuration : ℚ)
    else (time : ℚ) / (fi.hnsPresentationDuration : ℚ))⌋

/-- The byte offset of interpolated resolution as the specification words it:
`avgPacketSize * packetIndex` with `avgPacketSize = (max + min) / 2`. -/
def specByteOffset (fi : FILE_PROPERTIES_OBJECT) (reverse : Bool) (time : Int) : ℤ :=
  (((fi.cbMaxPacketSize + fi.cbMinPacketSize) / 2 : ℕ) : ℤ) * specPacketIndex fi reverse time

/-- A session that holds file properties and a demultiplexer with the given
flags, and nothing else. -/
def seekSession (fi : FILE_PROPERTIES_OBJECT) (dwFlags : Nat) : CASFManager :=
  { m_fileinfo := some fi, m_pSplitter := some { dwFlags := dwFlags } }

/-- A file of duration 10 with 90 packets of size 2000. -/
def fileTenths : FILE_PROPERTIES_OBJECT :=
  { cbMaxPacketSize := 2000, cbMinPacketSize := 2000, cPackets := 90,
    hnsPresentationDuration := 10 }

/-- The file of the specification's examples: duration 100, 1000 packets of
average size 2000. -/
def fileQuarter : FILE_PROPERTIES_OBJECT :=
  { cbMaxPacketSize := 2000, cbMinPacketSize := 2000, cPackets := 1000,
    hnsPresentationDuration := 100 }

/-- A file of 215 packets of size 2000 whose duration, 55066912986023250
units of 100 ns, is not a binary64 number. -/
def fileLong : FILE_PROPERTIES_OBJECT :=
  { cbMaxPacketSize := 2000, cbMinPacketSize := 2000, cPackets := 215,
    hnsPresentationDuration := 55066912986023250 }

/-- A file of duration 100 with `2^31` packets of size 2000. -/
def fileManyPackets : FILE_PROPERTIES_OBJECT :=
  { cbMaxPacketSize := 2000, cbMinPacketSize := 2000, cPackets := 2147483648,
    hnsPresentationDuration := 100 }

/-- An opened session (content info, demultiplexer, byte stream, data region
of 4096 bytes at offset 1000) without index object, on which no stream was
selected and no decoder exists. -/
def openedSession : CASFManager :=
  { m_fileinfo := some fileQuarter, m_pContentInfo := some {}, m_pSplitter := some {},
    m_pByteStream := some {}, m_cbDataOffset := 1000, m_cbDataLength := 4096 }

/-- An environment with one chunk in which the demultiplexer delivers one
sample and reports no further one. -/
def oneChunk : ScanEnv := { chunks := [{ samples := [{ pSample := some {} }] }] }

/-- An index object in which every stream is indexed and which answers every
query with byte offset 0 and approximate time 50. -/
def plainIndex : IMFASFIndexer :=
  { indexStatus := fun _ => (HRESULT.S_OK, true),
    seekPosition := fun _ _ _ => (HRESULT.S_OK, 0, 50) }

/-- An environment with one chunk in which the demultiplexer delivers one key
frame stamped 60. -/
def keyFrameAt60 : ScanEnv :=
  { chunks := [{ samples := [{ pSample := some { hnsSampleTime := 60, cleanPoint := 1 } }] }] }

/-- A decoder session with a loaded transform that accepts the begin and end
streaming messages and, for the one sample pushed, reports needs-more-input at
the first pull. -/
def videoDecoder : CDecoder :=
  { m_pMFT := some
      { messages := [HRESULT.S_OK, HRESULT.S_OK],
        process := [{ drain := [{ hrProcessOutput := HRESULT.MF_E_TRANSFORM_NEED_MORE_INPUT }] }] },
    m_pMediaController := some {} }

/-- An opened session with index object on which video stream 1 is selected. -/
def indexedVideoSession : CASFManager :=
  { m_CurrentStreamID := 1, m_guidCurrentMediaType := GUID.MFMediaType_Video,
    m_pDecoder := some videoDecoder, m_fileinfo := some fileQuarter,
    m_pContentInfo := some {}, m_pSplitter := some {}, m_pIndexer := some plainIndex,
    m_pByteStream := some {}, m_cbDataOffset := 1000, m_cbDataLength := 4096 }

/-- A compressed video input type. -/
def compressedVideoType : IMFMediaType :=
  { guidMajorType := GUID.MFMediaType_Video, guidSubType := GUID.other 1 }

/-- A transform that offers no output type: its enumeration ends at index 0
with `MF_E_NO_MORE_TYPES`. -/
def transformWithoutTypes : IMFTransform := { availableTypes := [] }

/-- A decoder session in which that transform is loaded. -/
def loadedWithoutTypes : CDecoder :=
  { m_pMFT := some transformWithoutTypes, m_pMediaController := some {} }

/-- A decoder session whose transform, for the one sample pushed, yields one
output buffer (payload 7) and then reports needs-more-input; its current
output type is RGB32 video. -/
def decoderOneOutput : CDecoder :=
  { m_pMFT := some
      { process :=
          [{ drain := [{ hrProcessOutput := HRESULT.S_OK, payload := 7 },
                { hrProcessOutput := HRESULT.MF_E_TRANSFORM_NEED_MORE_INPUT }],
             currentType := some { guidMajorType := GUID.MFMediaType_Video,
                                   guidSubType := GUID.MFVideoFormat_RGB32 } }] },
    m_pMediaController := some {} }

/-- A decoder session whose transform, for the one sample pushed, fails the
first pull with `E_FAIL` and reports needs-more-input at the second. -/
def decoderOutputError : CDecoder :=
  { m_pMFT := some
      { process :=
          [{ drain := [{ hrProcessOutput := HRESULT.E_FAIL },
                { hrProcessOutput := HRESULT.MF_E_TRANSFORM_NEED_MORE_INPUT }] }] },
    m_pMediaController := some {} }

/-! ## Further inputs: files, streams and decoders -/

/-- A session whose content information object holds a profile that declares
zero streams. -/
def sessionWithoutStreams : CASFManager :=
  { m_pContentInfo := some { profile := { streams := [] } } }

/-- A session whose profile declares an audio stream 1 and a video stream 2,
in this order. -/
def sessionTwoStreams : CASFManager :=
  { m_pContentInfo := some
      { profile :=
          { streams :=
              [{ wStreamNumber := 1, guidStreamType := GUID.MFMediaType_Audio },
               { wStreamNumber := 2, guidStreamType := GUID.MFMediaType_Video }] } } }

/-- A compressed audio input type. -/
def compressedAudioType : IMFMediaType :=
  { guidMajorType := GUID.MFMediaType_Audio, guidSubType := GUID.other 2 }

/-- A file without index object (its index position is the end of the file)
whose profile declares one compressed audio stream, number 1, and whose data
region is 4096 bytes long at offset 1000. -/
def fileWithAudioStream : OpenEnv :=
  { contentInfo :=
      { profile := { streams := [{ wStreamNumber := 1, guidStreamType := GUID.MFMediaType_Audio,
                                   mediaType := some compressedAudioType }] },
        presentation := { cbDataStartOffset := 1000, cbDataLength := 4096 } },
    qwLength := 10000, qwIndexOffset := 10000 }

/-- A platform on which one audio decoder is registered whose transform
offers PCM output. -/
def audioDecoderEnv : SelectEnv :=
  { decoderCLSIDs := [GUID.other 9],
    init :=
      { transform :=
          some { availableTypes :=
                  [(HRESULT.S_OK, some { guidMajorType := GUID.MFMediaType_Audio,
                                         guidSubType := GUID.MFAudioFormat_PCM })] } } }

/-- The audio boundary as the specification words it: the seek time shifted by
the test-clip constant (forward `+`, reverse `-`), clamped into
`[0, playDuration - preroll]`, in exact arithmetic. -/
def specBoundary (fi : FILE_PROPERTIES_OBJECT) (hnsSeekTime : Int) (reverse : Bool) : Int :=
  max 0
    (min (if reverse then hnsSeekTime - 50000000 else hnsSeekTime + 50000000)
      ((fi.hnsPlayDuration : Int) - fi.hnspreroll))

/-- A file of 10 s (100,000,000 units of 100 ns) without preroll, with 1000
packets of size 2000. -/
def fileTenSeconds : FILE_PROPERTIES_OBJECT :=
  { cbMaxPacketSize := 2000, cbMinPacketSize := 2000, cPackets := 1000,
    hnsPlayDuration := 100000000, hnsPresentationDuration := 100000000 }

/-- An opened session without index object on which video stream 1 is selected. -/
def videoSessionWithoutIndex : CASFManager :=
  { m_CurrentStreamID := 1, m_guidCurrentMediaType := GUID.MFMediaType_Video,
    m_pDecoder := some videoDecoder, m_fileinfo := some fileQuarter,
    m_pContentInfo := some {}, m_pSplitter := some {}, m_pIndexer := none,
    m_pByteStream := some {}, m_cbDataOffset := 1000, m_cbDataLength := 4096 }

/-- In one iteration of a draining loop the platform creates the output
buffer and the output sample and adds the one to the other. -/
def DrainStep.buffersCreated (s : DrainStep) : Prop :=
  FAILED s.hrCreateMemoryBuffer = false ∧ FAILED s.hrCreateSample = false ∧
    FAILED s.hrAddBuffer = false

/-- In one iteration of the draining loop of `ProcessAudio` the transform
yields an output, and the media controller appends it to the test clip. -/
def DrainStep.yieldsOutput (s : DrainStep) : Prop :=
  s.buffersCreated ∧ s.hrProcessOutput ≠ HRESULT.MF_E_TRANSFORM_NEED_MORE_INPUT ∧
    FAILED s.hrProcessOutput = false ∧ FAILED s.hrCreateTestSample = false ∧
    FAILED s.hrConvert = false ∧ FAILED s.hrAppend = false

instance DrainStep.decBuffersCreated (s : DrainStep) : Decidable s.buffersCreated := by
  unfold DrainStep.buffersCreated
  infer_instance

instance DrainStep.decYieldsOutput (s : DrainStep) : Decidable s.yieldsOutput := by
  unfold DrainStep.yieldsOutput
  infer_instance

/-- The buffers of the audio test clip held by the media controller of a
decoder session, oldest first; empty when there is no clip. -/
def CDecoder.testClip (d : CDecoder) : List Nat :=
  (d.m_pMediaController.bind fun mc => mc.m_pAudioTestSample).getD []

/-- A decoder session whose transform, for the one sample pushed, yields two
outputs (payloads 3 and 5) and then reports needs-more-input, with a further
output scripted behind that. -/
def audioDecoderTwoOutputs : CDecoder :=
  { m_pMFT := some
      { process :=
          [{ drain := [{ payload := 3 }, { payload := 5 },
                { hrProcessOutput := HRESULT.MF_E_TRANSFORM_NEED_MORE_INPUT }, { payload := 8 }] }] },
    m_pMediaController := some {} }

/-- The call `ProcessAudio` on the sample `x` returns the code `hr` and leaves
the test clip `clip`. -/
def CDecoder.audioReturns (d : CDecoder) (x : IMFSample) (hr : HRESULT) (clip : List Nat) :
    Prop :=
  ∃ d1 : CDecoder, d.ProcessAudio (some x) = some (hr, d1) ∧ d1.testClip = clip

/-- The direction in which `GenerateSamples` scans: the reverse bit of the
flags it keeps, which are 0 when `SetFlags` failed. -/
def scanReverse (sp : IMFASFSplitter) (dwFlags : Nat) : Bool :=
  (if FAILED sp.hrSetFlags then 0 else dwFlags) &&& MFASF_SPLITTER_REVERSE ==
    MFASF_SPLITTER_REVERSE

/-- A timestamp has not crossed the boundary: it lies before it in a forward
scan and after it in a reverse scan. -/
def withinBoundary (reverse : Bool) (boundary time : Int) : Prop :=
  if reverse then time > boundary else time < boundary

instance withinBoundary.decidable (reverse : Bool) (boundary time : Int) :
    Decidable (withinBoundary reverse boundary time) := by
  unfold withinBoundary
  infer_instance

/-- The result codes the environment gives during a scan: those of the reads,
of `ParseData` and of `GetNextSample`, chunk by chunk. -/
def scanCodes (chunks : List ChunkResp) : List HRESULT :=
  chunks.flatMap fun c =>
    [c.read.hrCreateMemoryBuffer, c.read.hrLock, c.read.hrSetCurrentPosition, c.read.hrRead,
      c.read.hrUnlock, c.read.hrSetCurrentLength, c.hrParseData] ++ c.samples.map fun n => n.hr

/-- The samples the environment holds for a scan. -/
def scanSamples (chunks : List ChunkResp) : List IMFSample :=
  chunks.flatMap fun c => c.samples.filterMap fun n => n.pSample

/-- A decoder session with a loaded transform that accepts the streaming
messages and, for each of two samples pushed, yields one output and then
reports needs-more-input. -/
def audioDecoder : CDecoder :=
  { m_pMFT := some
      { messages := [HRESULT.S_OK, HRESULT.S_OK],
        process :=
          [{ drain := [{ payload := 3 },
                { hrProcessOutput := HRESULT.MF_E_TRANSFORM_NEED_MORE_INPUT }] },
           { drain := [{ payload := 5 },
                { hrProcessOutput := HRESULT.MF_E_TRANSFORM_NEED_MORE_INPUT }] }] },
    m_pMediaController := some {} }

/-- An opened session on the 10 s file on which audio stream 1 is selected. -/
def audioSession : CASFManager :=
  { m_CurrentStreamID := 1, m_guidCurrentMediaType := GUID.MFMediaType_Audio,
    m_pDecoder := some audioDecoder, m_fileinfo := some fileTenSeconds,
    m_pContentInfo := some {}, m_pSplitter := some {},
    m_pByteStream := some {}, m_cbDataOffset := 1000, m_cbDataLength := 4096 }

/-- An environment with one chunk in which the demultiplexer delivers one
sample stamped 70,000,000 whose `GetBufferCount` fails. -/
def sampleWithoutBufferCount : ScanEnv :=
  { chunks :=
      [{ samples := [{ pSample := some { hnsSampleTime := 70000000,
                                         hrGetBufferCount := HRESULT.E_FAIL } }] }] }

/-- An environment with one chunk in which `GetNextSample` fails with `E_FAIL`. -/
def nextSampleFails : ScanEnv := { chunks := [{ samples := [{ hr := HRESULT.E_FAIL }] }] }

/-- Whether such a draining loop ends on a failing answer. -/
def drainAborts : List NextSample → Bool
  | [] => true
  | n :: rest =>
    if FAILED n.hr then true
    else if n.dwStatusFlags &&& ASF_STATUSFLAGS_INCOMPLETE != 0 then drainAborts rest
    else false

/-- Whether one of the calls of a read fails. -/
def ReadResp.fails (r : ReadResp) : Bool :=
  FAILED r.hrCreateMemoryBuffer || FAILED r.hrLock || FAILED r.hrSetCurrentPosition ||
    FAILED r.hrRead || FAILED r.hrUnlock || FAILED r.hrSetCurrentLength

/-- A streaming decoder session whose transform, for the one sample pushed,
reports needs-more-input at the first pull, and accepts the end-streaming
message: the decoder of the indexed video session once started. -/
def streamingVideoDecoder : CDecoder :=
  { m_pMFT := some
      { messages := [HRESULT.S_OK],
        process := [{ drain := [{ hrProcessOutput := HRESULT.MF_E_TRANSFORM_NEED_MORE_INPUT }] }] },
    m_DecoderState := STREAMING,
    m_pMediaController := some {} }

/-- A video decode transform as `CoCreateInstance` hands it out: it offers
RGB32 output and will accept the begin and end streaming messages. -/
def freshVideoTransform : IMFTransform :=
  { availableTypes := [(HRESULT.S_OK, some { guidMajorType := GUID.MFMediaType_Video,
                                              guidSubType := GUID.MFVideoFormat_RGB32 })],
    messages := [HRESULT.S_OK, HRESULT.S_OK] }

/-- A platform on which `CoCreateInstance` creates that transform. -/
def videoInitEnv : InitEnv := { transform := some freshVideoTransform }

/-- The indexed video session with the given decoder session. -/
def videoSessionWith (d : CDecoder) : CASFManager :=
  { m_CurrentStreamID := 1, m_guidCurrentMediaType := GUID.MFMediaType_Video,
    m_pDecoder := some d, m_fileinfo := some fileQuarter,
    m_pContentInfo := some {}, m_pSplitter := some {}, m_pIndexer := some plainIndex,
    m_pByteStream := some {}, m_cbDataOffset := 1000, m_cbDataLength := 4096 }

/-- An environment with one chunk in which the demultiplexer delivers no
sample. -/
def chunkWithoutSample : ScanEnv := { chunks := [{ samples := [{}] }] }

/-- The messages the transform of the decoder session of a scan result has
still to answer; empty without decoder session or transform. -/
def pendingMessages (r : HRESULT × ScanState) : List HRESULT :=
  ((r.2.mgr.m_pDecoder.bind fun d => d.m_pMFT).map fun mft => mft.messages).getD []

/-- An index object in which every stream is indexed and which holds, for
every time, a forward entry at byte offset 100 and a reverse-playback entry at
byte offset 300: it answers with the latter while its flags hold
`MFASF_INDEXER_READ_FOR_REVERSEPLAYBACK`. -/
def twoEntryIndex : IMFASFIndexer :=
  { indexStatus := fun _ => (HRESULT.S_OK, true),
    seekPosition := fun _ _ flags =>
      (HRESULT.S_OK,
        if flags &&& MFASF_INDEXER_READ_FOR_REVERSEPLAYBACK != 0 then 300 else 100, 50) }

/-- An opened session with that index object on which video stream 1 is
selected. -/
def sessionTwoEntryIndex : CASFManager :=
  { m_CurrentStreamID := 1, m_guidCurrentMediaType := GUID.MFMediaType_Video,
    m_pDecoder := some videoDecoder, m_fileinfo := some fileQuarter,
    m_pContentInfo := some {}, m_pSplitter := some {}, m_pIndexer := some twoEntryIndex,
    m_pByteStream := some {}, m_cbDataOffset := 1000, m_cbDataLength := 4096 }

/-- The flags of the index object of a session, if it has one. -/
def CASFManager.indexFlags (m : CASFManager) : Option Nat := m.m_pIndexer.map fun ix => ix.dwFlags

/-- The decoder session `streamingVideoDecoder` after a successful
re-initialization on `videoInitEnv`: it holds the new transform, and the state
it had. -/
def reinitializedVideoDecoder : CDecoder :=
  { m_pMFT := some freshVideoTransform, m_DecoderState := STREAMING,
    m_pMediaController := some {} }

/-- A new decoder session after its first initialization on `videoInitEnv`. -/
def newVideoDecoder : CDecoder :=
  { m_pMFT := some freshVideoTransform, m_pMediaController := some {} }

/-- The session `sessionTwoEntryIndex` after a reverse extraction that met no
sample: the demultiplexer and the index object hold their reverse flags, and
the decoder session is started. -/
def sessionAfterReverse : CASFManager :=
  { m_CurrentStreamID := 1, m_guidCurrentMediaType := GUID.MFMediaType_Video,
    m_pDecoder := some
      { m_pMFT := some
          { messages := [HRESULT.S_OK],
            process :=
              [{ drain := [{ hrProcessOutput := HRESULT.MF_E_TRANSFORM_NEED_MORE_INPUT }] }] },
        m_DecoderState := STREAMING,
        m_pMediaController := some {} },
    m_fileinfo := some fileQuarter,
    m_pContentInfo := some {},
    m_pSplitter := some { dwFlags := MFASF_SPLITTER_REVERSE },
    m_pIndexer := some { twoEntryIndex with dwFlags := MFASF_INDEXER_READ_FOR_REVERSEPLAYBACK },
    m_pByteStream := some {}, m_cbDataOffset := 1000, m_cbDataLength := 4096 }

/-- The size of the `k`-th read (`k = 0, 1, ...`) of a scan over `len` bytes
as the specification words it: `min(4096, len - 4096 * k)`. -/
def specReadSize (len k : Nat) : Nat := min 4096 (len - 4096 * k)

/-- The offset of the `k`-th read of a scan of `len` bytes from `start` as
the specification words it, in exact arithmetic: `start + 4096 * k` forward
and `start - 4096 * k - size` in reverse. -/
def specReadStart (reverse : Bool) (start len k : Nat) : Int :=
  if reverse then (start : Int) - 4096 * k - specReadSize len k else (start : Int) + 4096 * k

/-- The number of reads of a scan over `len` bytes as the specification words
it: `ceil(len / 4096)`. -/
def specReadCount (len : Nat) : Nat := (len + 4095) / 4096

/-- The first `n` reads of a scan of `len` bytes from `start`, as (offset,
length), the offsets reduced to the 32 bits of the `DWORD` that carries them. -/
def chunkReads (reverse : Bool) (start len n : Nat) : List (Nat × Nat) :=
  (List.range n).map fun k => (wrap32 (specReadStart reverse start len k), specReadSize len k)

/-- During one iteration of the chunk loop every call of the read and
`ParseData` succeed, and the answers of `GetNextSample` succeed up to one that
announces no further sample. -/
def ChunkResp.succeeds (c : ChunkResp) : Bool :=
  !c.read.fails && !FAILED c.hrParseData && !drainAborts c.samples

/-- The `cbDataOffset` argument `GenerateSamples` passes to
`GenerateSamplesLoop` for the seek offset `cbStartOffset`. -/
def scanStart (m : CASFManager) (cbStartOffset : Nat) (reverse : Bool) : Nat :=
  if reverse then wrap32 ((m.m_cbDataLength : Int) + m.m_cbDataOffset - cbStartOffset)
  else wrap32 ((m.m_cbDataOffset : Int) + cbStartOffset)

/-- The `cbDataLen` argument `GenerateSamples` passes to `GenerateSamplesLoop`
for the seek offset `cbStartOffset`. -/
def scanLength (m : CASFManager) (cbStartOffset : Nat) : Nat :=
  wrap32 ((m.m_cbDataLength : Int) - cbStartOffset)

/-- Two chunks in each of which the demultiplexer delivers one sample and
reports no further one. -/
def twoPlainChunks : List ChunkResp :=
  [{ samples := [{ pSample := some {} }] }, { samples := [{ pSample := some {} }] }]

/-- An index object in which every stream is indexed and which answers every
query with byte offset 5000. -/
def indexPastEnd : IMFASFIndexer :=
  { indexStatus := fun _ => (HRESULT.S_OK, true),
    seekPosition := fun _ _ _ => (HRESULT.S_OK, 5000, 50) }

/-- An opened session with that index object and a data region of 4096 bytes
at offset 1000, on which video stream 1 is selected. -/
def sessionIndexPastEnd : CASFManager :=
  { m_CurrentStreamID := 1, m_guidCurrentMediaType := GUID.MFMediaType_Video,
    m_pDecoder := some videoDecoder, m_fileinfo := some fileQuarter,
    m_pContentInfo := some {}, m_pSplitter := some {}, m_pIndexer := some indexPastEnd,
    m_pByteStream := some {}, m_cbDataOffset := 1000, m_cbDataLength := 4096 }

/-- A decoder session with a loaded transform that answers the begin
streaming message with `E_FAIL`. -/
def decoderFailingStart : CDecoder :=
  { m_pMFT := some { messages := [HRESULT.E_FAIL] }, m_pMediaController := some {} }

/-! ## Further inputs: an audio scan that decodes, a scan that ends at a key frame -/

/-- Two chunks in each of which the demultiplexer delivers one audio sample
with a timestamp, stamped 10 and 20, and reports no further one. -/
def twoAudioChunks : List ChunkResp :=
  [{ samples := [{ wStreamNumber := 1, pSample := some { hnsSampleTime := 10 } }] },
   { samples := [{ wStreamNumber := 1, pSample := some { hnsSampleTime := 20 } }] }]

/-- The decoder session `audioDecoder` once it is started and has decoded one
sample: one answer of each script is consumed and the test clip holds the
first output. -/
def audioDecoderAfterOne : CDecoder :=
  { m_pMFT := some
      { messages := [HRESULT.S_OK],
        process :=
          [{ drain := [{ payload := 5 },
                { hrProcessOutput := HRESULT.MF_E_TRANSFORM_NEED_MORE_INPUT }] }] },
    m_DecoderState := STREAMING,
    m_pMediaController := some { m_pAudioTestSample := some [3], m_fHasTestMedia := true } }

/-- The decoder session `audioDecoder` once it has decoded two samples. -/
def audioDecoderAfterTwo : CDecoder :=
  { m_pMFT := some { messages := [HRESULT.S_OK], process := [] },
    m_DecoderState := STREAMING,
    m_pMediaController := some { m_pAudioTestSample := some [3, 5], m_fHasTestMedia := true } }

/-- The scan states of an audio extraction with the decoder session
`audioDecoder` in which completion is not marked and the decoder session can
still take `k` samples: it has taken none and `k ≤ 2`, or one and `k ≤ 1`, or
two and `k = 0`. -/
def audioScanClass (k : Nat) (a : ScanState) : Prop :=
  a.mgr.m_guidCurrentMediaType = GUID.MFMediaType_Audio ∧ a.mgr.m_pByteStream = some {} ∧
    a.fComplete = false ∧
    ((k ≤ 2 ∧ a.mgr.m_pDecoder = some audioDecoder) ∨
      (k ≤ 1 ∧ a.mgr.m_pDecoder = some audioDecoderAfterOne) ∨
      (k = 0 ∧ a.mgr.m_pDecoder = some audioDecoderAfterTwo))

/-- Rounding never goes below the floor. -/
theorem rne_floor_le (s : ℚ) : ⌊s⌋ ≤ rne s := by
  unfold rne
  split_ifs <;> omega

/-- Rounding never goes above the floor plus one. -/
theorem rne_le_floor_succ (s : ℚ) : rne s ≤ ⌊s⌋ + 1 := by
  unfold rne
  split_ifs <;> omega

/-- Rounding to the nearest integer moves a value by at most one half. -/
theorem abs_rne_sub_le (s : ℚ) : |(rne s : ℚ) - s| ≤ 1 / 2 := by
  have h1 := Int.floor_le s
  have h2 := Int.lt_floor_add_one s
  unfold rne
  rw [abs_le]
  split_ifs with a b c <;> push_cast <;> constructor <;> linarith

/-- An integer rounds to itself. -/
theorem rne_intCast (n : ℤ) : rne (n : ℚ) = n := by
  unfold rne
  simp

/-- Rounding to the nearest integer, ties to even, is monotone. -/
theorem rne_mono {x y : ℚ} (h : x ≤ y) : rne x ≤ rne y := by
  have hf : ⌊x⌋ ≤ ⌊y⌋ := Int.floor_mono h
  rcases lt_or_eq_of_le hf with hlt | heq
  · calc rne x ≤ ⌊x⌋ + 1 := rne_le_floor_succ x
      _ ≤ ⌊y⌋ := hlt
      _ ≤ rne y := rne_floor_le y
  · unfold rne
    rw [heq]
    have hx : x - ⌊y⌋ ≤ y - ⌊y⌋ := by linarith
    split_ifs <;> first | omega | linarith
/-- The binade of a positive rational is determined by the two powers of two around it. -/
theorem log_two_eq {q : ℚ} (hq : 0 < q) (e : ℤ) (h1 : (2 : ℚ) ^ e ≤ q)
    (h2 : q < (2 : ℚ) ^ (e + 1)) : Int.log 2 q = e := by
  have a : e ≤ Int.log 2 q := by
    rw [← Int.zpow_le_iff_le_log (by norm_num) hq]
    exact_mod_cast h1
  have b : Int.log 2 q < e + 1 := by
    rw [← Int.lt_zpow_iff_log_lt (by norm_num) hq]
    exact_mod_cast h2
  omega

/-- A positive rational is at least the power of two of its binade. -/
theorem two_zpow_log_le {q : ℚ} (hq : 0 < q) : (2 : ℚ) ^ Int.log 2 q ≤ q := by
  have := Int.zpow_log_le_self (b := 2) (r := q) (by norm_num) hq
  exact_mod_cast this

/-- A rational is below the next power of two after its binade. -/
theorem lt_two_zpow_log_succ (q : ℚ) : q < (2 : ℚ) ^ (Int.log 2 q + 1) := by
  have := Int.lt_zpow_succ_log_self (b := 2) (by norm_num) q
  exact_mod_cast this

/-- The scaled significand lies in `[2^52, 2^53)`. -/
theorem scaled_bounds {q : ℚ} (e : ℤ) (h1 : (2 : ℚ) ^ e ≤ q) (h2 : q < (2 : ℚ) ^ (e + 1)) :
    (2 : ℚ) ^ (52 : ℕ) ≤ q * (2 : ℚ) ^ (52 - e) ∧ q * (2 : ℚ) ^ (52 - e) < (2 : ℚ) ^ (53 : ℕ) := by
  have hp : (0 : ℚ) < (2 : ℚ) ^ (52 - e) := by positivity
  have e1 : (2 : ℚ) ^ e * (2 : ℚ) ^ (52 - e) = (2 : ℚ) ^ (52 : ℕ) := by
    rw [← zpow_add₀ (by norm_num : (2 : ℚ) ≠ 0)]
    have : e + (52 - e) = ((52 : ℕ) : ℤ) := by push_cast; ring
    rw [this, zpow_natCast]
  have e2 : (2 : ℚ) ^ (e + 1) * (2 : ℚ) ^ (52 - e) = (2 : ℚ) ^ (53 : ℕ) := by
    rw [← zpow_add₀ (by norm_num : (2 : ℚ) ≠ 0)]
    have : e + 1 + (52 - e) = ((53 : ℕ) : ℤ) := by push_cast; ring
    rw [this, zpow_natCast]
  constructor
  · rw [← e1]; exact mul_le_mul_of_nonneg_right h1 hp.le
  · rw [← e2]; exact mul_lt_mul_of_pos_right h2 hp

/-- Binary64 rounding of a positive rational, with the binade given explicitly. -/
theorem flPos_eq {q : ℚ} (hq : 0 < q) (e : ℤ) (h1 : (2 : ℚ) ^ e ≤ q)
    (h2 : q < (2 : ℚ) ^ (e + 1)) :
    flPos q = (rne (q * (2 : ℚ) ^ (52 - e)) : ℚ) * (2 : ℚ) ^ (e - 52) := by
  unfold flPos
  rw [log_two_eq hq e h1 h2]

/-- The rounded significand lies in `[2^52, 2^53]`. -/
theorem rne_scaled_bounds {q : ℚ} (e : ℤ) (h1 : (2 : ℚ) ^ e ≤ q) (h2 : q < (2 : ℚ) ^ (e + 1)) :
    (2 : ℚ) ^ (52 : ℕ) ≤ (rne (q * (2 : ℚ) ^ (52 - e)) : ℚ) ∧
      (rne (q * (2 : ℚ) ^ (52 - e)) : ℚ) ≤ (2 : ℚ) ^ (53 : ℕ) := by
  obtain ⟨a, b⟩ := scaled_bounds e h1 h2
  have ha : rne (((2 ^ 52 : ℤ) : ℚ)) ≤ rne (q * (2 : ℚ) ^ (52 - e)) := rne_mono (by push_cast; exact a)
  have hb : rne (q * (2 : ℚ) ^ (52 - e)) ≤ rne (((2 ^ 53 : ℤ) : ℚ)) := rne_mono (by push_cast; exact b.le)
  rw [rne_intCast] at ha hb
  constructor
  · exact_mod_cast ha
  · exact_mod_cast hb

/-- Splitting a power of two. -/
theorem two_zpow_split (e : ℤ) (k : ℕ) : (2 : ℚ) ^ (k : ℕ) * (2 : ℚ) ^ (e - k) = (2 : ℚ) ^ e := by
  rw [← zpow_natCast, ← zpow_add₀ (by norm_num : (2 : ℚ) ≠ 0)]
  congr 1; ring

/-- flPos stays inside the closed binade of its argument. -/
theorem flPos_bounds {q : ℚ} (hq : 0 < q) (e : ℤ) (h1 : (2 : ℚ) ^ e ≤ q)
    (h2 : q < (2 : ℚ) ^ (e + 1)) : (2 : ℚ) ^ e ≤ flPos q ∧ flPos q ≤ (2 : ℚ) ^ (e + 1) := by
  rw [flPos_eq hq e h1 h2]
  obtain ⟨a, b⟩ := rne_scaled_bounds e h1 h2
  have hp : (0 : ℚ) < (2 : ℚ) ^ (e - 52) := by positivity
  have e1 := two_zpow_split e 52
  have e2 : (2 : ℚ) ^ (53 : ℕ) * (2 : ℚ) ^ (e - 52) = (2 : ℚ) ^ (e + 1) := by
    have := two_zpow_split (e + 1) 53
    have h : e + 1 - ((53 : ℕ) : ℤ) = e - 52 := by push_cast; ring
    rw [h] at this; exact this
  constructor
  · have := mul_le_mul_of_nonneg_right a hp.le
    have h52 : (e - ((52 : ℕ) : ℤ)) = e - 52 := by push_cast; ring
    rw [h52] at e1
    linarith
  · have := mul_le_mul_of_nonneg_right b hp.le
    linarith

/-- The relative error of binary64 rounding is at most `2^-53`. -/
theorem flPos_err {q : ℚ} (hq : 0 < q) : |flPos q - q| ≤ q / 2 ^ (53 : ℕ) := by
  have h1 := two_zpow_log_le hq
  have h2 := lt_two_zpow_log_succ q
  set e := Int.log 2 q with he
  rw [flPos_eq hq e h1 h2]
  have hp : (0 : ℚ) < (2 : ℚ) ^ (e - 52) := by positivity
  have hs : q = q * (2 : ℚ) ^ (52 - e) * (2 : ℚ) ^ (e - 52) := by
    rw [mul_assoc, ← zpow_add₀ (by norm_num : (2 : ℚ) ≠ 0)]
    have : 52 - e + (e - 52) = 0 := by ring
    rw [this]; simp
  have hr := abs_rne_sub_le (q * (2 : ℚ) ^ (52 - e))
  have key : (rne (q * (2 : ℚ) ^ (52 - e)) : ℚ) * (2 : ℚ) ^ (e - 52) - q =
      ((rne (q * (2 : ℚ) ^ (52 - e)) : ℚ) - q * (2 : ℚ) ^ (52 - e)) * (2 : ℚ) ^ (e - 52) := by
    rw [sub_mul, ← hs]
  rw [key, abs_mul, abs_of_pos hp]
  have e1 : (2 : ℚ) ^ (52 : ℕ) * (2 : ℚ) ^ (e - 52) = (2 : ℚ) ^ e := by
    have := two_zpow_split e 52
    have h52 : (e - ((52 : ℕ) : ℤ)) = e - 52 := by push_cast; ring
    rw [h52] at this; exact this
  have step : |(rne (q * (2 : ℚ) ^ (52 - e)) : ℚ) - q * (2 : ℚ) ^ (52 - e)| * (2 : ℚ) ^ (e - 52)
      ≤ 1 / 2 * (2 : ℚ) ^ (e - 52) := mul_le_mul_of_nonneg_right hr hp.le
  have : 1 / 2 * (2 : ℚ) ^ (e - 52) ≤ q / 2 ^ (53 : ℕ) := by
    rw [le_div_iff₀ (by positivity)]
    have : (1 / 2 * (2 : ℚ) ^ (e - 52)) * 2 ^ (53 : ℕ) = (2 : ℚ) ^ (52 : ℕ) * (2 : ℚ) ^ (e - 52) := by
      ring
    rw [this, e1]; exact h1
  linarith
/-- Binary64 rounding is monotone on the positive rationals. -/
theorem flPos_mono {x y : ℚ} (hx : 0 < x) (hxy : x ≤ y) : flPos x ≤ flPos y := by
  have hy : 0 < y := lt_of_lt_of_le hx hxy
  have hle : Int.log 2 x ≤ Int.log 2 y := Int.log_mono_right hx hxy
  have x1 := two_zpow_log_le hx
  have x2 := lt_two_zpow_log_succ x
  have y1 := two_zpow_log_le hy
  have y2 := lt_two_zpow_log_succ y
  rcases lt_or_eq_of_le hle with hlt | heq
  · have bx := (flPos_bounds hx _ x1 x2).2
    have lo := (flPos_bounds hy _ y1 y2).1
    have : (2 : ℚ) ^ (Int.log 2 x + 1) ≤ (2 : ℚ) ^ (Int.log 2 y) :=
      zpow_le_zpow_right₀ (by norm_num) (by omega)
    linarith
  · unfold flPos
    rw [heq]
    have hp : (0 : ℚ) < (2 : ℚ) ^ (Int.log 2 y - 52) := by positivity
    have hq : (0 : ℚ) < (2 : ℚ) ^ (52 - Int.log 2 y) := by positivity
    have hm : rne (x * (2 : ℚ) ^ (52 - Int.log 2 y)) ≤ rne (y * (2 : ℚ) ^ (52 - Int.log 2 y)) :=
      rne_mono (mul_le_mul_of_nonneg_right hxy hq.le)
    have hm2 : (rne (x * (2 : ℚ) ^ (52 - Int.log 2 y)) : ℚ) ≤
        (rne (y * (2 : ℚ) ^ (52 - Int.log 2 y)) : ℚ) := by exact_mod_cast hm
    exact mul_le_mul_of_nonneg_right hm2 hp.le

/-- A positive number `n * 2^k` with `n < 2^53` is a binary64 number: it rounds to itself. -/
theorem flPos_exact (n : ℕ) (k : ℤ) (hn : 0 < n) (hlt : n < 2 ^ 53) :
    flPos ((n : ℚ) * (2 : ℚ) ^ k) = (n : ℚ) * (2 : ℚ) ^ k := by
  have hq : (0 : ℚ) < (n : ℚ) * (2 : ℚ) ^ k := by positivity
  have h1 := two_zpow_log_le hq
  set e := Int.log 2 ((n : ℚ) * (2 : ℚ) ^ k) with he
  have hn53 : (n : ℚ) < (2 : ℚ) ^ (53 : ℤ) := by
    have : ((n : ℕ) : ℚ) < ((2 ^ 53 : ℕ) : ℚ) := by exact_mod_cast hlt
    rw [zpow_ofNat]; push_cast at this; exact this
  have hlt2 : (2 : ℚ) ^ e < (2 : ℚ) ^ (53 + k) := by
    have hk : (0 : ℚ) < (2 : ℚ) ^ k := by positivity
    have : (n : ℚ) * (2 : ℚ) ^ k < (2 : ℚ) ^ (53 : ℤ) * (2 : ℚ) ^ k :=
      mul_lt_mul_of_pos_right hn53 hk
    rw [← zpow_add₀ (by norm_num : (2 : ℚ) ≠ 0)] at this
    linarith
  have hek : e < 53 + k := (zpow_lt_zpow_iff_right₀ (by norm_num : (1 : ℚ) < 2)).1 hlt2
  obtain ⟨j, hj⟩ : ∃ j : ℕ, (j : ℤ) = k + 52 - e := ⟨(k + 52 - e).toNat, by omega⟩
  have hs : (n : ℚ) * (2 : ℚ) ^ k * (2 : ℚ) ^ (52 - e) = (((n * 2 ^ j : ℕ) : ℤ) : ℚ) := by
    rw [mul_assoc, ← zpow_add₀ (by norm_num : (2 : ℚ) ≠ 0)]
    have : k + (52 - e) = (j : ℤ) := by omega
    rw [this, zpow_natCast]; push_cast; ring
  unfold flPos
  rw [← he, hs, rne_intCast]
  push_cast
  rw [mul_assoc, ← zpow_natCast, ← zpow_add₀ (by norm_num : (2 : ℚ) ≠ 0)]
  have : (j : ℤ) + (e - 52) = k := by omega
  rw [this]

/-- Zero rounds to zero. -/
theorem fl_zero : fl 0 = 0 := by simp [fl]

/-- On positive values `fl` is `flPos`. -/
theorem fl_of_pos {q : ℚ} (hq : 0 < q) : fl q = flPos q := by
  simp [fl, hq, hq.ne.symm]

/-- A positive value rounds to a positive value. -/
theorem flPos_pos {q : ℚ} (hq : 0 < q) : 0 < flPos q := by
  have := (flPos_bounds hq _ (two_zpow_log_le hq) (lt_two_zpow_log_succ q)).1
  have hp : (0 : ℚ) < (2 : ℚ) ^ Int.log 2 q := by positivity
  linarith

/-- A non-negative value rounds to a non-negative value. -/
theorem fl_nonneg {q : ℚ} (hq : 0 ≤ q) : 0 ≤ fl q := by
  rcases eq_or_lt_of_le hq with h | h
  · rw [← h, fl_zero]
  · rw [fl_of_pos h]; exact (flPos_pos h).le

/-- A positive value rounds to a positive value. -/
theorem fl_pos {q : ℚ} (hq : 0 < q) : 0 < fl q := by
  rw [fl_of_pos hq]; exact flPos_pos hq

/-- Binary64 rounding is monotone on the non-negative rationals. -/
theorem fl_mono {x y : ℚ} (hx : 0 ≤ x) (hxy : x ≤ y) : fl x ≤ fl y := by
  rcases eq_or_lt_of_le hx with h | h
  · rw [← h, fl_zero]; exact fl_nonneg (le_trans hx hxy)
  · rw [fl_of_pos h, fl_of_pos (lt_of_lt_of_le h hxy)]; exact flPos_mono h hxy

/-- The relative error of binary64 rounding is at most `2^-53`. -/
theorem fl_err {q : ℚ} (hq : 0 ≤ q) : |fl q - q| ≤ q / 2 ^ (53 : ℕ) := by
  rcases eq_or_lt_of_le hq with h | h
  · rw [← h, fl_zero]; simp
  · rw [fl_of_pos h]; exact flPos_err h

/-- A number `n * 2^k` with `n < 2^53` rounds to itself. -/
theorem fl_exact (n : ℕ) (k : ℤ) (hlt : n < 2 ^ 53) :
    fl ((n : ℚ) * (2 : ℚ) ^ k) = (n : ℚ) * (2 : ℚ) ^ k := by
  rcases Nat.eq_zero_or_pos n with h | h
  · subst h; simp [fl_zero]
  · rw [fl_of_pos (by positivity)]; exact flPos_exact n k h hlt

/-- A natural number below `2^53` converts to `double` exactly. -/
theorem fl_natCast (n : ℕ) (hlt : n < 2 ^ 53) : fl (n : ℚ) = n := by
  have := fl_exact n 0 hlt
  simpa using this

/-- One rounds to one. -/
theorem fl_one : fl 1 = 1 := by
  have := fl_natCast 1 (by norm_num)
  simpa using this
/-- The significand `2^53` stands for the next power of two. -/
theorem two_pow53_mul (e : ℤ) : (2 : ℚ) ^ (53 : ℕ) * (2 : ℚ) ^ (e - 52) = (2 : ℚ) ^ (e + 1) := by
  have := two_zpow_split (e + 1) 53
  have h : e + 1 - ((53 : ℕ) : ℤ) = e - 52 := by push_cast; ring
  rw [h] at this; exact this

/-- A value strictly within one half of an integer rounds to it. -/
theorem rne_eq_of_abs_lt {s : ℚ} (m : ℤ) (h : |s - m| < 1 / 2) : rne s = m := by
  rw [abs_lt] at h
  obtain ⟨h1, h2⟩ := h
  rcases le_or_lt (m : ℚ) s with hc | hc
  · have hf : ⌊s⌋ = m := by
      rw [Int.floor_eq_iff]; constructor <;> linarith
    unfold rne
    rw [hf, if_pos (by linarith)]
  · have hf : ⌊s⌋ = m - 1 := by
      rw [Int.floor_eq_iff]; push_cast; constructor <;> linarith
    unfold rne
    rw [hf]; push_cast
    rw [if_neg (by linarith), if_pos (by linarith)]
    ring

/-- Evaluation of `fl` at a value whose binade and rounded significand are given. -/
theorem fl_eval {q : ℚ} (e m : ℤ) (hq : 0 < q) (h1 : (2 : ℚ) ^ e ≤ q)
    (h2 : q < (2 : ℚ) ^ (e + 1)) (hm : |q * (2 : ℚ) ^ (52 - e) - m| < 1 / 2) :
    fl q = (m : ℚ) * (2 : ℚ) ^ (e - 52) := by
  rw [fl_of_pos hq, flPos_eq hq e h1 h2, rne_eq_of_abs_lt m hm]

/-- A rounded value is a binary64 number: rounding it again changes nothing. -/
theorem fl_idem {x : ℚ} (hx : 0 ≤ x) : fl (fl x) = fl x := by
  rcases eq_or_lt_of_le hx with h | h
  · rw [← h, fl_zero, fl_zero]
  · have h1 := two_zpow_log_le h
    have h2 := lt_two_zpow_log_succ x
    set e := Int.log 2 x with he
    obtain ⟨a, b⟩ := rne_scaled_bounds e h1 h2
    have hfl : fl x = (rne (x * (2 : ℚ) ^ (52 - e)) : ℚ) * (2 : ℚ) ^ (e - 52) := by
      rw [fl_of_pos h, flPos_eq h e h1 h2]
    set m := rne (x * (2 : ℚ) ^ (52 - e)) with hm
    have hm0 : 0 ≤ m := by
      have : (0 : ℚ) ≤ (m : ℚ) := le_trans (by positivity) a
      exact_mod_cast this
    obtain ⟨n, hn⟩ : ∃ n : ℕ, (n : ℤ) = m := ⟨m.toNat, by omega⟩
    have hmq : (m : ℚ) = (n : ℚ) := by rw [← hn]; simp
    rw [hfl, hmq]
    have hb : (n : ℚ) ≤ (2 : ℚ) ^ (53 : ℕ) := by rw [← hmq]; exact b
    have hb2 : n ≤ 2 ^ 53 := by exact_mod_cast hb
    rcases lt_or_eq_of_le hb2 with hlt | heq
    · exact fl_exact n (e - 52) hlt
    · have hnq : (n : ℚ) = (2 : ℚ) ^ (53 : ℕ) := by rw [heq]; norm_num
      have : (n : ℚ) * (2 : ℚ) ^ (e - 52) = ((1 : ℕ) : ℚ) * (2 : ℚ) ^ (e + 1) := by
        rw [hnq, two_pow53_mul]; simp
      rw [this]
      exact fl_exact 1 (e + 1) (by norm_num)

/-- A value in `[0, 1]` rounds into `[0, 1]`. -/
theorem fl_le_one {x : ℚ} (h0 : 0 ≤ x) (h1 : x ≤ 1) : fl x ≤ 1 := by
  have := fl_mono h0 h1
  rwa [fl_one] at this

/-- The relative error bound of `fl` as two inequalities. -/
theorem fl_bounds {x : ℚ} (h0 : 0 ≤ x) :
    x * (1 - 1 / 2 ^ (53 : ℕ)) ≤ fl x ∧ fl x ≤ x * (1 + 1 / 2 ^ (53 : ℕ)) := by
  have h := fl_err h0
  rw [abs_le] at h
  constructor <;> linarith [h.1, h.2]

/-- Error of the quotient of two converted operands. -/
theorem quot_err {t d : ℚ} (ht : 0 ≤ t) (htd : t ≤ d) (hd : 0 < d) :
    0 ≤ fl t / fl d ∧ fl t / fl d ≤ 1 ∧ |fl t / fl d - t / d| ≤ 3 / 2 ^ (53 : ℕ) := by
  have hT0 : 0 ≤ fl t := fl_nonneg ht
  have hTD : fl t ≤ fl d := fl_mono ht htd
  have hD : 0 < fl d := fl_pos hd
  obtain ⟨t1, t2⟩ := fl_bounds ht
  obtain ⟨d1, d2⟩ := fl_bounds hd.le
  have hr0 : 0 ≤ t / d := div_nonneg ht hd.le
  have hr1 : t / d ≤ 1 := (div_le_one hd).2 htd
  have htr : t = t / d * d := by field_simp
  set r := t / d with hr
  set T := fl t
  set D := fl d
  refine ⟨div_nonneg hT0 hD.le, (div_le_one hD).2 hTD, ?_⟩
  have hu : (1 : ℚ) / 2 ^ (53 : ℕ) = 1 / 9007199254740992 := by norm_num
  have h3 : (3 : ℚ) / 2 ^ (53 : ℕ) = 3 / 9007199254740992 := by norm_num
  rw [hu] at t1 t2 d1 d2
  rw [h3, abs_le]
  have hrd : 0 ≤ r * d := mul_nonneg hr0 hd.le
  have h1rd : 0 ≤ (1 - r) * d := mul_nonneg (by linarith) hd.le
  constructor
  · -- lower bound
    have : r - 3 / 9007199254740992 ≤ T / D := by
      rw [le_div_iff₀ hD]
      rcases le_or_lt r (3 / 9007199254740992) with hc | hc
      · have : (r - 3 / 9007199254740992) * D ≤ 0 :=
          mul_nonpos_of_nonpos_of_nonneg (by linarith) hD.le
        linarith
      · have e1 : (r - 3 / 9007199254740992) * D ≤
            (r - 3 / 9007199254740992) * (d * (1 + 1 / 9007199254740992)) :=
          mul_le_mul_of_nonneg_left d2 (by linarith)
        rw [htr] at t1
        nlinarith
    linarith
  · have : T / D ≤ r + 3 / 9007199254740992 := by
      rw [div_le_iff₀ hD]
      have e1 : (r + 3 / 9007199254740992) * (d * (1 - 1 / 9007199254740992)) ≤
          (r + 3 / 9007199254740992) * D :=
        mul_le_mul_of_nonneg_left d1 (by linarith)
      rw [htr] at t2
      nlinarith
    linarith

/-- The forward fraction lies in `[0, 1]`, within `4 * 2^-53` of the exact quotient. -/
theorem fwd_frac {t d : ℚ} (ht : 0 ≤ t) (htd : t ≤ d) (hd : 0 < d) :
    0 ≤ fl (fl t / fl d) ∧ fl (fl t / fl d) ≤ 1 ∧
      |fl (fl t / fl d) - t / d| ≤ 4 / 2 ^ (53 : ℕ) := by
  obtain ⟨q0, q1, qe⟩ := quot_err ht htd hd
  refine ⟨fl_nonneg q0, fl_le_one q0 q1, ?_⟩
  have h := fl_err q0
  have h2 : fl t / fl d / 2 ^ (53 : ℕ) ≤ 1 / 2 ^ (53 : ℕ) :=
    div_le_div_of_nonneg_right q1 (by positivity)
  rw [abs_le] at h qe ⊢
  have : (4 : ℚ) / 2 ^ (53 : ℕ) = 3 / 2 ^ (53 : ℕ) + 1 / 2 ^ (53 : ℕ) := by ring
  constructor <;> linarith [h.1, h.2, qe.1, qe.2]

/-- The reverse fraction lies in `[0, 1]`, within `5 * 2^-53` of the exact quotient. -/
theorem rev_frac {t d : ℚ} (ht : 0 ≤ t) (htd : t ≤ d) (hd : 0 < d) :
    0 ≤ fl (fl (fl d - fl t) / fl d) ∧ fl (fl (fl d - fl t) / fl d) ≤ 1 ∧
      |fl (fl (fl d - fl t) / fl d) - (d - t) / d| ≤ 5 / 2 ^ (53 : ℕ) := by
  obtain ⟨q0, q1, qe⟩ := quot_err ht htd hd
  have hT0 : 0 ≤ fl t := fl_nonneg ht
  have hTD : fl t ≤ fl d := fl_mono ht htd
  have hD : 0 < fl d := fl_pos hd
  have hS0 : 0 ≤ fl d - fl t := by linarith
  have hS : 0 ≤ fl (fl d - fl t) := fl_nonneg hS0
  have hSD : fl (fl d - fl t) ≤ fl d := by
    have := fl_mono hS0 (by linarith : fl d - fl t ≤ fl d)
    rwa [fl_idem hd.le] at this
  have r0 : 0 ≤ fl (fl d - fl t) / fl d := div_nonneg hS hD.le
  have r1 : fl (fl d - fl t) / fl d ≤ 1 := (div_le_one hD).2 hSD
  refine ⟨fl_nonneg r0, fl_le_one r0 r1, ?_⟩
  have eS := fl_err hS0
  have eG := fl_err r0
  have hsplit : (d - t) / d = 1 - t / d := by field_simp
  have hS0D : (fl d - fl t) / fl d = 1 - fl t / fl d := by field_simp
  -- |S / D - S0 / D| ≤ u
  have e1 : |fl (fl d - fl t) / fl d - (fl d - fl t) / fl d| ≤ 1 / 2 ^ (53 : ℕ) := by
    rw [← sub_div, abs_div, abs_of_pos hD, div_le_iff₀ hD]
    have : (fl d - fl t) / 2 ^ (53 : ℕ) ≤ 1 / 2 ^ (53 : ℕ) * fl d := by
      rw [div_eq_mul_inv, one_div, mul_comm]
      exact mul_le_mul_of_nonneg_left (by linarith) (by positivity)
    linarith
  have e2 : fl (fl d - fl t) / fl d / 2 ^ (53 : ℕ) ≤ 1 / 2 ^ (53 : ℕ) :=
    div_le_div_of_nonneg_right r1 (by positivity)
  rw [hsplit]
  rw [hS0D] at e1
  rw [abs_le] at eG e1 qe ⊢
  have : (5 : ℚ) / 2 ^ (53 : ℕ) = 3 / 2 ^ (53 : ℕ) + 1 / 2 ^ (53 : ℕ) + 1 / 2 ^ (53 : ℕ) := by ring
  constructor <;> linarith [eG.1, eG.2, e1.1, e1.2, qe.1, qe.2]

/-- Error of the product of the packet count with a computed fraction. -/
theorem prod_err (p : ℕ) {F f c : ℚ} (hp : p < 2 ^ 32) (hF0 : 0 ≤ F) (hF1 : F ≤ 1)
    (he : |F - f| ≤ c / 2 ^ (53 : ℕ)) :
    0 ≤ fl ((p : ℚ) * F) ∧ fl ((p : ℚ) * F) ≤ p ∧
      |fl ((p : ℚ) * F) - (p : ℚ) * f| ≤ (c + 1) * p / 2 ^ (53 : ℕ) := by
  have hp0 : (0 : ℚ) ≤ (p : ℚ) := by positivity
  have h0 : 0 ≤ (p : ℚ) * F := mul_nonneg hp0 hF0
  have h1 : (p : ℚ) * F ≤ p := by
    have := mul_le_mul_of_nonneg_left hF1 hp0
    linarith
  refine ⟨fl_nonneg h0, ?_, ?_⟩
  · have := fl_mono h0 h1
    rwa [fl_natCast p (lt_trans hp (by norm_num))] at this
  · have e := fl_err h0
    have e2 : (p : ℚ) * F / 2 ^ (53 : ℕ) ≤ (p : ℚ) / 2 ^ (53 : ℕ) :=
      div_le_div_of_nonneg_right h1 (by positivity)
    have e3 : |(p : ℚ) * F - (p : ℚ) * f| ≤ (p : ℚ) * (c / 2 ^ (53 : ℕ)) := by
      rw [← mul_sub, abs_mul, abs_of_nonneg hp0]
      exact mul_le_mul_of_nonneg_left he hp0
    rw [abs_le] at e e3 ⊢
    have : (c + 1) * (p : ℚ) / 2 ^ (53 : ℕ) = (p : ℚ) * (c / 2 ^ (53 : ℕ)) + (p : ℚ) / 2 ^ (53 : ℕ) := by
      ring
    constructor <;> linarith [e.1, e.2, e3.1, e3.2]


/-! ## Interpolated resolution: helper lemmas -/

/-- The 32-bit average packet size is below `2^31`. -/
theorem averagepacketsize_lt (fi : FILE_PROPERTIES_OBJECT) : averagepacketsize fi < 2 ^ 31 := by
  unfold averagepacketsize wrap32
  omega

/-- Without 32-bit wrap the average packet size is `(max + min) / 2`. -/
theorem averagepacketsize_eq (fi : FILE_PROPERTIES_OBJECT)
    (h : fi.cbMaxPacketSize + fi.cbMinPacketSize < 2 ^ 32) :
    averagepacketsize fi = (fi.cbMaxPacketSize + fi.cbMinPacketSize) / 2 := by
  unfold averagepacketsize wrap32
  omega

/-- The 64-bit product of the average packet size and a non-negative `int` does not wrap. -/
theorem wrap64_mul (a : ℕ) (z : ℤ) (ha : a < 2 ^ 31) (h0 : 0 ≤ z) (h1 : z < 2 ^ 31) :
    wrap64 ((a : ℤ) * z) = a * z.toNat := by
  obtain ⟨n, rfl⟩ : ∃ n : ℕ, z = (n : ℤ) := ⟨z.toNat, by omega⟩
  have hn : n < 2 ^ 31 := by exact_mod_cast h1
  have hlt : a * n < 2 ^ 64 := by
    calc a * n ≤ 2 ^ 31 * 2 ^ 31 := Nat.mul_le_mul ha.le hn.le
      _ < 2 ^ 64 := by norm_num
  unfold wrap64
  have : ((a : ℤ) * (n : ℤ)) = ((a * n : ℕ) : ℤ) := by push_cast; ring
  rw [this]
  simp only [Int.toNat_ofNat]
  omega

/-- `GetSeekPositionManually` on a session with file properties and a demultiplexer whose `GetFlags` succeeds. -/
theorem GetSeekPositionManually_eq (m : CASFManager) (fi : FILE_PROPERTIES_OBJECT)
    (sp : IMFASFSplitter) (t : Int) (c : Nat) (hfi : m.m_fileinfo = some fi)
    (hsp : m.m_pSplitter = some sp) (hfl : FAILED sp.hrGetFlags = false) :
    m.GetSeekPositionManually t c =
      (seekedPackets fi (sp.dwFlags &&& MFASF_SPLITTER_REVERSE != 0) t).map
        fun k => (HRESULT.S_OK, wrap64 ((averagepacketsize fi : Int) * k)) := by
  simp [CASFManager.GetSeekPositionManually, hfi, hsp, hfl]

/-- The computed fraction lies in `[0, 1]`, within `5 * 2^-53` of the exact
fraction the specification speaks of. -/
theorem seekFraction_bounds (fi : FILE_PROPERTIES_OBJECT) (rev : Bool) (t : Int)
    (hd : 0 < fi.hnsPresentationDuration) (h0 : 0 ≤ t) (h1 : t ≤ fi.hnsPresentationDuration) :
    0 ≤ seekFraction fi rev t ∧ seekFraction fi rev t ≤ 1 ∧
      |seekFraction fi rev t -
        (if rev then ((fi.hnsPresentationDuration : ℚ) - t) / fi.hnsPresentationDuration
          else (t : ℚ) / fi.hnsPresentationDuration)| ≤ 5 / 2 ^ (53 : ℕ) := by
  have ht : (0 : ℚ) ≤ (t : ℚ) := by exact_mod_cast h0
  have htd : (t : ℚ) ≤ (fi.hnsPresentationDuration : ℚ) := by exact_mod_cast h1
  have hdq : (0 : ℚ) < (fi.hnsPresentationDuration : ℚ) := by exact_mod_cast hd
  unfold seekFraction
  cases rev
  · obtain ⟨a, b, c⟩ := fwd_frac ht htd hdq
    refine ⟨by simpa using a, by simpa using b, ?_⟩
    have : (4 : ℚ) / 2 ^ (53 : ℕ) ≤ 5 / 2 ^ (53 : ℕ) := by norm_num
    simp only [Bool.false_eq_true, if_false]
    exact le_trans c this
  · obtain ⟨a, b, c⟩ := rev_frac ht htd hdq
    exact ⟨by simpa using a, by simpa using b, by simpa using c⟩

/-- The computed product `packetCount * fraction` lies in `[0, packetCount]`, within `6 * packetCount * 2^-53` of the exact one. -/
theorem seekProduct_bounds (fi : FILE_PROPERTIES_OBJECT) (rev : Bool) (t : Int)
    (hd : 0 < fi.hnsPresentationDuration) (h0 : 0 ≤ t) (h1 : t ≤ fi.hnsPresentationDuration)
    (hp : fi.cPackets < 2 ^ 32) :
    0 ≤ fl ((fi.cPackets : ℚ) * seekFraction fi rev t) ∧
      fl ((fi.cPackets : ℚ) * seekFraction fi rev t) ≤ fi.cPackets ∧
      |fl ((fi.cPackets : ℚ) * seekFraction fi rev t) -
        (fi.cPackets : ℚ) *
          (if rev then ((fi.hnsPresentationDuration : ℚ) - t) / fi.hnsPresentationDuration
            else (t : ℚ) / fi.hnsPresentationDuration)| ≤ 6 * fi.cPackets / 2 ^ (53 : ℕ) := by
  obtain ⟨a, b, c⟩ := seekFraction_bounds fi rev t hd h0 h1
  have := prod_err fi.cPackets hp a b c
  norm_num at this ⊢
  exact this

/-- Conversion to `int` of a non-negative value whose floor fits. -/
theorem toInt32_of_nonneg {x : ℚ} (h0 : 0 ≤ x) (h1 : ⌊x⌋ < 2 ^ 31) : toInt32 x = some ⌊x⌋ := by
  have hf : 0 ≤ ⌊x⌋ := Int.floor_nonneg.2 h0
  unfold toInt32
  simp only [h0, if_true]
  rw [if_pos]
  constructor
  · omega
  · exact h1

/-- Conversion to `int` of a non-negative value whose floor does not fit. -/
theorem toInt32_of_large {x : ℚ} (h0 : 0 ≤ x) (h1 : (2 : ℤ) ^ 31 ≤ ⌊x⌋) :
    toInt32 x = some (-(2 : ℤ) ^ 31) := by
  unfold toInt32
  simp only [h0, if_true]
  rw [if_neg]
  intro hc
  omega

/-- For a packet count below `2^31` the packet index is defined and lies in `[0, packetCount]`. -/
theorem seekedPackets_eq (fi : FILE_PROPERTIES_OBJECT) (rev : Bool) (t : Int)
    (hd : 0 < fi.hnsPresentationDuration) (h0 : 0 ≤ t) (h1 : t ≤ fi.hnsPresentationDuration)
    (hp : fi.cPackets < 2 ^ 31) :
    seekedPackets fi rev t = some ⌊fl ((fi.cPackets : ℚ) * seekFraction fi rev t)⌋ ∧
      0 ≤ ⌊fl ((fi.cPackets : ℚ) * seekFraction fi rev t)⌋ ∧
      ⌊fl ((fi.cPackets : ℚ) * seekFraction fi rev t)⌋ ≤ fi.cPackets := by
  obtain ⟨a, b, _⟩ := seekProduct_bounds fi rev t hd h0 h1 (lt_trans hp (by norm_num))
  have hfl : ⌊fl ((fi.cPackets : ℚ) * seekFraction fi rev t)⌋ ≤ (fi.cPackets : ℤ) := by
    have : ((⌊fl ((fi.cPackets : ℚ) * seekFraction fi rev t)⌋ : ℤ) : ℚ) ≤ ((fi.cPackets : ℤ) : ℚ) := by
      push_cast
      exact le_trans (Int.floor_le _) b
    exact_mod_cast this
  refine ⟨?_, Int.floor_nonneg.2 a, hfl⟩
  unfold seekedPackets
  rw [if_neg (by omega)]
  exact toInt32_of_nonneg a (by omega)

/-- Step-by-step evaluation of the forward packet index. -/
theorem seekedPackets_fwd_eval (fi : FILE_PROPERTIES_OBJECT) (t : Int) (T D F X : ℚ)
    (hd : fi.hnsPresentationDuration ≠ 0)
    (hT : fl (t : ℚ) = T) (hD : fl (fi.hnsPresentationDuration : ℚ) = D)
    (hF : fl (T / D) = F) (hX : fl ((fi.cPackets : ℚ) * F) = X) :
    seekedPackets fi false t = toInt32 X := by
  unfold seekedPackets seekFraction
  rw [if_neg hd]
  simp only [Bool.false_eq_true, if_false]
  rw [hT, hD, hF, hX]

/-- Step-by-step evaluation of the reverse packet index. -/
theorem seekedPackets_rev_eval (fi : FILE_PROPERTIES_OBJECT) (t : Int) (T D S F X : ℚ)
    (hd : fi.hnsPresentationDuration ≠ 0)
    (hT : fl (t : ℚ) = T) (hD : fl (fi.hnsPresentationDuration : ℚ) = D)
    (hS : fl (D - T) = S) (hF : fl (S / D) = F) (hX : fl ((fi.cPackets : ℚ) * F) = X) :
    seekedPackets fi true t = toInt32 X := by
  unfold seekedPackets seekFraction
  rw [if_neg hd]
  simp only [if_true]
  rw [hD, hT, hS, hF, hX]

/-- Step-by-step evaluation of forward interpolated resolution. -/
theorem seekSession_fwd_eval (fi : FILE_PROPERTIES_OBJECT) (t : Int) (c : Nat) (T D F X : ℚ)
    (hd : fi.hnsPresentationDuration ≠ 0)
    (hT : fl (t : ℚ) = T) (hD : fl (fi.hnsPresentationDuration : ℚ) = D)
    (hF : fl (T / D) = F) (hX : fl ((fi.cPackets : ℚ) * F) = X) :
    (seekSession fi 0).GetSeekPositionManually t c =
      (toInt32 X).map fun k => (HRESULT.S_OK, wrap64 ((averagepacketsize fi : Int) * k)) := by
  rw [GetSeekPositionManually_eq (seekSession fi 0) fi { dwFlags := 0 } t c rfl rfl rfl]
  have hrev : (({ dwFlags := 0 } : IMFASFSplitter).dwFlags &&& MFASF_SPLITTER_REVERSE != 0) = false := by
    decide
  rw [hrev, seekedPackets_fwd_eval fi t T D F X hd hT hD hF hX]

/-- Step-by-step evaluation of reverse interpolated resolution. -/
theorem seekSession_rev_eval (fi : FILE_PROPERTIES_OBJECT) (t : Int) (c : Nat) (T D S F X : ℚ)
    (hd : fi.hnsPresentationDuration ≠ 0)
    (hT : fl (t : ℚ) = T) (hD : fl (fi.hnsPresentationDuration : ℚ) = D)
    (hS : fl (D - T) = S) (hF : fl (S / D) = F) (hX : fl ((fi.cPackets : ℚ) * F) = X) :
    (seekSession fi 1).GetSeekPositionManually t c =
      (toInt32 X).map fun k => (HRESULT.S_OK, wrap64 ((averagepacketsize fi : Int) * k)) := by
  rw [GetSeekPositionManually_eq (seekSession fi 1) fi { dwFlags := 1 } t c rfl rfl rfl]
  have hrev : (({ dwFlags := 1 } : IMFASFSplitter).dwFlags &&& MFASF_SPLITTER_REVERSE != 0) = true := by
    decide
  rw [hrev, seekedPackets_rev_eval fi t T D S F X hd hT hD hS hF hX]

/-- Evaluation of `fl` to a given rational. -/
theorem fl_eval_rat {q : ℚ} (e m : ℤ) (r : ℚ) (hq : 0 < q) (h1 : (2 : ℚ) ^ e ≤ q)
    (h2 : q < (2 : ℚ) ^ (e + 1)) (hm : |q * (2 : ℚ) ^ (52 - e) - m| < 1 / 2)
    (hr : (m : ℚ) * (2 : ℚ) ^ (e - 52) = r) : fl q = r := by
  rw [fl_eval e m hq h1 h2 hm, hr]

/-- The spec's example file at time 25, forward: 250 packets. -/
theorem seekedPackets_quarter_fwd : seekedPackets fileQuarter false 25 = some 250 := by
  rw [seekedPackets_fwd_eval fileQuarter 25 25 100 (1 / 4) 250 (by decide)
    (by simpa using fl_natCast 25 (by norm_num))
    (by simpa [fileQuarter] using fl_natCast 100 (by norm_num))
    (fl_eval_rat (-2) 4503599627370496 _ (by norm_num) (by norm_num) (by norm_num)
      (by rw [abs_lt]; constructor <;> norm_num) (by norm_num))
    (by
      simp only [fileQuarter]
      exact fl_eval_rat 7 8796093022208000 _ (by norm_num) (by norm_num) (by norm_num)
        (by rw [abs_lt]; constructor <;> norm_num) (by norm_num))]
  rw [toInt32_of_nonneg (by norm_num) (by norm_num)]
  norm_num

/-- The spec's example file at time 25, reverse: 750 packets. -/
theorem seekedPackets_quarter_rev : seekedPackets fileQuarter true 25 = some 750 := by
  rw [seekedPackets_rev_eval fileQuarter 25 25 100 75 (3 / 4) 750 (by decide)
    (by simpa using fl_natCast 25 (by norm_num))
    (by simpa [fileQuarter] using fl_natCast 100 (by norm_num))
    (by
      have : (100 : ℚ) - 25 = 75 := by norm_num
      rw [this]
      simpa using fl_natCast 75 (by norm_num))
    (fl_eval_rat (-1) 6755399441055744 _ (by norm_num) (by norm_num) (by norm_num)
      (by rw [abs_lt]; constructor <;> norm_num) (by norm_num))
    (by
      simp only [fileQuarter]
      exact fl_eval_rat 9 6597069766656000 _ (by norm_num) (by norm_num) (by norm_num)
        (by rw [abs_lt]; constructor <;> norm_num) (by norm_num))]
  rw [toInt32_of_nonneg (by norm_num) (by norm_num)]
  norm_num

/-- Values less than one apart have floors at most one apart. -/
theorem floor_near {X x : ℚ} (h : |X - x| < 1) : |⌊X⌋ - ⌊x⌋| ≤ 1 := by
  rw [abs_lt] at h
  have h1 : ⌊X⌋ ≤ ⌊x + 1⌋ := Int.floor_le_floor (by linarith)
  have h2 : ⌊x - 1⌋ ≤ ⌊X⌋ := Int.floor_le_floor (by linarith)
  rw [Int.floor_add_one] at h1
  rw [Int.floor_sub_one] at h2
  rw [abs_le]
  constructor <;> omega

/-- For a packet count below `2^31` the error bound of the product is below a quarter packet. -/
theorem six_packets_lt (p : ℕ) (hp : p < 2 ^ 31) : (6 : ℚ) * p / 2 ^ (53 : ℕ) < 1 / 4 := by
  have : (p : ℚ) < 2147483648 := by exact_mod_cast hp
  rw [div_lt_iff₀ (by positivity)]
  norm_num
  linarith

/-- The forward product is non-decreasing in the seek time. -/
theorem seekProduct_mono_fwd (fi : FILE_PROPERTIES_OBJECT) (t1 t2 : Int)
    (hd : 0 < fi.hnsPresentationDuration) (h0 : 0 ≤ t1) (h12 : t1 ≤ t2) :
    fl ((fi.cPackets : ℚ) * seekFraction fi false t1) ≤
      fl ((fi.cPackets : ℚ) * seekFraction fi false t2) := by
  have q0 : (0 : ℚ) ≤ (t1 : ℚ) := by exact_mod_cast h0
  have q12 : (t1 : ℚ) ≤ (t2 : ℚ) := by exact_mod_cast h12
  have hdq : (0 : ℚ) < (fi.hnsPresentationDuration : ℚ) := by exact_mod_cast hd
  have hD := fl_pos hdq
  have hT := fl_mono q0 q12
  have hT0 := fl_nonneg q0
  have hq : fl (t1 : ℚ) / fl (fi.hnsPresentationDuration : ℚ) ≤
      fl (t2 : ℚ) / fl (fi.hnsPresentationDuration : ℚ) :=
    div_le_div_of_nonneg_right hT hD.le
  have hq0 : 0 ≤ fl (t1 : ℚ) / fl (fi.hnsPresentationDuration : ℚ) := div_nonneg hT0 hD.le
  have hF := fl_mono hq0 hq
  have hF0 := fl_nonneg hq0
  have hp0 : (0 : ℚ) ≤ (fi.cPackets : ℚ) := by positivity
  simp only [seekFraction, Bool.false_eq_true, if_false]
  exact fl_mono (mul_nonneg hp0 hF0) (mul_le_mul_of_nonneg_left hF hp0)

/-- The reverse product is non-increasing in the seek time. -/
theorem seekProduct_anti_rev (fi : FILE_PROPERTIES_OBJECT) (t1 t2 : Int)
    (hd : 0 < fi.hnsPresentationDuration) (h0 : 0 ≤ t1) (h12 : t1 ≤ t2)
    (h2 : t2 ≤ fi.hnsPresentationDuration) :
    fl ((fi.cPackets : ℚ) * seekFraction fi true t2) ≤
      fl ((fi.cPackets : ℚ) * seekFraction fi true t1) := by
  have q0 : (0 : ℚ) ≤ (t1 : ℚ) := by exact_mod_cast h0
  have q12 : (t1 : ℚ) ≤ (t2 : ℚ) := by exact_mod_cast h12
  have q2 : (t2 : ℚ) ≤ (fi.hnsPresentationDuration : ℚ) := by exact_mod_cast h2
  have hdq : (0 : ℚ) < (fi.hnsPresentationDuration : ℚ) := by exact_mod_cast hd
  have hD := fl_pos hdq
  have hT := fl_mono q0 q12
  have hT2 := fl_mono (le_trans q0 q12) q2
  have hS0 : 0 ≤ fl (fi.hnsPresentationDuration : ℚ) - fl (t2 : ℚ) := by linarith
  have hS := fl_mono hS0 (by linarith :
    fl (fi.hnsPresentationDuration : ℚ) - fl (t2 : ℚ) ≤
      fl (fi.hnsPresentationDuration : ℚ) - fl (t1 : ℚ))
  have hq := div_le_div_of_nonneg_right hS hD.le
  have hq0 := div_nonneg (fl_nonneg hS0) hD.le
  have hF := fl_mono hq0 hq
  have hF0 := fl_nonneg hq0
  have hp0 : (0 : ℚ) ≤ (fi.cPackets : ℚ) := by positivity
  simp only [seekFraction, if_true]
  exact fl_mono (mul_nonneg hp0 hF0) (mul_le_mul_of_nonneg_left hF hp0)

/-- An offset computed from a packet index that fits is at most the offset
computed from `INT_MIN`. -/
theorem offset_le_of_large (a : Nat) (k : Int) (ha : a < 2 ^ 32) (hk0 : 0 ≤ k)
    (hk : k < 2 ^ 31) : a * k.toNat ≤ wrap64 ((a : Int) * -(2 : Int) ^ 31) := by
  have h1 : a * k.toNat ≤ a * 2 ^ 31 := Nat.mul_le_mul_left _ (by omega)
  unfold wrap64
  omega

/-- What a successful interpolated resolution returned, for a time inside the
presentation: the offset of the floor of the product where that fits an
`int`, and the offset of `INT_MIN` where it does not. -/
theorem GetSeekPositionManually_some (m : CASFManager) (fi : FILE_PROPERTIES_OBJECT)
    (sp : IMFASFSplitter) (t : Int) (c : Nat) (hfi : m.m_fileinfo = some fi)
    (hsp : m.m_pSplitter = some sp) (hfl : FAILED sp.hrGetFlags = false)
    (hd : 0 < fi.hnsPresentationDuration) (h0 : 0 ≤ t) (h1 : t ≤ fi.hnsPresentationDuration)
    {hr : HRESULT} {o : Nat} (h : m.GetSeekPositionManually t c = some (hr, o)) :
    hr = HRESULT.S_OK ∧
      o = if ⌊fl ((fi.cPackets : ℚ) *
            seekFraction fi (sp.dwFlags &&& MFASF_SPLITTER_REVERSE != 0) t)⌋ < 2 ^ 31 then
          averagepacketsize fi *
            ⌊fl ((fi.cPackets : ℚ) *
              seekFraction fi (sp.dwFlags &&& MFASF_SPLITTER_REVERSE != 0) t)⌋.toNat
        else wrap64 ((averagepacketsize fi : Int) * -(2 : Int) ^ 31) := by
  rw [GetSeekPositionManually_eq m fi sp t c hfi hsp hfl] at h
  obtain ⟨a, _, _⟩ := seekFraction_bounds fi (sp.dwFlags &&& MFASF_SPLITTER_REVERSE != 0) t hd h0 h1
  have hX : 0 ≤ fl ((fi.cPackets : ℚ) *
      seekFraction fi (sp.dwFlags &&& MFASF_SPLITTER_REVERSE != 0) t) :=
    fl_nonneg (mul_nonneg (by positivity) a)
  unfold seekedPackets at h
  rw [if_neg (by omega)] at h
  by_cases hfit : ⌊fl ((fi.cPackets : ℚ) *
      seekFraction fi (sp.dwFlags &&& MFASF_SPLITTER_REVERSE != 0) t)⌋ < 2 ^ 31
  · rw [toInt32_of_nonneg hX hfit] at h
    simp only [Option.map_some', Option.some.injEq, Prod.mk.injEq] at h
    refine ⟨h.1.symm, ?_⟩
    rw [if_pos hfit, ← h.2]
    exact wrap64_mul _ _ (averagepacketsize_lt fi) (Int.floor_nonneg.2 hX) hfit
  · rw [toInt32_of_large hX (by omega)] at h
    simp only [Option.map_some', Option.some.injEq, Prod.mk.injEq] at h
    exact ⟨h.1.symm, by rw [if_neg hfit, ← h.2]⟩

/-- For a packet count below `2^31` interpolated resolution returns an offset. -/
theorem GetSeekPositionManually_defined (m : CASFManager) (fi : FILE_PROPERTIES_OBJECT)
    (sp : IMFASFSplitter) (t : Int) (c : Nat) (hfi : m.m_fileinfo = some fi)
    (hsp : m.m_pSplitter = some sp) (hfl : FAILED sp.hrGetFlags = false)
    (hd : 0 < fi.hnsPresentationDuration) (h0 : 0 ≤ t) (h1 : t ≤ fi.hnsPresentationDuration)
    (hp : fi.cPackets < 2 ^ 31) :
    m.GetSeekPositionManually t c = some (HRESULT.S_OK, averagepacketsize fi *
        ⌊fl ((fi.cPackets : ℚ) *
          seekFraction fi (sp.dwFlags &&& MFASF_SPLITTER_REVERSE != 0) t)⌋.toNat) := by
  rw [GetSeekPositionManually_eq m fi sp t c hfi hsp hfl]
  obtain ⟨e, a, b⟩ := seekedPackets_eq fi (sp.dwFlags &&& MFASF_SPLITTER_REVERSE != 0) t hd h0 h1 hp
  rw [e]
  simp only [Option.map_some']
  rw [wrap64_mul _ _ (averagepacketsize_lt fi) a (by omega)]


/-! ## The scan: helper lemmas -/

/-- Forward interpolated resolution at time 0 returns offset 0. -/
theorem GetSeekPositionManually_zero (m : CASFManager) (fi : FILE_PROPERTIES_OBJECT)
    (sp : IMFASFSplitter) (c : Nat) (hfi : m.m_fileinfo = some fi)
    (hsp : m.m_pSplitter = some sp) (hfl : FAILED sp.hrGetFlags = false)
    (hfwd : sp.dwFlags &&& MFASF_SPLITTER_REVERSE = 0)
    (hd : 0 < fi.hnsPresentationDuration) :
    m.GetSeekPositionManually 0 c = some (HRESULT.S_OK, 0) := by
  have hb : (sp.dwFlags &&& MFASF_SPLITTER_REVERSE != 0) = false := by simp [hfwd]
  rw [GetSeekPositionManually_eq m fi sp 0 c hfi hsp hfl, hb]
  have hX : fl ((fi.cPackets : ℚ) * seekFraction fi false 0) = 0 := by
    simp [seekFraction, fl_zero]
  unfold seekedPackets
  rw [if_neg (by omega), hX]
  simp [toInt32, wrap64]

/-- `GenerateSamples` on an opened session whose `Flush` and `SetFlags` succeed, given the answer of the resolver. -/
theorem GenerateSamples_of_seek (m : CASFManager) (sp : IMFASFSplitter) (t : Int) (flags : Nat)
    (info : SAMPLE_INFO) (env : ScanEnv) (g : HRESULT × CASFManager × Nat × Int)
    (hsp : m.m_pSplitter = some sp) (hflush : FAILED sp.hrFlush = false)
    (hset : FAILED sp.hrSetFlags = false)
    (hg : ({ m with m_pSplitter := some { sp with dwFlags := flags } }).GetSeekPosition t 0 0 =
      some g) :
    m.GenerateSamples t flags info env =
      if FAILED g.1 then some (g.1, { mgr := g.2.1, info := info })
      else GenerateSamples.afterSeek g.2.1 g.1 g.2.2.1 t
        (flags &&& MFASF_SPLITTER_REVERSE == MFASF_SPLITTER_REVERSE) info env := by
  unfold CASFManager.GenerateSamples
  simp only [hsp, hflush, hset, Bool.false_eq_true, if_false, hg, Option.some_bind]

/-- The resolver on an audio stream or without index object is interpolated resolution. -/
theorem GetSeekPosition_manual (m : CASFManager) (t : Int) (c : Nat) (a : Int)
    (h : m.m_guidCurrentMediaType = GUID.MFMediaType_Audio ∨ m.m_pIndexer = none) :
    m.GetSeekPosition t c a = (m.GetSeekPositionManually t c).map fun r => (r.1, m, r.2, a) := by
  unfold CASFManager.GetSeekPosition
  rw [if_pos]
  rcases h with h | h
  · exact Or.inl h
  · exact Or.inr (by rw [h]; rfl)


/-- Interpolated resolution, given the packet index. -/
theorem GetSeekPositionManually_of_packets (m : CASFManager) (fi : FILE_PROPERTIES_OBJECT)
    (sp : IMFASFSplitter) (t : Int) (c : Nat) (rev : Bool) (k : Int)
    (hfi : m.m_fileinfo = some fi) (hsp : m.m_pSplitter = some sp)
    (hfl : FAILED sp.hrGetFlags = false)
    (hrev : (sp.dwFlags &&& MFASF_SPLITTER_REVERSE != 0) = rev)
    (hk : seekedPackets fi rev t = some k) :
    m.GetSeekPositionManually t c =
      some (HRESULT.S_OK, wrap64 ((averagepacketsize fi : Int) * k)) := by
  rw [GetSeekPositionManually_eq m fi sp t c hfi hsp hfl, hrev, hk]
  rfl

/-- The draining loop never calls the display callback, nor changes the
selected media type, while no stream is selected. -/
theorem drain_sink_of_null (seek test : Int) (rev : Bool) (samples : List NextSample) :
    ∀ (st : ScanState) (e : DrainExit),
      st.mgr.m_guidCurrentMediaType = GUID.GUID_NULL →
      GenerateSamplesLoop.drain seek test rev samples st = some e →
      e.st.sink = st.sink ∧ e.st.mgr.m_guidCurrentMediaType = GUID.GUID_NULL := by
  induction samples with
  | nil => intro st e _ h; simp [GenerateSamplesLoop.drain] at h
  | cons r rest ih =>
    intro st e hnull h
    unfold GenerateSamplesLoop.drain at h
    have hA : ¬ (GUID.GUID_NULL = GUID.MFMediaType_Audio) := by decide
    have hV : ¬ (GUID.GUID_NULL = GUID.MFMediaType_Video) := by decide
    cases hs : r.pSample <;>
      simp only [hs, hnull, hA, hV, if_false, Option.some_bind] at h <;>
      split_ifs at h <;>
      first
        | (have hi := ih _ e (by exact hnull) h; exact hi)
        | (simp only [Option.some.injEq] at h; subst h; exact ⟨rfl, hnull⟩)

/-- The chunk loop never calls the display callback while no stream is selected. -/
theorem loop_sink_of_null (seek test : Int) (rev : Bool) (chunks : List ChunkResp) :
    ∀ (off len : Nat) (hr : HRESULT) (st : ScanState) (r : HRESULT × ScanState),
      st.mgr.m_guidCurrentMediaType = GUID.GUID_NULL →
      CASFManager.GenerateSamplesLoop seek test rev chunks off len hr st = some r →
      r.2.sink = st.sink := by
  induction chunks with
  | nil =>
    intro off len hr st r _ h
    unfold CASFManager.GenerateSamplesLoop at h
    split_ifs at h
    · simp only [Option.some.injEq] at h
      subst h; rfl
  | cons c rest ih =>
    intro off len hr st r hnull h
    unfold CASFManager.GenerateSamplesLoop at h
    split_ifs at h <;>
      first
        | (simp only [Option.some.injEq] at h; subst h; rfl)
        | (rw [Option.bind_eq_some] at h
           obtain ⟨rd, _, h⟩ := h
           split_ifs at h <;>
             first
               | (simp only [Option.some.injEq] at h; subst h; rfl)
               | (rw [Option.bind_eq_some] at h
                  obtain ⟨e, hdr, h⟩ := h
                  obtain ⟨d1, d2⟩ :=
                    drain_sink_of_null seek test rev c.samples _ e (by exact hnull) hdr
                  split_ifs at h
                  · simp only [Option.some.injEq] at h
                    subst h
                    exact d1
                  · exact (ih _ _ _ _ r d2 h).trans d1))

/-- While no stream is selected the resolver hands the session back unchanged. -/
theorem GetSeekPosition_of_null (m : CASFManager) (t : Int) (c : Nat) (a : Int)
    (g : HRESULT × CASFManager × Nat × Int)
    (hnull : m.m_guidCurrentMediaType = GUID.GUID_NULL)
    (hg : m.GetSeekPosition t c a = some g) : g.2.1 = m := by
  unfold CASFManager.GetSeekPosition at hg
  have hA : ¬ (GUID.GUID_NULL = GUID.MFMediaType_Audio) := by decide
  have hV : ¬ (GUID.GUID_NULL = GUID.MFMediaType_Video) := by decide
  simp only [hnull, hA, hV, false_or, if_false] at hg
  split_ifs at hg
  · rw [Option.map_eq_some'] at hg
    obtain ⟨x, _, hx⟩ := hg
    rw [← hx]
  · simp only [Option.some.injEq] at hg
    rw [← hg]

/-- After the seek, a scan on a session without selected stream never calls
the display callback. -/
theorem afterSeek_sink_of_null (m2 : CASFManager) (hrSeek : HRESULT) (off : Nat) (t : Int)
    (rev : Bool) (info : SAMPLE_INFO) (env : ScanEnv) (r : HRESULT × ScanState)
    (hnull : m2.m_guidCurrentMediaType = GUID.GUID_NULL)
    (h : GenerateSamples.afterSeek m2 hrSeek off t rev info env = some r) : r.2.sink = [] := by
  unfold GenerateSamples.afterSeek at h
  have hA : ¬ (m2.m_guidCurrentMediaType = GUID.MFMediaType_Audio) := by rw [hnull]; decide
  simp only [hA, if_false, Option.some_bind] at h
  rw [Option.bind_eq_some] at h
  obtain ⟨m3, hm3, h⟩ := h
  have h3 : m3.m_guidCurrentMediaType = GUID.GUID_NULL := by
    cases hd : m2.m_pDecoder with
    | none =>
      simp only [hd, Option.some.injEq] at hm3
      rw [← hm3]; exact hnull
    | some d =>
      simp only [hd] at hm3
      rw [Option.map_eq_some'] at hm3
      obtain ⟨s, _, hs⟩ := hm3
      rw [← hs]
      split_ifs <;> exact hnull
  split_ifs at h
  · exact loop_sink_of_null _ _ _ _ _ _ _ _ r (by exact h3) h
  · exact loop_sink_of_null _ _ _ _ _ _ _ _ r (by exact h3) h


/-! ## The decoder session: helper lemmas -/

/-- `UnLoad` always returns `S_OK`. -/
theorem UnLoad_result (d : CDecoder) : (d.UnLoad).1 = HRESULT.S_OK := by
  unfold CDecoder.UnLoad
  cases d.m_pMFT with
  | none => rfl
  | some mft =>
    cases d.m_pMediaController with
    | none => rfl
    | some mc => simp [CMediaController.Reset, SUCCEEDED, FAILED]

/-- What passes the `done:` label of `Initialize` is never a failure. -/
theorem Initialize_done_result (x : HRESULT × CDecoder) : FAILED (Initialize.done x).1 = false := by
  unfold Initialize.done
  split_ifs with h
  · rw [UnLoad_result]; rfl
  · simpa using h

/-- The only failure `Initialize` ever returns is `E_INVALIDARG`. -/
theorem Initialize_failure (d : CDecoder) (clsid : GUID) (ty : Option IMFMediaType)
    (env : InitEnv) (r : HRESULT × CDecoder) (h : d.Initialize clsid ty env = some r)
    (hf : FAILED r.1 = true) : r.1 = HRESULT.E_INVALIDARG := by
  simp only [CDecoder.Initialize] at h
  split_ifs at h <;>
    first
      | (simp only [Option.some.injEq] at h; subst h; rfl)
      | (simp only [Option.some.injEq] at h; subst h
         rw [Initialize_done_result] at hf; exact absurd hf (by decide))
      | (rw [Option.map_eq_some'] at h
         obtain ⟨x, _, hx⟩ := h
         subst hx
         rw [Initialize_done_result] at hf; exact absurd hf (by decide))

/-- The draining loop of `ProcessVideo`, entered with a success code, returns
the media controller as it received it: the code after the loop is never
reached. -/
theorem ProcessVideo_loop_controller (ps : ProcessScript) (steps : List DrainStep) :
    ∀ (hr : HRESULT) (acc : List Nat) (mc : CMediaController) (r : HRESULT × CMediaController),
      FAILED hr = false → ProcessVideo.loop ps steps hr acc mc = some r → r.2 = mc := by
  induction steps with
  | nil =>
    intro hr acc mc r hs h
    unfold ProcessVideo.loop at h
    simp [SUCCEEDED, hs] at h
  | cons s rest ih =>
    intro hr acc mc r hs h
    unfold ProcessVideo.loop at h
    simp only [SUCCEEDED, hs, Bool.not_false, if_true] at h
    split_ifs at h with h1 h2 h3 h4 h5 <;>
      first
        | (simp only [Option.some.injEq] at h; subst h; rfl)
        | exact ih _ _ _ r (by simpa using h5) h

/-- `ProcessVideo` never changes the media controller: no bitmap is built. -/
theorem ProcessVideo_controller (d : CDecoder) (pSample : Option IMFSample)
    (r : HRESULT × CDecoder) (h : d.ProcessVideo pSample = some r) :
    r.2.m_pMediaController = d.m_pMediaController := by
  unfold CDecoder.ProcessVideo at h
  cases pSample with
  | none =>
    simp only [Option.some.injEq] at h
    subst h; rfl
  | some smp =>
    cases hm : d.m_pMFT with
    | none =>
      simp only [hm, Option.some.injEq] at h
      subst h; rfl
    | some mft =>
      cases hc : d.m_pMediaController with
      | none =>
        simp only [hm, hc, Option.some.injEq] at h
        subst h; first | rfl | exact hc
      | some mc =>
        simp only [hm, hc] at h
        cases hp : mft.process with
        | nil => simp [hp] at h
        | cons ps rest =>
          simp only [hp] at h
          split_ifs at h with h1 h2 h3 <;>
            first
              | (simp only [Option.some.injEq] at h; subst h; rfl)
              | (rw [Option.map_eq_some'] at h
                 obtain ⟨x, hx, hr⟩ := h
                 subst hr
                 have := ProcessVideo_loop_controller ps _ _ _ _ x (by simpa using h3) hx
                 simp [this])
/-! ## Enumerating streams and resetting: helper lemmas -/

/-- When every `GetStream` and `GetStreamType` succeeds, the loop of
`EnumerateStreams` fills the arrays with the stream numbers and major types in
profile order and ends on a success code. -/
theorem EnumerateStreams_loop_ok (streams : List IMFASFStreamConfig) :
    ∀ (hr : HRESULT) (numbers : List Nat) (types : List GUID),
      FAILED hr = false →
      (∀ s ∈ streams, FAILED s.hrGetStream = false ∧ FAILED s.hrGetStreamType = false) →
      FAILED (EnumerateStreams.loop streams hr numbers types).1 = false ∧
        (EnumerateStreams.loop streams hr numbers types).2 =
          (numbers ++ streams.map (fun s => s.wStreamNumber),
            types ++ streams.map (fun s => s.guidStreamType)) := by
  induction streams with
  | nil => intro hr numbers types h _; simp [EnumerateStreams.loop, h]
  | cons s rest ih =>
    intro hr numbers types _ hall
    have hs := hall s (List.mem_cons_self _ _)
    have hrest : ∀ x ∈ rest, FAILED x.hrGetStream = false ∧ FAILED x.hrGetStreamType = false :=
      fun x hx => hall x (List.mem_cons_of_mem _ hx)
    unfold EnumerateStreams.loop
    simp only [hs.1, hs.2, Bool.false_eq_true, if_false]
    have h := ih s.hrGetStreamType (numbers ++ [s.wStreamNumber]) (types ++ [s.guidStreamType])
      hs.2 hrest
    refine ⟨h.1, ?_⟩
    rw [h.2]
    simp

/-! ## The audio boundary, opening and the audio drain: helper lemmas -/

/-- A value in the signed 64-bit range is not changed by the reduction. -/
theorem wrapI64_of_range (x : Int) (h0 : -(2 : Int) ^ 63 ≤ x) (h1 : x < (2 : Int) ^ 63) :
    wrapI64 x = x := by
  unfold wrapI64
  rw [Int.emod_eq_of_lt (by omega) (by omega)]
  omega

/-- The method `CreateASFSplitter` does not touch the index object. -/
theorem CreateASFSplitter_indexer (m : CASFManager) (s : Option IMFByteStream) (env : OpenEnv) :
    (m.CreateASFSplitter s env).2.m_pIndexer = m.m_pIndexer := by
  unfold CASFManager.CreateASFSplitter
  cases s with
  | none => rfl
  | some _ =>
    cases hci : m.m_pContentInfo with
    | none => rfl
    | some ci =>
      simp only
      split_ifs <;> rfl

/-- When the index position is not inside the file, `CreateASFIndexer` hands
out no index object. -/
theorem CreateASFIndexer_without_index (s : Option IMFByteStream) (env : OpenEnv)
    (i : HRESULT × Option IMFASFIndexer) (hix : env.qwIndexOffset ≥ env.qwLength)
    (h : CreateASFIndexer s env = some i) : i.2 = none := by
  unfold CreateASFIndexer at h
  cases s <;> simp only at h <;> split_ifs at h <;>
    (simp only [Option.some.injEq] at h; rw [← h])

/-- After `OpenASFFile` got past `MFCreateFile` on a file whose index
position is not inside the file, the session holds no index object. -/
theorem OpenASFFile_without_index (m : CASFManager) (env : OpenEnv) (r : HRESULT × CASFManager)
    (hfile : FAILED env.hrMFCreateFile = false) (hix : env.qwIndexOffset ≥ env.qwLength)
    (h : m.OpenASFFile env = some r) : r.2.m_pIndexer = none := by
  unfold CASFManager.OpenASFFile at h
  simp only [hfile, Bool.false_eq_true, if_false] at h
  rw [Option.bind_eq_some] at h
  obtain ⟨c, _, h⟩ := h
  have h1 : ∀ m1 : CASFManager,
      m1 = (match c.2 with
        | some ci => { m.Reset with m_pContentInfo := some ci }
        | none => m.Reset) → m1.m_pIndexer = none := by
    intro m1 e
    rw [e]
    cases c.2 <;> rfl
  split_ifs at h
  · simp only [Option.some.injEq] at h
    rw [← h]
    exact h1 _ rfl
  · simp only [Option.some.injEq] at h
    rw [← h, CreateASFSplitter_indexer]
    exact h1 _ rfl
  · rw [Option.map_eq_some'] at h
    obtain ⟨i, hi, h⟩ := h
    rw [← h, CreateASFIndexer_without_index _ env i hix hi]
    simp only
    rw [CreateASFSplitter_indexer]
    exact h1 _ rfl

/-- An iteration of the audio drain that yields an output appends its payload
to the test clip and ends on a success code. -/
theorem AddToAudioTestSample_yields (mc : CMediaController) (s : DrainStep)
    (hs : s.yieldsOutput) :
    FAILED (mc.AddToAudioTestSample s).1 = false ∧
      (mc.AddToAudioTestSample s).2.m_pAudioTestSample =
        some (mc.m_pAudioTestSample.getD [] ++ [s.payload]) := by
  obtain ⟨_, _, _, h4, h5, h6⟩ := hs
  unfold CMediaController.AddToAudioTestSample
  simp [h4, h5, h6]

/-- The audio drain over `k` iterations that yield an output: the payloads are
appended in order and the loop goes on with what follows them. -/
theorem ProcessAudio_loop_outputs (outs : List DrainStep) :
    ∀ (rest : List DrainStep) (hr : HRESULT) (mc : CMediaController),
      FAILED hr = false → (∀ o ∈ outs, o.yieldsOutput) →
      ∃ (hrK : HRESULT) (mcK : CMediaController),
        FAILED hrK = false ∧
        mcK.m_pAudioTestSample.getD [] =
          mc.m_pAudioTestSample.getD [] ++ outs.map (fun o => o.payload) ∧
        (mcK.m_pAudioTestSample = none → mc.m_pAudioTestSample = none ∧ outs = []) ∧
        (outs = [] → mcK = mc) ∧
        ProcessAudio.loop (outs ++ rest) hr mc = ProcessAudio.loop rest hrK mcK := by
  induction outs with
  | nil =>
    intro rest hr mc h _
    exact ⟨hr, mc, h, by simp, fun e => ⟨e, rfl⟩, fun _ => rfl, rfl⟩
  | cons o os ih =>
    intro rest hr mc h hall
    have ho := hall o (List.mem_cons_self _ _)
    have hos : ∀ x ∈ os, x.yieldsOutput := fun x hx => hall x (List.mem_cons_of_mem _ hx)
    obtain ⟨a1, a2⟩ := AddToAudioTestSample_yields mc o ho
    obtain ⟨hrK, mcK, k1, k2, k3, _, k4⟩ :=
      ih rest (mc.AddToAudioTestSample o).1 (mc.AddToAudioTestSample o).2 a1 hos
    refine ⟨hrK, mcK, k1, ?_, ?_, fun e => absurd e (by simp), ?_⟩
    · rw [k2, a2]
      simp
    · intro e
      have := (k3 e).1
      rw [a2] at this
      exact absurd this (by simp)
    · rw [← k4]
      obtain ⟨⟨b1, b2, b3⟩, b4, b5, _⟩ := ho
      rw [List.cons_append, ProcessAudio.loop]
      simp [SUCCEEDED, h, b1, b2, b3, b4, b5, a1]

/-- An append that fails leaves the buffers of the test clip as they were;
the error is that of the creation of the clip when no clip exists and its
creation fails, else that of the conversion, else that of `AddBuffer`. -/
theorem AddToAudioTestSample_failure (mc : CMediaController) (s : DrainStep) :
    (mc.AddToAudioTestSample s).2.m_pAudioTestSample.getD [] =
        mc.m_pAudioTestSample.getD [] ++
          (if FAILED (mc.AddToAudioTestSample s).1 then [] else [s.payload]) ∧
      (mc.m_pAudioTestSample = none → FAILED s.hrCreateTestSample = true →
        (mc.AddToAudioTestSample s).1 = s.hrCreateTestSample) ∧
      (¬ (mc.m_pAudioTestSample = none ∧ FAILED s.hrCreateTestSample = true) →
        (FAILED s.hrConvert = true → (mc.AddToAudioTestSample s).1 = s.hrConvert) ∧
        (FAILED s.hrConvert = false → FAILED s.hrAppend = true →
          (mc.AddToAudioTestSample s).1 = s.hrAppend)) := by
  unfold CMediaController.AddToAudioTestSample
  refine ⟨?_, ?_, ?_⟩
  · split_ifs <;> simp_all
  · intro h1 h2
    simp [h1, h2]
  · intro h1
    have h1' : ¬ (mc.m_pAudioTestSample.isNone = true ∧ FAILED s.hrCreateTestSample = true) := by
      intro h
      exact h1 ⟨by simpa using h.1, h.2⟩
    constructor
    · intro h2
      rw [if_neg h1']
      simp [h2]
    · intro h2 h3
      rw [if_neg h1']
      simp [h2, h3]

/-! ## The scan: invariants -/

/-- Invariant principle for the draining loop: a property of the scan state
that survives the recording of the stream number and the two routing methods,
called on samples of the script, holds when the loop is left. -/
theorem drain_invariant (P : ScanState → Prop) (S : IMFSample → Prop) (seek test : Int)
    (rev : Bool)
    (hinfo : ∀ (st : ScanState) (ws : Nat), P st →
      P { st with info := { st.info with wStreamNumber := ws } })
    (haudio : ∀ (st : ScanState) (s : IMFSample) (x : HRESULT × ScanState), S s → P st →
      st.mgr.m_guidCurrentMediaType = GUID.MFMediaType_Audio →
      CASFManager.SendAudioSampleToDecoder st s test rev = some x → P x.2)
    (hvideo : ∀ (st : ScanState) (s : IMFSample) (x : HRESULT × ScanState), S s → P st →
      st.mgr.m_guidCurrentMediaType = GUID.MFMediaType_Video →
      CASFManager.SendKeyFrameToDecoder st s seek rev = some x → P x.2)
    (samples : List NextSample) :
    (∀ n ∈ samples, ∀ s, n.pSample = some s → S s) →
    ∀ (st : ScanState) (e : DrainExit), P st →
      GenerateSamplesLoop.drain seek test rev samples st = some e → P e.st := by
  induction samples with
  | nil => intro _ st e _ h; simp [GenerateSamplesLoop.drain] at h
  | cons r rest ih =>
    intro hS st e hP h
    have ih := ih fun n hn s hs => hS n (List.mem_cons_of_mem _ hn) s hs
    rw [GenerateSamplesLoop.drain] at h
    by_cases hf : FAILED r.hr = true
    · simp only [hf, if_true, Option.some.injEq] at h
      subst h
      exact hP
    · have hnext : ∀ a : ScanState, P a → ∀ e : DrainExit,
          (if (r.dwStatusFlags &&& ASF_STATUSFLAGS_INCOMPLETE != 0) = true then
            GenerateSamplesLoop.drain seek test rev rest a
          else some { hr := r.hr, abort := false, st := a }) = some e → P e.st := by
        intro a ha e he
        split_ifs at he
        · exact ih a e ha he
        · simp only [Option.some.injEq] at he
          subst he
          exact ha
      rw [if_neg hf] at h
      cases hs : r.pSample with
      | none =>
        simp only [hs] at h
        exact hnext st hP e h
      | some pSample =>
        simp only [hs] at h
        have hSs : S pSample := hS r (List.mem_cons_self _ _) pSample hs
        have h1 := hinfo st r.wStreamNumber hP
        by_cases hd : st.mgr.m_pDecoder.isSome = true
        · rw [if_pos hd, Option.bind_eq_some] at h
          obtain ⟨a, ha, h⟩ := h
          have hPa : P a := by
            split_ifs at ha with hA hV
            · rw [Option.map_eq_some'] at ha
              obtain ⟨x, hx, hxa⟩ := ha
              rw [← hxa]
              exact haudio _ pSample x hSs h1 hA hx
            · rw [Option.map_eq_some'] at ha
              obtain ⟨x, hx, hxa⟩ := ha
              rw [← hxa]
              exact hvideo _ pSample x hSs h1 hV hx
            · simp only [Option.some.injEq] at ha
              rw [← ha]
              exact h1
          by_cases hc : a.fComplete = true
          · rw [if_pos hc] at h
            simp only [Option.some.injEq] at h
            subst h
            exact hPa
          · rw [if_neg hc] at h
            exact hnext a hPa e h
        · rw [if_neg hd] at h
          exact hnext _ h1 e h

/-- Invariant principle for the chunk loop: a property of the scan state that
survives the recording of a read and the draining loop holds when the scan
returns. -/
theorem loop_invariant (P : ScanState → Prop) (seek test : Int) (rev : Bool)
    (hreads : ∀ (st : ScanState) (rd : Nat × Nat), P st →
      P { st with reads := st.reads ++ [rd] })
    (chunks : List ChunkResp)
    (hdrain : ∀ c ∈ chunks, ∀ (st : ScanState) (e : DrainExit), P st →
      GenerateSamplesLoop.drain seek test rev c.samples st = some e → P e.st) :
    ∀ (off len : Nat) (hr : HRESULT) (st : ScanState) (r : HRESULT × ScanState), P st →
      CASFManager.GenerateSamplesLoop seek test rev chunks off len hr st = some r → P r.2 := by
  induction chunks with
  | nil =>
    intro off len hr st r hP h
    unfold CASFManager.GenerateSamplesLoop at h
    split_ifs at h
    simp only [Option.some.injEq] at h
    subst h
    exact hP
  | cons c rest ih =>
    intro off len hr st r hP h
    have ih := ih fun c1 hc1 => hdrain c1 (List.mem_cons_of_mem _ hc1)
    rw [CASFManager.GenerateSamplesLoop] at h
    by_cases hgo : (!st.fComplete) = true ∧ len > 0
    · rw [if_pos hgo, Option.bind_eq_some] at h
      obtain ⟨rd, _, h⟩ := h
      simp only at h
      have h1 : ∀ rdpos : Nat × Nat,
          P (if rd.2 = true then { st with reads := st.reads ++ [rdpos] } else st) := by
        intro rdpos
        split_ifs
        · exact hreads st _ hP
        · exact hP
      by_cases hrd : FAILED rd.1 = true
      · rw [if_pos hrd] at h
        simp only [Option.some.injEq] at h
        subst h
        exact h1 _
      · rw [if_neg hrd] at h
        by_cases hpd : FAILED c.hrParseData = true
        · rw [if_pos hpd] at h
          simp only [Option.some.injEq] at h
          subst h
          exact h1 _
        · rw [if_neg hpd, Option.bind_eq_some] at h
          obtain ⟨e, hdr, h⟩ := h
          have h2 := hdrain c (List.mem_cons_self _ _) _ e (h1 _) hdr
          by_cases hab : e.abort = true
          · rw [if_pos hab] at h
            simp only [Option.some.injEq] at h
            subst h
            exact h2
          · rw [if_neg hab] at h
            exact ih _ _ _ _ r h2 h
    · rw [if_neg hgo] at h
      simp only [Option.some.injEq] at h
      subst h
      exact hP

/-- The timestamp `GetSampleInfo` leaves in the record is the one it found
there or, when `GetBufferCount` and `GetTotalLength` succeed and the sample
has a timestamp, the sample's. -/
theorem GetSampleInfo_time (s : IMFSample) (i : SAMPLE_INFO) :
    ((GetSampleInfo s i).2.hnsSampleTime = i.hnsSampleTime ∨
        (GetSampleInfo s i).2.hnsSampleTime = s.hnsSampleTime) ∧
      (FAILED s.hrGetBufferCount = false → FAILED s.hrGetTotalLength = false →
        FAILED s.hrGetSampleTime = false →
        (GetSampleInfo s i).2.hnsSampleTime = s.hnsSampleTime) := by
  unfold GetSampleInfo
  constructor
  · split_ifs <;> simp
  · intro h1 h2 h3
    simp only [h1, h2, h3, Bool.false_eq_true, if_false]
    split_ifs <;> rfl

/-- What one call of `SendAudioSampleToDecoder` does to the scan state: the
selected media type stays, and the records handed to the callback stay or grow
by one record, built by `GetSampleInfo` from a sample that has a timestamp
within the boundary. -/
theorem SendAudioSampleToDecoder_sink (st : ScanState) (s : IMFSample) (b : Int) (rev : Bool)
    (x : HRESULT × ScanState)
    (h : CASFManager.SendAudioSampleToDecoder st s b rev = some x) :
    x.2.mgr.m_guidCurrentMediaType = st.mgr.m_guidCurrentMediaType ∧
      ((x.2.sink = st.sink ∧ x.2.info = st.info) ∨
        (FAILED s.hrGetSampleTime = false ∧ withinBoundary rev b s.hnsSampleTime ∧
          x.2.info = (GetSampleInfo s st.info).2 ∧
          x.2.sink = st.sink ++ [(GetSampleInfo s st.info).2])) := by
  unfold CASFManager.SendAudioSampleToDecoder at h
  cases hd : st.mgr.m_pDecoder with
  | none => simp [hd] at h
  | some d =>
    simp only [hd] at h
    by_cases hts : FAILED s.hrGetSampleTime = true
    · rw [if_pos hts] at h
      simp only [Option.some.injEq] at h
      subst h
      exact ⟨rfl, Or.inl ⟨rfl, rfl⟩⟩
    · rw [if_neg hts] at h
      have hts' : FAILED s.hrGetSampleTime = false := by simpa using hts
      by_cases hdec : (if rev = true then decide (s.hnsSampleTime > b)
          else decide (s.hnsSampleTime < b)) = true
      · have hw : withinBoundary rev b s.hnsSampleTime := by
          unfold withinBoundary
          split_ifs at hdec ⊢ <;> simpa using hdec
        rw [if_pos hdec, Option.bind_eq_some] at h
        obtain ⟨s1, _, h⟩ := h
        by_cases hs1 : FAILED s1.1 = true
        · rw [if_pos hs1] at h
          simp only [Option.some.injEq] at h
          subst h
          exact ⟨rfl, Or.inl ⟨rfl, rfl⟩⟩
        · rw [if_neg hs1, Option.bind_eq_some] at h
          obtain ⟨p, _, h⟩ := h
          by_cases hp : FAILED p.1 = true
          · rw [if_pos hp] at h
            simp only [Option.some.injEq] at h
            subst h
            exact ⟨rfl, Or.inl ⟨rfl, rfl⟩⟩
          · rw [if_neg hp] at h
            simp only [Option.some.injEq] at h
            subst h
            exact ⟨rfl, Or.inr ⟨hts', hw, rfl, rfl⟩⟩
      · rw [if_neg hdec, Option.bind_eq_some] at h
        obtain ⟨s1, _, h⟩ := h
        split_ifs at h <;>
          (simp only [Option.some.injEq] at h; subst h; exact ⟨rfl, Or.inl ⟨rfl, rfl⟩⟩)

/-- On an audio stream the resolver hands the session back unchanged. -/
theorem GetSeekPosition_of_audio (m : CASFManager) (t : Int) (c : Nat) (a : Int)
    (g : HRESULT × CASFManager × Nat × Int)
    (haudio : m.m_guidCurrentMediaType = GUID.MFMediaType_Audio)
    (hg : m.GetSeekPosition t c a = some g) : g.2.1 = m := by
  rw [GetSeekPosition_manual m t c a (Or.inl haudio), Option.map_eq_some'] at hg
  obtain ⟨x, _, hx⟩ := hg
  rw [← hx]

/-- An audio extraction that hands a record to the callback has run the chunk
loop from an empty list of records, on an audio session, against the boundary
of `GetTestDuration` for the requested time and the scan direction. -/
theorem GenerateSamples_audio_scan (m : CASFManager) (sp : IMFASFSplitter) (t : Int)
    (flags : Nat) (info : SAMPLE_INFO) (env : ScanEnv) (r : HRESULT × ScanState)
    (haudio : m.m_guidCurrentMediaType = GUID.MFMediaType_Audio)
    (hsp : m.m_pSplitter = some sp)
    (h : m.GenerateSamples t flags info env = some r) :
    r.2.sink = [] ∨
      ∃ (m3 : CASFManager) (b : Int) (off len : Nat),
        m3.m_guidCurrentMediaType = GUID.MFMediaType_Audio ∧
        m.GetTestDuration t (scanReverse sp flags) = some b ∧
        CASFManager.GenerateSamplesLoop t b (scanReverse sp flags) env.chunks off len
          HRESULT.S_OK { mgr := m3, info := info } = some r := by
  unfold CASFManager.GenerateSamples at h
  simp only [hsp] at h
  by_cases hfl : FAILED sp.hrFlush = true
  · rw [if_pos hfl] at h
    simp only [Option.some.injEq] at h
    subst h
    exact Or.inl rfl
  · rw [if_neg hfl, Option.bind_eq_some] at h
    obtain ⟨g, hg, h⟩ := h
    have hm1 : (if FAILED sp.hrSetFlags = true then m
        else { m with m_pSplitter := some { sp with dwFlags := flags } }).m_guidCurrentMediaType =
        GUID.MFMediaType_Audio := by
      split_ifs <;> exact haudio
    have hg2 := GetSeekPosition_of_audio _ t 0 0 g hm1 hg
    by_cases hgf : FAILED g.1 = true
    · rw [if_pos hgf] at h
      simp only [Option.some.injEq] at h
      subst h
      exact Or.inl rfl
    · rw [if_neg hgf] at h
      right
      change GenerateSamples.afterSeek g.2.1 g.1 g.2.2.1 t (scanReverse sp flags) info env =
        some r at h
      unfold GenerateSamples.afterSeek at h
      have hty : g.2.1.m_guidCurrentMediaType = GUID.MFMediaType_Audio := by rw [hg2]; exact hm1
      rw [if_pos hty, Option.bind_eq_some] at h
      obtain ⟨b, hb, h⟩ := h
      rw [Option.bind_eq_some] at h
      obtain ⟨m3, hm3, h⟩ := h
      have hb' : m.GetTestDuration t (scanReverse sp flags) = some b := by
        have hsame : ∀ rv : Bool, g.2.1.GetTestDuration t rv = m.GetTestDuration t rv := by
          intro rv
          rw [hg2]
          by_cases hset : FAILED sp.hrSetFlags = true
          · rw [if_pos hset]
          · rw [if_neg hset]
            rfl
        rw [← hsame]
        exact hb
      have h3 : m3.m_guidCurrentMediaType = GUID.MFMediaType_Audio := by
        cases hd : g.2.1.m_pDecoder with
        | none =>
          simp only [hd, Option.some.injEq] at hm3
          rw [← hm3]; exact hty
        | some d =>
          simp only [hd] at hm3
          rw [Option.map_eq_some'] at hm3
          obtain ⟨s, _, hs⟩ := hm3
          rw [← hs]
          split_ifs <;> exact hty
      by_cases hrv : scanReverse sp flags = true
      · rw [if_pos hrv] at h
        exact ⟨m3, b, _, _, h3, hb', h⟩
      · rw [if_neg hrv] at h
        exact ⟨m3, b, _, _, h3, hb', h⟩

/-- In an audio scan every record handed to the callback carries a timestamp
within the boundary or the timestamp the caller's record held before. -/
theorem loop_audio_records (t b : Int) (rev : Bool) (t0 : Int) (chunks : List ChunkResp)
    (off len : Nat) (hr : HRESULT) (st : ScanState) (r : HRESULT × ScanState)
    (haudio : st.mgr.m_guidCurrentMediaType = GUID.MFMediaType_Audio)
    (hinfo : withinBoundary rev b st.info.hnsSampleTime ∨ st.info.hnsSampleTime = t0)
    (hsink : ∀ rec ∈ st.sink, withinBoundary rev b rec.hnsSampleTime ∨ rec.hnsSampleTime = t0)
    (h : CASFManager.GenerateSamplesLoop t b rev chunks off len hr st = some r) :
    ∀ rec ∈ r.2.sink, withinBoundary rev b rec.hnsSampleTime ∨ rec.hnsSampleTime = t0 := by
  have key := loop_invariant
    (fun st : ScanState => st.mgr.m_guidCurrentMediaType = GUID.MFMediaType_Audio ∧
      (withinBoundary rev b st.info.hnsSampleTime ∨ st.info.hnsSampleTime = t0) ∧
      ∀ rec ∈ st.sink, withinBoundary rev b rec.hnsSampleTime ∨ rec.hnsSampleTime = t0)
    t b rev (fun st rd hP => hP) chunks
    (fun c _ => drain_invariant _ (fun _ => True) t b rev (fun st ws hP => hP)
      (by
        intro st s x _ hP _ hx
        obtain ⟨e1, e2⟩ := SendAudioSampleToDecoder_sink st s b rev x hx
        refine ⟨e1.trans hP.1, ?_⟩
        rcases e2 with ⟨e3, e4⟩ | ⟨_, hw, e3, e4⟩
        · rw [e3, e4]; exact hP.2
        · have ht : withinBoundary rev b (GetSampleInfo s st.info).2.hnsSampleTime ∨
              (GetSampleInfo s st.info).2.hnsSampleTime = t0 := by
            rcases (GetSampleInfo_time s st.info).1 with e | e
            · rw [e]; exact hP.2.1
            · rw [e]; exact Or.inl hw
          rw [e3, e4]
          refine ⟨ht, ?_⟩
          intro rec hrec
          rcases List.mem_append.1 hrec with h1 | h1
          · exact hP.2.2 rec h1
          · rw [List.mem_singleton.1 h1]; exact ht)
      (by
        intro st s x _ hP hV _
        rw [hP.1] at hV
        exact absurd hV (by decide))
      c.samples (fun _ _ _ _ => trivial))
    off len hr st r ⟨haudio, hinfo, hsink⟩ h
  exact key.2.2

/-- In an audio scan over samples whose `GetBufferCount` and `GetTotalLength`
succeed, every record handed to the callback carries a timestamp within the
boundary. -/
theorem loop_audio_records_strict (t b : Int) (rev : Bool) (chunks : List ChunkResp)
    (off len : Nat) (hr : HRESULT) (st : ScanState) (r : HRESULT × ScanState)
    (haudio : st.mgr.m_guidCurrentMediaType = GUID.MFMediaType_Audio)
    (hsink : ∀ rec ∈ st.sink, withinBoundary rev b rec.hnsSampleTime)
    (hS : ∀ s ∈ scanSamples chunks,
      FAILED s.hrGetBufferCount = false ∧ FAILED s.hrGetTotalLength = false)
    (h : CASFManager.GenerateSamplesLoop t b rev chunks off len hr st = some r) :
    ∀ rec ∈ r.2.sink, withinBoundary rev b rec.hnsSampleTime := by
  have key := loop_invariant
    (fun st : ScanState => st.mgr.m_guidCurrentMediaType = GUID.MFMediaType_Audio ∧
      ∀ rec ∈ st.sink, withinBoundary rev b rec.hnsSampleTime)
    t b rev (fun st rd hP => hP) chunks
    (fun c hc => drain_invariant _
      (fun s => FAILED s.hrGetBufferCount = false ∧ FAILED s.hrGetTotalLength = false)
      t b rev (fun st ws hP => hP)
      (by
        intro st s x hs hP _ hx
        obtain ⟨e1, e2⟩ := SendAudioSampleToDecoder_sink st s b rev x hx
        refine ⟨e1.trans hP.1, ?_⟩
        rcases e2 with ⟨e3, _⟩ | ⟨hts, hw, _, e4⟩
        · rw [e3]; exact hP.2
        · rw [e4]
          intro rec hrec
          rcases List.mem_append.1 hrec with h1 | h1
          · exact hP.2 rec h1
          · rw [List.mem_singleton.1 h1, (GetSampleInfo_time s st.info).2 hs.1 hs.2 hts]
            exact hw)
      (by
        intro st s x _ hP hV _
        rw [hP.1] at hV
        exact absurd hV (by decide))
      c.samples
      (by
        intro n hn s hs
        apply hS
        unfold scanSamples
        rw [List.mem_flatMap]
        exact ⟨c, hc, List.mem_filterMap.2 ⟨n, hn, hs⟩⟩))
    off len hr st r ⟨haudio, hsink⟩ h
  exact key.2

/-- Reverse interpolated resolution at the end of the presentation returns
offset 0. -/
theorem GetSeekPositionManually_rev_end (m : CASFManager) (fi : FILE_PROPERTIES_OBJECT)
    (sp : IMFASFSplitter) (c : Nat) (hfi : m.m_fileinfo = some fi)
    (hsp : m.m_pSplitter = some sp) (hfl : FAILED sp.hrGetFlags = false)
    (hrev : sp.dwFlags &&& MFASF_SPLITTER_REVERSE ≠ 0)
    (hd : 0 < fi.hnsPresentationDuration) :
    m.GetSeekPositionManually (fi.hnsPresentationDuration : Int) c = some (HRESULT.S_OK, 0) := by
  have hb : (sp.dwFlags &&& MFASF_SPLITTER_REVERSE != 0) = true := by simp [hrev]
  rw [GetSeekPositionManually_eq m fi sp _ c hfi hsp hfl, hb]
  have hX : fl ((fi.cPackets : ℚ) *
      seekFraction fi true (fi.hnsPresentationDuration : Int)) = 0 := by
    simp [seekFraction, fl_zero]
  unfold seekedPackets
  rw [if_neg (by omega), hX]
  simp [toInt32, wrap64]

/-- The reverse audio extraction from the end of the 10 s file over one sample
stamped 70,000,000 whose `GetBufferCount` fails: the boundary is 50,000,000,
the sample is decoded, and the record handed to the callback carries the
timestamp 0 of the caller's fresh record. -/
theorem audioSession_reverse_eval :
    audioSession.GetTestDuration 100000000 (scanReverse {} 1) = some 50000000 ∧
      (audioSession.GenerateSamples 100000000 1 {} sampleWithoutBufferCount).map
          (fun (r : HRESULT × ScanState) => (r.1, r.2.sink)) =
        some (HRESULT.S_OK,
          [{ fSeekedKeyFrame := 0, wStreamNumber := 0, cBufferCount := 0, hnsSampleTime := 0,
             cbTotalLength := 0 }]) := by
  refine ⟨by decide, ?_⟩
  have h := GetSeekPositionManually_rev_end
    { audioSession with m_pSplitter := some { dwFlags := 1 } } fileTenSeconds { dwFlags := 1 } 0
    rfl rfl rfl (by decide) (by decide)
  rw [GenerateSamples_of_seek audioSession {} 100000000 1 {} sampleWithoutBufferCount
    (HRESULT.S_OK, { audioSession with m_pSplitter := some { dwFlags := 1 } }, 0, 0)
    rfl rfl rfl (by rw [GetSeekPosition_manual _ _ _ _ (Or.inl rfl)]; exact h ▸ rfl)]
  decide

/-- The code `ReadDataIntoBuffer` returns is one the platform gave it. -/
theorem ReadDataIntoBuffer_code (s : Option IMFByteStream) (r : ReadResp) (rd : HRESULT × Bool)
    (h : ReadDataIntoBuffer s r = some rd) :
    rd.1 ∈ [r.hrCreateMemoryBuffer, r.hrLock, r.hrSetCurrentPosition, r.hrRead, r.hrUnlock,
      r.hrSetCurrentLength] := by
  unfold ReadDataIntoBuffer at h
  cases s <;> simp only at h <;> split_ifs at h <;>
    (simp only [Option.some.injEq] at h; rw [← h]; simp)

/-- The code with which the draining loop is left is an answer of
`GetNextSample`: what the routing methods return is not kept. -/
theorem drain_code (seek test : Int) (rev : Bool) (samples : List NextSample) :
    ∀ (st : ScanState) (e : DrainExit),
      GenerateSamplesLoop.drain seek test rev samples st = some e →
      e.hr ∈ samples.map fun n => n.hr := by
  induction samples with
  | nil => intro st e h; simp [GenerateSamplesLoop.drain] at h
  | cons r rest ih =>
    intro st e h
    rw [GenerateSamplesLoop.drain] at h
    by_cases hf : FAILED r.hr = true
    · simp only [hf, if_true, Option.some.injEq] at h
      subst h
      simp
    · have hnext : ∀ a : ScanState, ∀ e : DrainExit,
          (if (r.dwStatusFlags &&& ASF_STATUSFLAGS_INCOMPLETE != 0) = true then
            GenerateSamplesLoop.drain seek test rev rest a
          else some { hr := r.hr, abort := false, st := a }) = some e →
          e.hr ∈ (r :: rest).map fun n => n.hr := by
        intro a e he
        split_ifs at he
        · exact List.mem_cons_of_mem _ (ih a e he)
        · simp only [Option.some.injEq] at he
          subst he
          simp
      rw [if_neg hf] at h
      cases hs : r.pSample with
      | none =>
        simp only [hs] at h
        exact hnext st e h
      | some pSample =>
        simp only [hs] at h
        by_cases hd : st.mgr.m_pDecoder.isSome = true
        · rw [if_pos hd, Option.bind_eq_some] at h
          obtain ⟨a, _, h⟩ := h
          by_cases hc : a.fComplete = true
          · rw [if_pos hc] at h
            simp only [Option.some.injEq] at h
            subst h
            simp
          · rw [if_neg hc] at h
            exact hnext a e h
        · rw [if_neg hd] at h
          exact hnext _ e h

/-- The code the chunk loop returns is the one it was entered with or one the
environment gave: of a read, of `ParseData` or of `GetNextSample`. -/
theorem loop_code (seek test : Int) (rev : Bool) (chunks : List ChunkResp) :
    ∀ (off len : Nat) (hr : HRESULT) (st : ScanState) (r : HRESULT × ScanState),
      CASFManager.GenerateSamplesLoop seek test rev chunks off len hr st = some r →
      r.1 = hr ∨ r.1 ∈ scanCodes chunks := by
  induction chunks with
  | nil =>
    intro off len hr st r h
    unfold CASFManager.GenerateSamplesLoop at h
    split_ifs at h
    simp only [Option.some.injEq] at h
    subst h
    exact Or.inl rfl
  | cons c rest ih =>
    intro off len hr st r h
    rw [CASFManager.GenerateSamplesLoop] at h
    by_cases hgo : (!st.fComplete) = true ∧ len > 0
    · right
      rw [if_pos hgo, Option.bind_eq_some] at h
      obtain ⟨rd, hread, h⟩ := h
      simp only at h
      unfold scanCodes
      rw [List.flatMap_cons, List.mem_append]
      by_cases hrd : FAILED rd.1 = true
      · rw [if_pos hrd] at h
        simp only [Option.some.injEq] at h
        subst h
        left
        have := ReadDataIntoBuffer_code _ _ rd hread
        simp only [List.mem_cons, List.mem_singleton, List.mem_append, List.not_mem_nil,
          or_false] at this ⊢
        tauto
      · rw [if_neg hrd] at h
        by_cases hpd : FAILED c.hrParseData = true
        · rw [if_pos hpd] at h
          simp only [Option.some.injEq] at h
          subst h
          left
          simp
        · rw [if_neg hpd, Option.bind_eq_some] at h
          obtain ⟨e, hdr, h⟩ := h
          have h2 := drain_code seek test rev c.samples _ e hdr
          by_cases hab : e.abort = true
          · rw [if_pos hab] at h
            simp only [Option.some.injEq] at h
            subst h
            left
            exact List.mem_append_right _ h2
          · rw [if_neg hab] at h
            rcases ih _ _ _ _ r h with h3 | h3
            · left
              rw [h3]
              exact List.mem_append_right _ h2
            · right
              exact h3
    · rw [if_neg hgo] at h
      simp only [Option.some.injEq] at h
      subst h
      exact Or.inl rfl

/-- The resolver leaves the selected media type, the file properties, the
decoder session and the data region of the session as they are. -/
theorem GetSeekPosition_frame (m : CASFManager) (t : Int) (c : Nat) (a : Int)
    (g : HRESULT × CASFManager × Nat × Int) (hg : m.GetSeekPosition t c a = some g) :
    g.2.1.m_guidCurrentMediaType = m.m_guidCurrentMediaType ∧
      g.2.1.m_fileinfo = m.m_fileinfo ∧ g.2.1.m_pDecoder = m.m_pDecoder ∧
      g.2.1.m_cbDataLength = m.m_cbDataLength ∧ g.2.1.m_cbDataOffset = m.m_cbDataOffset := by
  unfold CASFManager.GetSeekPosition at hg
  split_ifs at hg
  · rw [Option.map_eq_some'] at hg
    obtain ⟨x, _, hx⟩ := hg
    rw [← hx]
    exact ⟨rfl, rfl, rfl, rfl, rfl⟩
  · unfold CASFManager.GetSeekPositionWithIndexer at hg
    cases hix : m.m_pIndexer with
    | none =>
      simp only [hix, Option.some.injEq] at hg
      rw [← hg]
      exact ⟨rfl, rfl, rfl, rfl, rfl⟩
    | some ix =>
      simp only [hix] at hg
      cases hsp : m.m_pSplitter with
      | none => simp [hsp] at hg
      | some sp =>
        simp only [hsp] at hg
        split_ifs at hg <;>
          (simp only [Option.some.injEq] at hg; rw [← hg]; exact ⟨rfl, rfl, rfl, rfl, rfl⟩)
  · simp only [Option.some.injEq] at hg
    rw [← hg]
    exact ⟨rfl, rfl, rfl, rfl, rfl⟩

/-- `UnLoad` leaves the streaming state as it is. -/
theorem UnLoad_state (d : CDecoder) : (d.UnLoad).2.m_DecoderState = d.m_DecoderState := by
  unfold CDecoder.UnLoad
  cases d.m_pMFT with
  | none => rfl
  | some _ =>
    cases d.m_pMediaController <;> rfl

/-- `ConfigureDecoder` leaves the streaming state as it is. -/
theorem ConfigureDecoder_state (d : CDecoder) (ty : Option IMFMediaType) (env : AudioDeviceEnv)
    (r : HRESULT × CDecoder) (h : d.ConfigureDecoder ty env = some r) :
    r.2.m_DecoderState = d.m_DecoderState := by
  unfold CDecoder.ConfigureDecoder at h
  cases ty with
  | none =>
    simp only [Option.some.injEq] at h
    rw [← h]
  | some t =>
    cases hm : d.m_pMFT with
    | none =>
      simp only [hm, Option.some.injEq] at h
      rw [← h]
    | some mft =>
      simp only [hm] at h
      split_ifs at h <;>
        first
          | (simp only [Option.some.injEq] at h; rw [← h])
          | (rw [Option.map_eq_some'] at h
             obtain ⟨x, _, hx⟩ := h
             rw [← hx])

/-- The `done:` block of `Initialize` leaves the streaming state as it is. -/
theorem Initialize_done_state (x : HRESULT × CDecoder) :
    (Initialize.done x).2.m_DecoderState = x.2.m_DecoderState := by
  unfold Initialize.done
  split_ifs
  · exact UnLoad_state x.2
  · rfl

/-- `Initialize` never writes the streaming state. -/
theorem Initialize_state (d : CDecoder) (clsid : GUID) (ty : Option IMFMediaType) (env : InitEnv)
    (r : HRESULT × CDecoder) (h : d.Initialize clsid ty env = some r) :
    r.2.m_DecoderState = d.m_DecoderState := by
  unfold CDecoder.Initialize at h
  simp only at h
  split_ifs at h <;>
    first
      | (simp only [Option.some.injEq] at h
         subst h
         simp [Initialize_done_state, UnLoad_state])
      | (rw [Option.map_eq_some'] at h
         obtain ⟨x, hx, hxr⟩ := h
         subst hxr
         simp [Initialize_done_state, ConfigureDecoder_state _ _ _ _ hx, UnLoad_state])

/-- The forward extraction for seek time 50 on the indexed video session with
a decoder session whose start, where it is due, succeeds with `S_OK`, is the
chunk loop over the whole data region on the session with that decoder
started. -/
theorem videoSessionWith_scan (d d1 : CDecoder) (env : ScanEnv)
    (hd : (if d.GetDecoderStatus != STREAMING then d.StartDecoding
      else some (HRESULT.S_OK, d)) = some (HRESULT.S_OK, d1)) :
    (videoSessionWith d).GenerateSamples 50 0 {} env =
      CASFManager.GenerateSamplesLoop 50 0 false env.chunks 1000 4096 HRESULT.S_OK
        { mgr := videoSessionWith d1, info := {} } := by
  rw [GenerateSamples_of_seek (videoSessionWith d) {} 50 0 {} env
    (HRESULT.S_OK, videoSessionWith d, 0, 50) rfl rfl rfl rfl]
  change GenerateSamples.afterSeek (videoSessionWith d) HRESULT.S_OK 0 50 false {} env = _
  unfold GenerateSamples.afterSeek
  have hv : ¬ ((videoSessionWith d).m_guidCurrentMediaType = GUID.MFMediaType_Audio) := by
    change ¬ (GUID.MFMediaType_Video = GUID.MFMediaType_Audio)
    decide
  simp only [hv, if_false, Option.some_bind]
  have hdec : (videoSessionWith d).m_pDecoder = some d := rfl
  simp only [hdec, hd, Option.map_some']
  rfl

/-! ## The index flags across two extractions -/

/-- The reverse extraction for seek time 50 on `sessionTwoEntryIndex` is the
chunk loop run backward from the reverse-playback entry. -/
theorem sessionTwoEntryIndex_reverse_scan (env : ScanEnv) :
    sessionTwoEntryIndex.GenerateSamples 50 MFASF_SPLITTER_REVERSE {} env =
      CASFManager.GenerateSamplesLoop 50 0 true env.chunks 4796 3796 HRESULT.S_OK
        { mgr := sessionAfterReverse, info := {} } := by
  rw [GenerateSamples_of_seek sessionTwoEntryIndex {} 50 MFASF_SPLITTER_REVERSE {} env
    (HRESULT.S_OK,
      { sessionTwoEntryIndex with
        m_pSplitter := some { dwFlags := MFASF_SPLITTER_REVERSE },
        m_pIndexer :=
          some { twoEntryIndex with dwFlags := MFASF_INDEXER_READ_FOR_REVERSEPLAYBACK } },
      300, 50) rfl rfl rfl rfl]
  rfl

/-- The forward extraction for seek time 50 on `sessionTwoEntryIndex` is the
chunk loop run forward from the forward entry. -/
theorem sessionTwoEntryIndex_forward_scan (env : ScanEnv) :
    sessionTwoEntryIndex.GenerateSamples 50 0 {} env =
      CASFManager.GenerateSamplesLoop 50 0 false env.chunks 1100 3996 HRESULT.S_OK
        { mgr := { sessionAfterReverse with
                   m_pSplitter := some {}, m_pIndexer := some twoEntryIndex },
          info := {} } := by
  rw [GenerateSamples_of_seek sessionTwoEntryIndex {} 50 0 {} env
    (HRESULT.S_OK, sessionTwoEntryIndex, 100, 50) rfl rfl rfl rfl]
  rfl

/-- The forward extraction for seek time 50 on the session a reverse
extraction left is the chunk loop run forward from the reverse-playback
entry. -/
theorem sessionAfterReverse_forward_scan (env : ScanEnv) :
    sessionAfterReverse.GenerateSamples 50 0 {} env =
      CASFManager.GenerateSamplesLoop 50 0 false env.chunks 1300 3796 HRESULT.S_OK
        { mgr := { sessionAfterReverse with m_pSplitter := some {} }, info := {} } := by
  rw [GenerateSamples_of_seek sessionAfterReverse { dwFlags := MFASF_SPLITTER_REVERSE } 50 0 {}
    env (HRESULT.S_OK, { sessionAfterReverse with m_pSplitter := some {} }, 300, 50)
    rfl rfl rfl rfl]
  rfl

/-- The reverse extraction on `sessionTwoEntryIndex` that meets no sample
reads the region below the reverse-playback entry and leaves
`sessionAfterReverse`. -/
theorem sessionTwoEntryIndex_reverse_result :
    sessionTwoEntryIndex.GenerateSamples 50 MFASF_SPLITTER_REVERSE {} chunkWithoutSample =
      some (HRESULT.S_OK,
        { mgr := sessionAfterReverse, info := {}, reads := [(1000, 3796)] }) := by
  rw [sessionTwoEntryIndex_reverse_scan]
  rfl

/-! ## The reads of the chunk loop -/

/-- A read that does not fail has reached `Read`. -/
theorem ReadDataIntoBuffer_reached (s : Option IMFByteStream) (r : ReadResp)
    (rd : HRESULT × Bool) (h : ReadDataIntoBuffer s r = some rd) (hok : FAILED rd.1 = false) :
    rd.2 = true := by
  unfold ReadDataIntoBuffer at h
  cases s <;> simp only at h <;> split_ifs at h <;>
    (simp only [Option.some.injEq] at h; subst h; simp_all)

/-- `SendAudioSampleToDecoder` issues no read. -/
theorem SendAudioSampleToDecoder_reads (st : ScanState) (s : IMFSample) (b : Int) (rev : Bool)
    (x : HRESULT × ScanState) (h : CASFManager.SendAudioSampleToDecoder st s b rev = some x) :
    x.2.reads = st.reads := by
  unfold CASFManager.SendAudioSampleToDecoder at h
  cases hd : st.mgr.m_pDecoder with
  | none => simp [hd] at h
  | some d =>
    simp only [hd] at h
    split_ifs at h <;>
      first
        | (simp only [Option.some.injEq] at h; subst h; rfl)
        | (rw [Option.bind_eq_some] at h
           obtain ⟨a, _, h⟩ := h
           split_ifs at h <;>
             first
               | (simp only [Option.some.injEq] at h; subst h; rfl)
               | (rw [Option.bind_eq_some] at h
                  obtain ⟨p, _, h⟩ := h
                  split_ifs at h <;> (simp only [Option.some.injEq] at h; subst h; rfl)))

/-- `SendKeyFrameToDecoder` issues no read. -/
theorem SendKeyFrameToDecoder_reads (st : ScanState) (s : IMFSample) (t : Int) (rev : Bool)
    (x : HRESULT × ScanState) (h : CASFManager.SendKeyFrameToDecoder st s t rev = some x) :
    x.2.reads = st.reads := by
  unfold CASFManager.SendKeyFrameToDecoder at h
  by_cases hf : FAILED s.hrGetSampleTime = true
  · rw [if_pos hf] at h
    simp only [Option.some.injEq] at h
    subst h
    rfl
  · rw [if_neg hf] at h
    cases hfi : st.mgr.m_fileinfo with
    | none => simp [hfi] at h
    | some fi =>
      simp only [hfi] at h
      by_cases hc : s.cleanPoint = 0
      · rw [if_pos hc] at h
        simp only [Option.some.injEq] at h
        subst h
        rfl
      · rw [if_neg hc] at h
        by_cases hsd : (if rev = true then decide (adjustPreroll s.hnsSampleTime fi.hnspreroll ≤ t)
            else decide (adjustPreroll s.hnsSampleTime fi.hnspreroll ≥ t)) = true
        · rw [if_pos hsd] at h
          cases hd : st.mgr.m_pDecoder with
          | none => simp [hd] at h
          | some d =>
            simp only [hd] at h
            rw [Option.bind_eq_some] at h
            obtain ⟨a, _, h⟩ := h
            by_cases ha : FAILED a.1 = true
            · rw [if_pos ha] at h
              simp only [Option.some.injEq] at h
              subst h
              rfl
            · rw [if_neg ha] at h
              by_cases hdis : FAILED s.hrSetDiscontinuity = true
              · rw [if_pos hdis] at h
                simp only [Option.some.injEq] at h
                subst h
                rfl
              · rw [if_neg hdis, Option.bind_eq_some] at h
                obtain ⟨p, _, h⟩ := h
                by_cases hp : FAILED p.1 = true
                · rw [if_pos hp] at h
                  simp only [Option.some.injEq] at h
                  subst h
                  rfl
                · rw [if_neg hp, Option.map_eq_some'] at h
                  obtain ⟨e, _, h⟩ := h
                  subst h
                  rfl
        · rw [if_neg hsd] at h
          simp only [Option.some.injEq] at h
          subst h
          rfl

/-- The draining loop issues no read. -/
theorem drain_reads (seek test : Int) (rev : Bool) (samples : List NextSample) (st : ScanState)
    (e : DrainExit) (h : GenerateSamplesLoop.drain seek test rev samples st = some e) :
    e.st.reads = st.reads :=
  drain_invariant (fun s => s.reads = st.reads) (fun _ => True) seek test rev
    (fun _ _ h => h)
    (fun a s x _ ha _ hx => (SendAudioSampleToDecoder_reads a s test rev x hx).trans ha)
    (fun a s x _ ha _ hx => (SendKeyFrameToDecoder_reads a s seek rev x hx).trans ha)
    samples (fun _ _ _ _ => trivial) st e rfl h

/-- The reads of a scan, one step on: after a first read of
`min(4096, len)` bytes the further reads are those of the scan of the
remaining bytes from the advanced offset. -/
theorem chunkReads_succ (rev : Bool) (off len n : Nat) (hoff : off < 2 ^ 32)
    (hlen : len < 2 ^ 32) (hpos : 0 < len)
    (hn : n ≤ specReadCount (wrap32 ((len : Int) - (min (1024 * 4) len : Nat)))) :
    chunkReads rev off len (n + 1) =
      ((if rev then wrap32 ((off : Int) - (min (1024 * 4) len : Nat)) else off),
          min (1024 * 4) len) ::
        chunkReads rev
          (if rev then wrap32 ((off : Int) - (min (1024 * 4) len : Nat))
            else wrap32 ((off : Int) + (min (1024 * 4) len : Nat)))
          (wrap32 ((len : Int) - (min (1024 * 4) len : Nat))) n := by
  unfold chunkReads
  rw [List.range_succ_eq_map, List.map_cons, List.map_map]
  have hl1 : wrap32 ((len : Int) - (min (1024 * 4) len : Nat)) = len - min (1024 * 4) len := by
    unfold wrap32
    omega
  congr 1
  · unfold specReadStart specReadSize
    cases rev with
    | true =>
      simp only [if_true, Prod.mk.injEq]
      refine ⟨?_, by omega⟩
      unfold wrap32
      omega
    | false =>
      simp only [Bool.false_eq_true, if_false, Prod.mk.injEq]
      refine ⟨?_, by omega⟩
      unfold wrap32
      omega
  · apply List.map_congr_left
    intro k hk
    rw [List.mem_range] at hk
    have hk1 : k < specReadCount (len - min (1024 * 4) len) := by
      rw [hl1] at hn
      omega
    unfold specReadCount at hk1
    simp only [Function.comp, hl1]
    unfold specReadStart specReadSize
    cases rev with
    | true =>
      simp only [if_true, Prod.mk.injEq]
      refine ⟨?_, by omega⟩
      unfold wrap32
      omega
    | false =>
      simp only [Bool.false_eq_true, if_false, Prod.mk.injEq]
      refine ⟨?_, by omega⟩
      unfold wrap32
      omega

/-- The draining loop is left by `goto done` only on a failure. -/
theorem drain_abort_failed (seek test : Int) (rev : Bool) (samples : List NextSample) :
    ∀ (st : ScanState) (e : DrainExit),
      GenerateSamplesLoop.drain seek test rev samples st = some e → e.abort = true →
      FAILED e.hr = true := by
  induction samples with
  | nil => intro st e h; simp [GenerateSamplesLoop.drain] at h
  | cons r rest ih =>
    intro st e h hab
    rw [GenerateSamplesLoop.drain] at h
    by_cases hf : FAILED r.hr = true
    · simp only [hf, if_true, Option.some.injEq] at h
      subst h
      exact hf
    · have hnext : ∀ a : ScanState,
          (if (r.dwStatusFlags &&& ASF_STATUSFLAGS_INCOMPLETE != 0) = true then
            GenerateSamplesLoop.drain seek test rev rest a
          else some { hr := r.hr, abort := false, st := a }) = some e → FAILED e.hr = true := by
        intro a he
        split_ifs at he
        · exact ih a e he hab
        · simp only [Option.some.injEq] at he
          subst he
          simp at hab
      rw [if_neg hf] at h
      cases hs : r.pSample with
      | none =>
        simp only [hs] at h
        exact hnext st h
      | some pSample =>
        simp only [hs] at h
        by_cases hd : st.mgr.m_pDecoder.isSome = true
        · rw [if_pos hd, Option.bind_eq_some] at h
          obtain ⟨a, _, h⟩ := h
          by_cases hc : a.fComplete = true
          · rw [if_pos hc] at h
            simp only [Option.some.injEq] at h
            subst h
            simp at hab
          · rw [if_neg hc] at h
            exact hnext a h
        · rw [if_neg hd] at h
          exact hnext _ h

/-- The reads the chunk loop issues are, in this order, the first reads of
the scan of `len` bytes from its offset, at most `ceil(len / 4096)` of them,
and all of them when the loop returns a success without completion marked. -/
theorem loop_reads (seek test : Int) (rev : Bool) (chunks : List ChunkResp) :
    ∀ (off len : Nat) (hr : HRESULT) (st : ScanState) (r : HRESULT × ScanState),
      off < 2 ^ 32 → len < 2 ^ 32 →
      CASFManager.GenerateSamplesLoop seek test rev chunks off len hr st = some r →
      ∃ n, n ≤ specReadCount len ∧ r.2.reads = st.reads ++ chunkReads rev off len n ∧
        (FAILED r.1 = false → r.2.fComplete = false → n = specReadCount len) := by
  have hzero : ∀ (len : Nat) (st : ScanState), ¬ ((!st.fComplete) = true ∧ len > 0) →
      st.fComplete = false → 0 = specReadCount len := by
    intro len st hgo hc
    have : len = 0 := by
      by_contra hne
      exact hgo ⟨by simp [hc], Nat.pos_of_ne_zero hne⟩
    subst this
    rfl
  induction chunks with
  | nil =>
    intro off len hr st r _ _ h
    unfold CASFManager.GenerateSamplesLoop at h
    by_cases hgo : (!st.fComplete) = true ∧ len > 0
    · rw [if_pos hgo] at h
      simp at h
    · rw [if_neg hgo] at h
      simp only [Option.some.injEq] at h
      subst h
      exact ⟨0, Nat.zero_le _, by simp [chunkReads], fun _ hc => hzero len st hgo hc⟩
  | cons c rest ih =>
    intro off len hr st r hoff hlen h
    rw [CASFManager.GenerateSamplesLoop] at h
    by_cases hgo : (!st.fComplete) = true ∧ len > 0
    · have hpos : 0 < len := hgo.2
      have hcount : 1 ≤ specReadCount len := by
        unfold specReadCount
        omega
      have hone := chunkReads_succ rev off len 0 hoff hlen hpos (Nat.zero_le _)
      have hnil : ∀ a b : Nat, chunkReads rev a b 0 = [] := fun a b => rfl
      rw [hnil] at hone
      rw [if_pos hgo, Option.bind_eq_some] at h
      obtain ⟨rd, hrd, h⟩ := h
      simp only at h
      have hst1 : ∃ n, n ≤ 1 ∧
          (if rd.2 = true then
            { st with reads := st.reads ++
                [(if rev = true then wrap32 ((off : Int) - (min (1024 * 4) len : Nat)) else off,
                  min (1024 * 4) len)] }
            else st).reads = st.reads ++ chunkReads rev off len n := by
        by_cases h2 : rd.2 = true
        · exact ⟨1, le_refl _, by rw [if_pos h2, hone]⟩
        · exact ⟨0, Nat.zero_le _, by rw [if_neg h2, hnil]; simp⟩
      by_cases hf : FAILED rd.1 = true
      · rw [if_pos hf] at h
        simp only [Option.some.injEq] at h
        subst h
        obtain ⟨n, hn, e⟩ := hst1
        exact ⟨n, le_trans hn hcount, e, fun hok => by simp [hf] at hok⟩
      · rw [if_neg hf] at h
        have h2 : rd.2 = true := ReadDataIntoBuffer_reached _ _ rd hrd (by simpa using hf)
        rw [if_pos h2] at h
        by_cases hp : FAILED c.hrParseData = true
        · rw [if_pos hp] at h
          simp only [Option.some.injEq] at h
          subst h
          exact ⟨1, hcount, by rw [hone], fun hok => by simp [hp] at hok⟩
        · rw [if_neg hp, Option.bind_eq_some] at h
          obtain ⟨e, hdr, h⟩ := h
          have hreads := drain_reads _ _ _ _ _ e hdr
          by_cases hab : e.abort = true
          · rw [if_pos hab] at h
            simp only [Option.some.injEq] at h
            subst h
            have hfe := drain_abort_failed _ _ _ _ _ e hdr hab
            exact ⟨1, hcount, by rw [hone]; exact hreads, fun hok => by simp [hfe] at hok⟩
          · rw [if_neg hab] at h
            have hw : ∀ x : Int, wrap32 x < 2 ^ 32 := by
              intro x
              unfold wrap32
              omega
            obtain ⟨n, hn, e1, eall⟩ := ih _ _ _ _ r
              (by split_ifs <;> exact hw _) (hw _) h
            have hl1 : wrap32 ((len : Int) - (min (1024 * 4) len : Nat)) =
                len - min (1024 * 4) len := by
              unfold wrap32
              omega
            refine ⟨n + 1, ?_, ?_, ?_⟩
            · rw [hl1] at hn
              unfold specReadCount at hn ⊢
              omega
            · rw [e1, hreads, chunkReads_succ rev off len n hoff hlen hpos hn]
              simp
            · intro hok hc
              have := eall hok hc
              rw [hl1] at this
              unfold specReadCount at this ⊢
              omega
    · rw [if_neg hgo] at h
      simp only [Option.some.injEq] at h
      subst h
      exact ⟨0, Nat.zero_le _, by simp [chunkReads], fun _ hc => hzero len st hgo hc⟩

/-! ## The chunk loop runs to the end of the range -/

/-- A read all of whose calls succeed, on a byte stream, reaches `Read` and
succeeds. -/
theorem ReadDataIntoBuffer_succeeds (bs : IMFByteStream) (r : ReadResp) (h : r.fails = false) :
    ReadDataIntoBuffer (some bs) r = some (r.hrSetCurrentLength, true) ∧
      FAILED r.hrSetCurrentLength = false := by
  unfold ReadResp.fails at h
  simp only [Bool.or_eq_false_iff] at h
  obtain ⟨⟨⟨⟨⟨h1, h2⟩, h3⟩, h4⟩, h5⟩, h6⟩ := h
  unfold ReadDataIntoBuffer
  simp [h1, h2, h3, h4, h5, h6]

/-- The draining loop returns, without failure, when the answers of
`GetNextSample` succeed up to one that announces no further sample and the
routing methods return on the samples delivered, keeping a property `I` of the
scan state. -/
theorem drain_runs (I : ScanState → Prop) (S : IMFSample → Prop) (seek test : Int) (rev : Bool)
    (hinfo : ∀ (st : ScanState) (ws : Nat), I st →
      I { st with info := { st.info with wStreamNumber := ws } })
    (haudio : ∀ (st : ScanState) (s : IMFSample), S s → I st →
      st.mgr.m_pDecoder.isSome = true →
      st.mgr.m_guidCurrentMediaType = GUID.MFMediaType_Audio →
      ∃ x, CASFManager.SendAudioSampleToDecoder st s test rev = some x ∧ I x.2)
    (hvideo : ∀ (st : ScanState) (s : IMFSample), S s → I st →
      st.mgr.m_pDecoder.isSome = true →
      st.mgr.m_guidCurrentMediaType = GUID.MFMediaType_Video →
      ∃ x, CASFManager.SendKeyFrameToDecoder st s seek rev = some x ∧ I x.2)
    (samples : List NextSample) :
    drainAborts samples = false → (∀ n ∈ samples, ∀ s, n.pSample = some s → S s) →
    ∀ st : ScanState, I st →
      ∃ e : DrainExit, GenerateSamplesLoop.drain seek test rev samples st = some e ∧
        e.abort = false ∧ FAILED e.hr = false ∧ I e.st := by
  induction samples with
  | nil => intro h; simp [drainAborts] at h
  | cons r rest ih =>
    intro hda hS st hI
    unfold drainAborts at hda
    by_cases hf : FAILED r.hr = true
    · rw [if_pos hf] at hda
      simp at hda
    · rw [if_neg hf] at hda
      have hf1 : FAILED r.hr = false := by simpa using hf
      have hnext : ∀ a : ScanState, I a → ∃ e : DrainExit,
          (if (r.dwStatusFlags &&& ASF_STATUSFLAGS_INCOMPLETE != 0) = true then
            GenerateSamplesLoop.drain seek test rev rest a
          else some { hr := r.hr, abort := false, st := a }) = some e ∧
          e.abort = false ∧ FAILED e.hr = false ∧ I e.st := by
        intro a ha
        by_cases hfl : (r.dwStatusFlags &&& ASF_STATUSFLAGS_INCOMPLETE != 0) = true
        · rw [if_pos hfl] at hda ⊢
          exact ih hda (fun n hn s hs => hS n (List.mem_cons_of_mem _ hn) s hs) a ha
        · rw [if_neg hfl]
          exact ⟨_, rfl, rfl, hf1, ha⟩
      rw [GenerateSamplesLoop.drain, if_neg hf]
      cases hs : r.pSample with
      | none => exact hnext st hI
      | some pSample =>
        have hSs := hS r (List.mem_cons_self _ _) pSample hs
        have h1 := hinfo st r.wStreamNumber hI
        by_cases hd : st.mgr.m_pDecoder.isSome = true
        · simp only [hd, if_true]
          have hroute : ∃ a : ScanState,
              (if st.mgr.m_guidCurrentMediaType = GUID.MFMediaType_Audio then
                (CASFManager.SendAudioSampleToDecoder
                  { st with info := { st.info with wStreamNumber := r.wStreamNumber } }
                  pSample test rev).map fun x => x.2
              else if st.mgr.m_guidCurrentMediaType = GUID.MFMediaType_Video then
                (CASFManager.SendKeyFrameToDecoder
                  { st with info := { st.info with wStreamNumber := r.wStreamNumber } }
                  pSample seek rev).map fun x => x.2
              else some { st with info := { st.info with wStreamNumber := r.wStreamNumber } }) =
                some a ∧ I a := by
            by_cases hA : st.mgr.m_guidCurrentMediaType = GUID.MFMediaType_Audio
            · obtain ⟨x, hx, hIx⟩ := haudio _ pSample hSs h1 hd hA
              exact ⟨x.2, by rw [if_pos hA, hx]; rfl, hIx⟩
            · by_cases hV : st.mgr.m_guidCurrentMediaType = GUID.MFMediaType_Video
              · obtain ⟨x, hx, hIx⟩ := hvideo _ pSample hSs h1 hd hV
                exact ⟨x.2, by rw [if_neg hA, if_pos hV, hx]; rfl, hIx⟩
              · exact ⟨_, by rw [if_neg hA, if_neg hV], h1⟩
          obtain ⟨a, ha, hIa⟩ := hroute
          rw [ha]
          simp only [Option.some_bind]
          by_cases hc : a.fComplete = true
          · rw [if_pos hc]
            exact ⟨_, rfl, rfl, hf1, hIa⟩
          · rw [if_neg hc]
            exact hnext a hIa
        · simp only [hd, if_false]
          exact hnext _ h1

/-- The chunk loop returns, without failure, when it finds a chunk of
successful answers for each of its `ceil(len / 4096)` iterations, the byte
stream exists, and the routing methods return on the samples delivered,
keeping a property `I` of the scan state. -/
theorem loop_runs (I : ScanState → Prop) (S : IMFSample → Prop) (seek test : Int) (rev : Bool)
    (hstream : ∀ st : ScanState, I st → ∃ bs, st.mgr.m_pByteStream = some bs)
    (hreads : ∀ (st : ScanState) (rd : Nat × Nat), I st →
      I { st with reads := st.reads ++ [rd] })
    (hinfo : ∀ (st : ScanState) (ws : Nat), I st →
      I { st with info := { st.info with wStreamNumber := ws } })
    (haudio : ∀ (st : ScanState) (s : IMFSample), S s → I st →
      st.mgr.m_pDecoder.isSome = true →
      st.mgr.m_guidCurrentMediaType = GUID.MFMediaType_Audio →
      ∃ x, CASFManager.SendAudioSampleToDecoder st s test rev = some x ∧ I x.2)
    (hvideo : ∀ (st : ScanState) (s : IMFSample), S s → I st →
      st.mgr.m_pDecoder.isSome = true →
      st.mgr.m_guidCurrentMediaType = GUID.MFMediaType_Video →
      ∃ x, CASFManager.SendKeyFrameToDecoder st s seek rev = some x ∧ I x.2)
    (chunks : List ChunkResp) :
    (∀ c ∈ chunks, c.succeeds = true) →
    (∀ c ∈ chunks, ∀ n ∈ c.samples, ∀ s, n.pSample = some s → S s) →
    ∀ (off len : Nat) (hr : HRESULT) (st : ScanState),
      len < 2 ^ 32 → specReadCount len ≤ chunks.length → I st → FAILED hr = false →
      ∃ r, CASFManager.GenerateSamplesLoop seek test rev chunks off len hr st = some r ∧
        FAILED r.1 = false ∧ I r.2 := by
  induction chunks with
  | nil =>
    intro _ _ off len hr st _ hcount hI hok
    have hz : len = 0 := by
      unfold specReadCount at hcount
      simp only [List.length_nil] at hcount
      omega
    subst hz
    unfold CASFManager.GenerateSamplesLoop
    exact ⟨(hr, st), by simp, hok, hI⟩
  | cons c rest ih =>
    intro hsucc hS off len hr st hlen hcount hI hok
    rw [CASFManager.GenerateSamplesLoop]
    by_cases hgo : (!st.fComplete) = true ∧ len > 0
    · rw [if_pos hgo]
      obtain ⟨bs, hbs⟩ := hstream st hI
      have hc := hsucc c (List.mem_cons_self _ _)
      unfold ChunkResp.succeeds at hc
      simp only [Bool.and_eq_true, Bool.not_eq_true'] at hc
      obtain ⟨⟨hread, hparse⟩, hdrain⟩ := hc
      obtain ⟨hrd, hrdok⟩ := ReadDataIntoBuffer_succeeds bs c.read hread
      rw [hbs, hrd]
      simp only [Option.some_bind, if_true, hrdok, hparse, Bool.false_eq_true, if_false]
      obtain ⟨e, he, hab, heok, hIe⟩ := drain_runs I S seek test rev hinfo haudio hvideo
        c.samples hdrain (hS c (List.mem_cons_self _ _))
        { st with reads := st.reads ++
            [(if rev = true then wrap32 ((off : Int) - (min (1024 * 4) len : Nat)) else off,
              min (1024 * 4) len)] } (hreads st _ hI)
      rw [he]
      simp only [Option.some_bind, hab, Bool.false_eq_true, if_false]
      have hw : ∀ x : Int, wrap32 x < 2 ^ 32 := by
        intro x
        unfold wrap32
        omega
      apply ih (fun c1 hc1 => hsucc c1 (List.mem_cons_of_mem _ hc1))
        (fun c1 hc1 => hS c1 (List.mem_cons_of_mem _ hc1)) _ _ _ _ (hw _) _ hIe heok
      have hl1 : wrap32 ((len : Int) - (min (1024 * 4) len : Nat)) =
          len - min (1024 * 4) len := by
        unfold wrap32
        omega
      rw [hl1]
      simp only [List.length_cons] at hcount
      unfold specReadCount at hcount ⊢
      omega
    · rw [if_neg hgo]
      exact ⟨(hr, st), rfl, hok, hI⟩

/-- The sizes of the `n` reads of a scan over at most `4096 * n` bytes sum to
the length of the range. -/
theorem specReadSize_sum (n : Nat) : ∀ len : Nat, len ≤ 4096 * n →
    ((List.range n).map (specReadSize len)).sum = len := by
  induction n with
  | zero =>
    intro len h
    simp only [List.range_zero, List.map_nil, List.sum_nil]
    omega
  | succ n ih =>
    intro len h
    rw [List.range_succ_eq_map, List.map_cons, List.sum_cons, List.map_map]
    have e : (specReadSize len ∘ Nat.succ) = specReadSize (len - 4096) := by
      funext k
      have hk : len - 4096 * (k + 1) = len - 4096 - 4096 * k := by omega
      simp only [Function.comp, specReadSize, Nat.succ_eq_add_one, hk]
    rw [e, ih (len - 4096) (by omega)]
    unfold specReadSize
    omega

/-! ## The byte range of an extraction -/

/-- The resolver leaves the byte stream of the session as it is. -/
theorem GetSeekPosition_stream (m : CASFManager) (t : Int) (c : Nat) (a : Int)
    (g : HRESULT × CASFManager × Nat × Int) (hg : m.GetSeekPosition t c a = some g) :
    g.2.1.m_pByteStream = m.m_pByteStream := by
  unfold CASFManager.GetSeekPosition at hg
  split_ifs at hg
  · rw [Option.map_eq_some'] at hg
    obtain ⟨x, _, hx⟩ := hg
    rw [← hx]
  · unfold CASFManager.GetSeekPositionWithIndexer at hg
    cases hix : m.m_pIndexer with
    | none =>
      simp only [hix, Option.some.injEq] at hg
      rw [← hg]
    | some ix =>
      simp only [hix] at hg
      cases hsp : m.m_pSplitter with
      | none => simp [hsp] at hg
      | some sp =>
        simp only [hsp] at hg
        split_ifs at hg <;> (simp only [Option.some.injEq] at hg; rw [← hg])
  · simp only [Option.some.injEq] at hg
    rw [← hg]

/-- `GenerateSamples` past `Flush` and a successful resolver is the part that
follows the seek. -/
theorem GenerateSamples_afterSeek (m : CASFManager) (sp : IMFASFSplitter) (t : Int)
    (flags : Nat) (info : SAMPLE_INFO) (env : ScanEnv) (g : HRESULT × CASFManager × Nat × Int)
    (hsp : m.m_pSplitter = some sp) (hflush : FAILED sp.hrFlush = false)
    (hseek : (if FAILED sp.hrSetFlags then m
      else { m with m_pSplitter := some { sp with dwFlags := flags } }).GetSeekPosition t 0 0 =
        some g)
    (hgok : FAILED g.1 = false) :
    m.GenerateSamples t flags info env =
      GenerateSamples.afterSeek g.2.1 g.1 g.2.2.1 t (scanReverse sp flags) info env := by
  unfold CASFManager.GenerateSamples
  simp only [hsp, hflush, Bool.false_eq_true, if_false]
  rw [hseek]
  simp only [Option.some_bind, hgok, Bool.false_eq_true, if_false]
  rfl

/-- What the session of `GenerateSamples` keeps from the call to the scan:
everything the resolver and the start of the decoder leave alone. -/
theorem GenerateSamples_frame (m : CASFManager) (sp : IMFASFSplitter) (t : Int)
    (flags : Nat) (g : HRESULT × CASFManager × Nat × Int)
    (hseek : (if FAILED sp.hrSetFlags then m
      else { m with m_pSplitter := some { sp with dwFlags := flags } }).GetSeekPosition t 0 0 =
        some g) :
    g.2.1.m_guidCurrentMediaType = m.m_guidCurrentMediaType ∧
      g.2.1.m_fileinfo = m.m_fileinfo ∧ g.2.1.m_pDecoder = m.m_pDecoder ∧
      g.2.1.m_cbDataLength = m.m_cbDataLength ∧ g.2.1.m_cbDataOffset = m.m_cbDataOffset ∧
      g.2.1.m_pByteStream = m.m_pByteStream := by
  obtain ⟨f1, f2, f3, f4, f5⟩ := GetSeekPosition_frame _ t 0 0 g hseek
  have f6 := GetSeekPosition_stream _ t 0 0 g hseek
  rw [f1, f2, f3, f4, f5, f6]
  split_ifs <;> exact ⟨rfl, rfl, rfl, rfl, rfl, rfl⟩

/-- The part of `GenerateSamples` that follows the seek runs the chunk loop
from `scanStart` over `scanLength` bytes, on the session with at most its
decoder session changed. -/
theorem afterSeek_loop (m2 : CASFManager) (hrSeek : HRESULT) (s : Nat) (t : Int) (rev : Bool)
    (info : SAMPLE_INFO) (env : ScanEnv) (r : HRESULT × ScanState)
    (h : GenerateSamples.afterSeek m2 hrSeek s t rev info env = some r) :
    ∃ (b : Int) (m3 : CASFManager), m3 = { m2 with m_pDecoder := m3.m_pDecoder } ∧
      CASFManager.GenerateSamplesLoop t b rev env.chunks (scanStart m2 s rev) (scanLength m2 s)
        HRESULT.S_OK { mgr := m3, info := info } = some r := by
  unfold GenerateSamples.afterSeek at h
  rw [Option.bind_eq_some] at h
  obtain ⟨b, _, h⟩ := h
  rw [Option.bind_eq_some] at h
  obtain ⟨m3, hm3, h⟩ := h
  have e3 : m3 = { m2 with m_pDecoder := m3.m_pDecoder } := by
    cases hd : m2.m_pDecoder with
    | none =>
      simp only [hd, Option.some.injEq] at hm3
      rw [← hm3]
    | some d =>
      simp only [hd] at hm3
      rw [Option.map_eq_some'] at hm3
      obtain ⟨x, _, hx⟩ := hm3
      rw [← hx]
      split_ifs <;> rfl
  have eL : m3.m_cbDataLength = m2.m_cbDataLength := by rw [e3]
  have eO : m3.m_cbDataOffset = m2.m_cbDataOffset := by rw [e3]
  refine ⟨b, m3, e3, ?_⟩
  unfold scanStart scanLength
  rw [← eL, ← eO]
  by_cases hrv : rev = true
  · rw [if_pos hrv] at h ⊢
    exact h
  · rw [if_neg hrv] at h ⊢
    exact h

/-- When the decoder session is not streaming and its start fails, the part
of `GenerateSamples` that follows the seek runs the chunk loop on the session
without decoder session. -/
theorem afterSeek_start_fails (m2 : CASFManager) (hrSeek : HRESULT) (s : Nat) (t : Int)
    (rev : Bool) (info : SAMPLE_INFO) (env : ScanEnv) (d : CDecoder) (s0 : HRESULT × CDecoder)
    (hd : m2.m_pDecoder = some d) (hns : d.GetDecoderStatus ≠ STREAMING)
    (hstart : d.StartDecoding = some s0) (hfail : FAILED s0.1 = true) :
    GenerateSamples.afterSeek m2 hrSeek s t rev info env =
      (if m2.m_guidCurrentMediaType = GUID.MFMediaType_Audio then m2.GetTestDuration t rev
        else some 0).bind fun b =>
        CASFManager.GenerateSamplesLoop t b rev env.chunks (scanStart m2 s rev)
          (scanLength m2 s) HRESULT.S_OK
          { mgr := { m2 with m_pDecoder := none }, info := info } := by
  unfold GenerateSamples.afterSeek
  have hne : (d.GetDecoderStatus != STREAMING) = true := by simpa using hns
  simp only [hd, hne, if_true, hstart, Option.map_some', hfail, Option.some_bind]
  unfold scanStart scanLength
  congr 1
  funext b
  by_cases hrv : rev = true
  · rw [if_pos hrv, if_pos hrv]
  · rw [if_neg hrv, if_neg hrv]

/-- Without decoder session `SendKeyFrameToDecoder`, where it returns, leaves
the scan state as it is. -/
theorem SendKeyFrameToDecoder_of_none (st : ScanState) (s : IMFSample) (t : Int) (rev : Bool)
    (x : HRESULT × ScanState) (hd : st.mgr.m_pDecoder = none)
    (h : CASFManager.SendKeyFrameToDecoder st s t rev = some x) : x.2 = st := by
  unfold CASFManager.SendKeyFrameToDecoder at h
  by_cases hf : FAILED s.hrGetSampleTime = true
  · rw [if_pos hf] at h
    simp only [Option.some.injEq] at h
    rw [← h]
  · rw [if_neg hf] at h
    cases hfi : st.mgr.m_fileinfo with
    | none => simp [hfi] at h
    | some fi =>
      simp only [hfi, hd] at h
      split_ifs at h <;> (simp only [Option.some.injEq] at h; rw [← h])

/-- A scan on a session without decoder session leaves the session as it is,
hands no record to the display callback and marks no completion. -/
theorem loop_without_decoder (seek test : Int) (rev : Bool) (chunks : List ChunkResp)
    (off len : Nat) (hr : HRESULT) (st : ScanState) (r : HRESULT × ScanState)
    (hd : st.mgr.m_pDecoder = none)
    (h : CASFManager.GenerateSamplesLoop seek test rev chunks off len hr st = some r) :
    r.2.mgr = st.mgr ∧ r.2.sink = st.sink ∧ r.2.fComplete = st.fComplete := by
  refine loop_invariant
    (fun a => a.mgr = st.mgr ∧ a.sink = st.sink ∧ a.fComplete = st.fComplete) seek test rev
    (fun a _ ha => ha) chunks ?_ off len hr st r ⟨rfl, rfl, rfl⟩ h
  intro c _ a e ha hdr
  refine drain_invariant
    (fun a => a.mgr = st.mgr ∧ a.sink = st.sink ∧ a.fComplete = st.fComplete)
    (fun _ => True) seek test rev (fun a _ ha => ha) ?_ ?_ c.samples (fun _ _ _ _ => trivial)
    a e ha hdr
  · intro a1 s x _ ha1 _ hx
    unfold CASFManager.SendAudioSampleToDecoder at hx
    have : a1.mgr.m_pDecoder = none := by rw [ha1.1]; exact hd
    simp [this] at hx
  · intro a1 s x _ ha1 _ hx
    have hnone : a1.mgr.m_pDecoder = none := by rw [ha1.1]; exact hd
    rw [SendKeyFrameToDecoder_of_none a1 s seek rev x hnone hx]
    exact ha1

/-- A sample held by an answer of a chunk is one of the samples of the scan. -/
theorem mem_scanSamples (chunks : List ChunkResp) (c : ChunkResp) (n : NextSample)
    (s : IMFSample) (hc : c ∈ chunks) (hn : n ∈ c.samples) (hs : n.pSample = some s) :
    s ∈ scanSamples chunks := by
  unfold scanSamples
  rw [List.mem_flatMap]
  exact ⟨c, hc, List.mem_filterMap.2 ⟨n, hn, hs⟩⟩

/-- The arguments of the scan are 32-bit values. -/
theorem scanStart_lt (m : CASFManager) (s : Nat) (rev : Bool) : scanStart m s rev < 2 ^ 32 := by
  unfold scanStart wrap32
  split_ifs <;> omega

/-- The length of the scan is a 32-bit value. -/
theorem scanLength_lt (m : CASFManager) (s : Nat) : scanLength m s < 2 ^ 32 := by
  unfold scanLength wrap32
  omega

/-- An audio resolution that succeeds has found the file properties. -/
theorem GetSeekPosition_audio_fileinfo (m : CASFManager) (t : Int) (c : Nat) (a : Int)
    (g : HRESULT × CASFManager × Nat × Int)
    (haudio : m.m_guidCurrentMediaType = GUID.MFMediaType_Audio)
    (hg : m.GetSeekPosition t c a = some g) (hok : FAILED g.1 = false) :
    ∃ fi, m.m_fileinfo = some fi := by
  rw [GetSeekPosition_manual m t c a (Or.inl haudio), Option.map_eq_some'] at hg
  obtain ⟨x, hx, hxg⟩ := hg
  unfold CASFManager.GetSeekPositionManually at hx
  cases hsp : m.m_pSplitter with
  | none => simp [hsp] at hx
  | some sp =>
    simp only [hsp] at hx
    by_cases hf : FAILED sp.hrGetFlags = true
    · rw [if_pos hf] at hx
      simp only [Option.some.injEq] at hx
      rw [← hxg, ← hx] at hok
      simp [hf] at hok
    · rw [if_neg hf] at hx
      cases hfi : m.m_fileinfo with
      | none => simp [hfi] at hx
      | some fi => exact ⟨fi, rfl⟩

/-- `GetTestDuration` returns whenever the file properties exist. -/
theorem GetTestDuration_defined (m : CASFManager) (fi : FILE_PROPERTIES_OBJECT) (t : Int)
    (rev : Bool) (hfi : m.m_fileinfo = some fi) : ∃ b, m.GetTestDuration t rev = some b := by
  unfold CASFManager.GetTestDuration
  simp only [hfi]
  split_ifs <;> exact ⟨_, rfl⟩

/-! ## The chunk loop runs while the decoder session has answers left -/

/-- A class of scan states graded by the number of samples the routing
methods can still take is kept when fewer remain to be taken. -/
theorem graded_mono (I : Nat → ScanState → Prop)
    (hmono : ∀ (k : Nat) (a : ScanState), I (k + 1) a → I k a) :
    ∀ (j k : Nat) (a : ScanState), I (k + j) a → I k a := by
  intro j
  induction j with
  | zero => intro k a h; exact h
  | succ j ih => intro k a h; exact ih k a (hmono (k + j) a h)

/-- The draining loop returns, without failure, when the answers of
`GetNextSample` succeed up to one that announces no further sample and the
routing methods return on each sample delivered: `I k` is a class of scan
states on which they return for `k` further samples. -/
theorem drain_runs_graded (I : Nat → ScanState → Prop) (S : IMFSample → Prop)
    (seek test : Int) (rev : Bool)
    (hmono : ∀ (k : Nat) (a : ScanState), I (k + 1) a → I k a)
    (hinfo : ∀ (k : Nat) (st : ScanState) (ws : Nat), I k st →
      I k { st with info := { st.info with wStreamNumber := ws } })
    (haudio : ∀ (k : Nat) (st : ScanState) (s : IMFSample), S s → I (k + 1) st →
      st.mgr.m_pDecoder.isSome = true →
      st.mgr.m_guidCurrentMediaType = GUID.MFMediaType_Audio →
      ∃ x, CASFManager.SendAudioSampleToDecoder st s test rev = some x ∧ I k x.2)
    (hvideo : ∀ (k : Nat) (st : ScanState) (s : IMFSample), S s → I (k + 1) st →
      st.mgr.m_pDecoder.isSome = true →
      st.mgr.m_guidCurrentMediaType = GUID.MFMediaType_Video →
      ∃ x, CASFManager.SendKeyFrameToDecoder st s seek rev = some x ∧ I k x.2)
    (samples : List NextSample) :
    drainAborts samples = false → (∀ n ∈ samples, ∀ s, n.pSample = some s → S s) →
    ∀ (k : Nat) (st : ScanState),
      I (k + (samples.filterMap fun n => n.pSample).length) st →
      ∃ e : DrainExit, GenerateSamplesLoop.drain seek test rev samples st = some e ∧
        e.abort = false ∧ FAILED e.hr = false ∧ I k e.st := by
  induction samples with
  | nil => intro h; simp [drainAborts] at h
  | cons r rest ih =>
    intro hda hS k st hI
    unfold drainAborts at hda
    by_cases hf : FAILED r.hr = true
    · rw [if_pos hf] at hda
      simp at hda
    · rw [if_neg hf] at hda
      have hf1 : FAILED r.hr = false := by simpa using hf
      have hnext : ∀ a : ScanState,
          I (k + (rest.filterMap fun n => n.pSample).length) a → ∃ e : DrainExit,
          (if (r.dwStatusFlags &&& ASF_STATUSFLAGS_INCOMPLETE != 0) = true then
            GenerateSamplesLoop.drain seek test rev rest a
          else some { hr := r.hr, abort := false, st := a }) = some e ∧
          e.abort = false ∧ FAILED e.hr = false ∧ I k e.st := by
        intro a ha
        by_cases hfl : (r.dwStatusFlags &&& ASF_STATUSFLAGS_INCOMPLETE != 0) = true
        · rw [if_pos hfl] at hda ⊢
          exact ih hda (fun n hn s hs => hS n (List.mem_cons_of_mem _ hn) s hs) k a ha
        · rw [if_neg hfl]
          exact ⟨_, rfl, rfl, hf1, graded_mono I hmono _ k a ha⟩
      rw [GenerateSamplesLoop.drain, if_neg hf]
      cases hs : r.pSample with
      | none =>
        have hcount : ((r :: rest).filterMap fun n => n.pSample).length =
            (rest.filterMap fun n => n.pSample).length := by
          rw [List.filterMap_cons, hs]
        rw [hcount] at hI
        exact hnext st hI
      | some pSample =>
        have hcount : ((r :: rest).filterMap fun n => n.pSample).length =
            (rest.filterMap fun n => n.pSample).length + 1 := by
          rw [List.filterMap_cons, hs]
          rfl
        rw [hcount, ← Nat.add_assoc] at hI
        have hSs := hS r (List.mem_cons_self _ _) pSample hs
        have h1 := hinfo _ st r.wStreamNumber hI
        have h1m := hmono _ _ h1
        by_cases hd : st.mgr.m_pDecoder.isSome = true
        · simp only [hd, if_true]
          have hroute : ∃ a : ScanState,
              (if st.mgr.m_guidCurrentMediaType = GUID.MFMediaType_Audio then
                (CASFManager.SendAudioSampleToDecoder
                  { st with info := { st.info with wStreamNumber := r.wStreamNumber } }
                  pSample test rev).map fun x => x.2
              else if st.mgr.m_guidCurrentMediaType = GUID.MFMediaType_Video then
                (CASFManager.SendKeyFrameToDecoder
                  { st with info := { st.info with wStreamNumber := r.wStreamNumber } }
                  pSample seek rev).map fun x => x.2
              else some { st with info := { st.info with wStreamNumber := r.wStreamNumber } }) =
                some a ∧ I (k + (rest.filterMap fun n => n.pSample).length) a := by
            by_cases hA : st.mgr.m_guidCurrentMediaType = GUID.MFMediaType_Audio
            · obtain ⟨x, hx, hIx⟩ := haudio _ _ pSample hSs h1 hd hA
              exact ⟨x.2, by rw [if_pos hA, hx]; rfl, hIx⟩
            · by_cases hV : st.mgr.m_guidCurrentMediaType = GUID.MFMediaType_Video
              · obtain ⟨x, hx, hIx⟩ := hvideo _ _ pSample hSs h1 hd hV
                exact ⟨x.2, by rw [if_neg hA, if_pos hV, hx]; rfl, hIx⟩
              · exact ⟨_, by rw [if_neg hA, if_neg hV], h1m⟩
          obtain ⟨a, ha, hIa⟩ := hroute
          rw [ha]
          simp only [Option.some_bind]
          by_cases hc : a.fComplete = true
          · rw [if_pos hc]
            exact ⟨_, rfl, rfl, hf1, graded_mono I hmono _ k a hIa⟩
          · rw [if_neg hc]
            exact hnext a hIa
        · simp only [hd, if_false]
          exact hnext _ h1m

/-- The chunk loop returns, without failure, when it finds a chunk of
successful answers for each of its `ceil(len / 4096)` iterations, the byte
stream exists, and the routing methods return on each sample delivered. -/
theorem loop_runs_graded (I : Nat → ScanState → Prop) (S : IMFSample → Prop)
    (seek test : Int) (rev : Bool)
    (hstream : ∀ (k : Nat) (st : ScanState), I k st → ∃ bs, st.mgr.m_pByteStream = some bs)
    (hmono : ∀ (k : Nat) (a : ScanState), I (k + 1) a → I k a)
    (hreads : ∀ (k : Nat) (st : ScanState) (rd : Nat × Nat), I k st →
      I k { st with reads := st.reads ++ [rd] })
    (hinfo : ∀ (k : Nat) (st : ScanState) (ws : Nat), I k st →
      I k { st with info := { st.info with wStreamNumber := ws } })
    (haudio : ∀ (k : Nat) (st : ScanState) (s : IMFSample), S s → I (k + 1) st →
      st.mgr.m_pDecoder.isSome = true →
      st.mgr.m_guidCurrentMediaType = GUID.MFMediaType_Audio →
      ∃ x, CASFManager.SendAudioSampleToDecoder st s test rev = some x ∧ I k x.2)
    (hvideo : ∀ (k : Nat) (st : ScanState) (s : IMFSample), S s → I (k + 1) st →
      st.mgr.m_pDecoder.isSome = true →
      st.mgr.m_guidCurrentMediaType = GUID.MFMediaType_Video →
      ∃ x, CASFManager.SendKeyFrameToDecoder st s seek rev = some x ∧ I k x.2)
    (chunks : List ChunkResp) :
    (∀ c ∈ chunks, c.succeeds = true) →
    (∀ c ∈ chunks, ∀ n ∈ c.samples, ∀ s, n.pSample = some s → S s) →
    ∀ (k off len : Nat) (hr : HRESULT) (st : ScanState),
      len < 2 ^ 32 → specReadCount len ≤ chunks.length →
      I (k + (scanSamples chunks).length) st → FAILED hr = false →
      ∃ r, CASFManager.GenerateSamplesLoop seek test rev chunks off len hr st = some r ∧
        FAILED r.1 = false ∧ I k r.2 := by
  induction chunks with
  | nil =>
    intro _ _ k off len hr st _ hcount hI hok
    have hz : len = 0 := by
      unfold specReadCount at hcount
      simp only [List.length_nil] at hcount
      omega
    subst hz
    unfold CASFManager.GenerateSamplesLoop
    exact ⟨(hr, st), by simp, hok, graded_mono I hmono _ k st hI⟩
  | cons c rest ih =>
    intro hsucc hS k off len hr st hlen hcount hI hok
    rw [CASFManager.GenerateSamplesLoop]
    by_cases hgo : (!st.fComplete) = true ∧ len > 0
    · rw [if_pos hgo]
      obtain ⟨bs, hbs⟩ := hstream _ st hI
      have hc := hsucc c (List.mem_cons_self _ _)
      unfold ChunkResp.succeeds at hc
      simp only [Bool.and_eq_true, Bool.not_eq_true'] at hc
      obtain ⟨⟨hread, hparse⟩, hdrain⟩ := hc
      obtain ⟨hrd, hrdok⟩ := ReadDataIntoBuffer_succeeds bs c.read hread
      rw [hbs, hrd]
      simp only [Option.some_bind, if_true, hrdok, hparse, Bool.false_eq_true, if_false]
      have hlen2 : (scanSamples (c :: rest)).length =
          (scanSamples rest).length + (c.samples.filterMap fun n => n.pSample).length := by
        unfold scanSamples
        rw [List.flatMap_cons, List.length_append, Nat.add_comm]
      rw [hlen2, ← Nat.add_assoc] at hI
      obtain ⟨e, he, hab, heok, hIe⟩ := drain_runs_graded I S seek test rev hmono hinfo haudio
        hvideo c.samples hdrain (hS c (List.mem_cons_self _ _)) (k + (scanSamples rest).length)
        { st with reads := st.reads ++
            [(if rev = true then wrap32 ((off : Int) - (min (1024 * 4) len : Nat)) else off,
              min (1024 * 4) len)] } (hreads _ st _ hI)
      rw [he]
      simp only [Option.some_bind, hab, Bool.false_eq_true, if_false]
      have hw : ∀ x : Int, wrap32 x < 2 ^ 32 := by
        intro x
        unfold wrap32
        omega
      apply ih (fun c1 hc1 => hsucc c1 (List.mem_cons_of_mem _ hc1))
        (fun c1 hc1 => hS c1 (List.mem_cons_of_mem _ hc1)) k _ _ _ _ (hw _) _ hIe heok
      have hl1 : wrap32 ((len : Int) - (min (1024 * 4) len : Nat)) =
          len - min (1024 * 4) len := by
        unfold wrap32
        omega
      rw [hl1]
      simp only [List.length_cons] at hcount
      unfold specReadCount at hcount ⊢
      omega
    · rw [if_neg hgo]
      exact ⟨(hr, st), rfl, hok, graded_mono I hmono _ k st hI⟩

/-- An audio sample with a timestamp that has not crossed the boundary is
decoded: when the start of the decoder session, where it is due, and
`ProcessAudio` return successes, `SendAudioSampleToDecoder` returns with the
record of the sample handed to the display callback and completion not
marked. -/
theorem SendAudioSampleToDecoder_decodes (st : ScanState) (s : IMFSample) (test : Int)
    (rev : Bool) (d : CDecoder) (b p : HRESULT × CDecoder)
    (hd : st.mgr.m_pDecoder = some d) (hts : FAILED s.hrGetSampleTime = false)
    (hw : withinBoundary rev test s.hnsSampleTime)
    (hb : (if d.GetDecoderStatus != STREAMING then d.StartDecoding
      else some (s.hrGetSampleTime, d)) = some b)
    (hbok : FAILED b.1 = false) (hp : b.2.ProcessAudio (some s) = some p)
    (hpok : FAILED p.1 = false) :
    CASFManager.SendAudioSampleToDecoder st s test rev =
      some (p.1,
        { st with
          mgr := { st.mgr with m_pDecoder := some p.2 },
          info := (GetSampleInfo s st.info).2,
          sink := st.sink ++ [(GetSampleInfo s st.info).2],
          fComplete := false }) := by
  have hdec : (if rev = true then decide (s.hnsSampleTime > test)
      else decide (s.hnsSampleTime < test)) = true := by
    unfold withinBoundary at hw
    by_cases hr : rev = true
    · rw [if_pos hr] at hw ⊢
      exact decide_eq_true hw
    · rw [if_neg hr] at hw ⊢
      exact decide_eq_true hw
  unfold CASFManager.SendAudioSampleToDecoder
  simp only [hd, hts, Bool.false_eq_true, if_false, hdec, if_true, hb, Option.some_bind, hbok,
    hp, hpok, Bool.not_true]

/-- One answer of `GetNextSample` that delivers an audio sample and announces
no further one: the draining loop routes the sample to the audio method and
ends with the state that method leaves. -/
theorem drain_audio_last (seek test : Int) (rev : Bool) (n : NextSample)
    (rest : List NextSample) (st : ScanState) (s : IMFSample) (x : HRESULT × ScanState)
    (hn : FAILED n.hr = false)
    (hflag : (n.dwStatusFlags &&& ASF_STATUSFLAGS_INCOMPLETE != 0) = false)
    (hs : n.pSample = some s) (hdec : st.mgr.m_pDecoder.isSome = true)
    (haud : st.mgr.m_guidCurrentMediaType = GUID.MFMediaType_Audio)
    (hx : CASFManager.SendAudioSampleToDecoder
      { st with info := { st.info with wStreamNumber := n.wStreamNumber } } s test rev =
        some x) :
    GenerateSamplesLoop.drain seek test rev (n :: rest) st =
      some { hr := n.hr, abort := false, st := x.2 } := by
  rw [GenerateSamplesLoop.drain]
  simp only [hn, Bool.false_eq_true, if_false, hs, hdec, if_true, haud, hx, Option.map_some',
    Option.some_bind, hflag, ite_self]

/-- One iteration of the chunk loop whose read, `ParseData` and draining loop
succeed: the loop goes on with the next chunk, behind the bytes read. -/
theorem loop_step (seek test : Int) (rev : Bool) (c : ChunkResp) (rest : List ChunkResp)
    (off len : Nat) (hr : HRESULT) (st : ScanState) (rd : HRESULT × Bool) (e : DrainExit)
    (hc : st.fComplete = false) (hl : 0 < len)
    (hrd : ReadDataIntoBuffer st.mgr.m_pByteStream c.read = some rd)
    (hrdok : FAILED rd.1 = false) (hp : FAILED c.hrParseData = false)
    (hdrain : GenerateSamplesLoop.drain seek test rev c.samples
      (if rd.2 then
        { st with reads := st.reads ++
          [(if rev then wrap32 ((off : Int) - min (1024 * 4) len) else off, min (1024 * 4) len)] }
      else st) = some e)
    (hab : e.abort = false) :
    CASFManager.GenerateSamplesLoop seek test rev (c :: rest) off len hr st =
      CASFManager.GenerateSamplesLoop seek test rev rest
        (if rev then wrap32 ((off : Int) - min (1024 * 4) len)
          else wrap32 ((off : Int) + min (1024 * 4) len))
        (wrap32 ((len : Int) - min (1024 * 4) len)) e.hr e.st := by
  rw [CASFManager.GenerateSamplesLoop.eq_def]
  simp only [hc] at hdrain
  simp only [hc, Bool.not_false, true_and, gt_iff_lt, hl, decide_True, if_true, hrd,
    Option.some_bind, hrdok, Bool.false_eq_true, if_false, hp, hdrain, hab]
/-- The forward audio scan of 5000 bytes from offset 1000 on `audioSession`
over `twoAudioChunks`, step by step: two reads, both samples decoded into the
test clip and handed to the display callback, completion not marked. -/
theorem audioSession_two_chunks_run :
    (CASFManager.GenerateSamplesLoop 0 50000000 false twoAudioChunks 1000 5000
        HRESULT.S_OK { mgr := audioSession }).map
      (fun (r : HRESULT × ScanState) => (r.1, r.2.reads, r.2.fComplete,
        r.2.sink.map (fun i => i.hnsSampleTime), r.2.mgr.m_pDecoder.map CDecoder.testClip)) =
      some (HRESULT.S_OK, [(1000, 4096), (5096, 904)], false, [10, 20], some [3, 5]) := by
  have hw : ∀ t : Int, t < 50000000 → withinBoundary false 50000000 t := by
    intro t ht
    unfold withinBoundary
    simpa using ht
  have s1 := SendAudioSampleToDecoder_decodes
    { mgr := audioSession, info := { wStreamNumber := 1 }, reads := [(1000, 4096)] }
    { hnsSampleTime := 10 } 50000000 false audioDecoder
    (HRESULT.S_OK,
      { audioDecoder with
        m_pMFT := some { messages := [HRESULT.S_OK],
                         process := [{ drain := [{ payload := 3 },
                             { hrProcessOutput := HRESULT.MF_E_TRANSFORM_NEED_MORE_INPUT }] },
                           { drain := [{ payload := 5 },
                             { hrProcessOutput := HRESULT.MF_E_TRANSFORM_NEED_MORE_INPUT }] }] },
        m_DecoderState := STREAMING })
    (HRESULT.S_OK, audioDecoderAfterOne) rfl rfl (hw 10 (by norm_num)) rfl rfl rfl rfl
  have d1 := drain_audio_last 0 50000000 false
    { wStreamNumber := 1, pSample := some { hnsSampleTime := 10 } } []
    { mgr := audioSession, reads := [(1000, 4096)] } { hnsSampleTime := 10 } _
    rfl rfl rfl rfl rfl s1
  have l1 := loop_step 0 50000000 false
    { samples := [{ wStreamNumber := 1, pSample := some { hnsSampleTime := 10 } }] }
    [{ samples := [{ wStreamNumber := 1, pSample := some { hnsSampleTime := 20 } }] }]
    1000 5000 HRESULT.S_OK { mgr := audioSession } (HRESULT.S_OK, true) _ rfl (by norm_num)
    rfl rfl rfl d1 rfl
  have s2 := SendAudioSampleToDecoder_decodes
    { mgr := { audioSession with m_pDecoder := some audioDecoderAfterOne },
      info := { (GetSampleInfo { hnsSampleTime := 10 } { wStreamNumber := 1 }).2 with
        wStreamNumber := 1 },
      sink := [(GetSampleInfo { hnsSampleTime := 10 } { wStreamNumber := 1 }).2],
      reads := [(1000, 4096), (5096, 904)] }
    { hnsSampleTime := 20 } 50000000 false audioDecoderAfterOne
    (HRESULT.S_OK, audioDecoderAfterOne) (HRESULT.S_OK, audioDecoderAfterTwo) rfl rfl
    (hw 20 (by norm_num)) rfl rfl rfl rfl
  have d2 := drain_audio_last 0 50000000 false
    { wStreamNumber := 1, pSample := some { hnsSampleTime := 20 } } []
    { mgr := { audioSession with m_pDecoder := some audioDecoderAfterOne },
      info := (GetSampleInfo { hnsSampleTime := 10 } { wStreamNumber := 1 }).2,
      sink := [(GetSampleInfo { hnsSampleTime := 10 } { wStreamNumber := 1 }).2],
      reads := [(1000, 4096), (5096, 904)] } { hnsSampleTime := 20 } _
    rfl rfl rfl rfl rfl s2
  have l2 := loop_step 0 50000000 false
    { samples := [{ wStreamNumber := 1, pSample := some { hnsSampleTime := 20 } }] } []
    5096 904 HRESULT.S_OK
    { mgr := { audioSession with m_pDecoder := some audioDecoderAfterOne },
      info := (GetSampleInfo { hnsSampleTime := 10 } { wStreamNumber := 1 }).2,
      sink := [(GetSampleInfo { hnsSampleTime := 10 } { wStreamNumber := 1 }).2],
      reads := [(1000, 4096)] } (HRESULT.S_OK, true) _ rfl (by norm_num)
    rfl rfl rfl d2 rfl
  have l12 := l1.trans l2
  have h0 : wrap32 (((904 : Nat) : Int) - ((min (1024 * 4) 904 : Nat) : Int)) = 0 := by decide
  have l3 : ∀ (off : Nat) (st : ScanState),
      CASFManager.GenerateSamplesLoop 0 50000000 false [] off 0 HRESULT.S_OK st =
        some (HRESULT.S_OK, st) := by
    intro off st
    unfold CASFManager.GenerateSamplesLoop
    simp
  rw [h0, l3] at l12
  unfold twoAudioChunks
  rw [l12]
  rfl
/-! ## The claims -/

/-- C1 counterexample: duration 10, 90 packets of average size 2000, time 7,
forward.  The specification's formula gives `2000 * floor(90 * 7/10) = 126000`;
the binary64 computation of the source gives `90 * 0.7 = 62.99999999999999`,
hence 62 packets and the offset 124000. -/
theorem C1_counterexample_one_packet_off :
    (seekSession fileTenths 0).GetSeekPositionManually 7 0 = some (HRESULT.S_OK, 124000) ∧
      specByteOffset fileTenths false 7 = 126000 := by
  constructor
  · rw [seekSession_fwd_eval fileTenths 7 0 7 10 (3152519739159347 / 4503599627370496)
      (8866461766385663 / 140737488355328) (by decide)
      (by simpa using fl_natCast 7 (by norm_num))
      (by simpa [fileTenths] using fl_natCast 10 (by norm_num))
      (fl_eval_rat (-1) 6305039478318694 _ (by norm_num) (by norm_num) (by norm_num)
        (by rw [abs_lt]; constructor <;> norm_num) (by norm_num))
      (by
        simp only [fileTenths]
        exact fl_eval_rat 5 8866461766385663 _ (by norm_num) (by norm_num) (by norm_num)
          (by rw [abs_lt]; constructor <;> norm_num) (by norm_num))]
    rw [toInt32_of_nonneg (by norm_num) (by norm_num)]
    norm_num [averagepacketsize, wrap32, wrap64, fileTenths]
    rfl
  · norm_num [specByteOffset, specPacketIndex, fileTenths]

/-- C1 (amended): for every file with a positive duration, a packet count
below `2^31` and `max + min` packet size below `2^32`, and every time inside
the presentation, `GetSeekPositionManually` succeeds and returns
`((max + min) / 2) * k` where the packet index `k` differs by at most one from
the specification's `floor(packetCount * fraction)`; at the specification's
example (duration 100, 1000 packets of average size 2000, time 25) it returns
exactly 500000 forward and 1500000 in reverse. -/
theorem C1_interpolated_offset_within_one_packet :
    (∀ (m : CASFManager) (fi : FILE_PROPERTIES_OBJECT) (sp : IMFASFSplitter) (t : Int) (c : Nat),
      m.m_fileinfo = some fi → m.m_pSplitter = some sp → FAILED sp.hrGetFlags = false →
      0 < fi.hnsPresentationDuration → 0 ≤ t → t ≤ fi.hnsPresentationDuration →
      fi.cPackets < 2 ^ 31 → fi.cbMaxPacketSize + fi.cbMinPacketSize < 2 ^ 32 →
      ∃ k : ℕ,
        m.GetSeekPositionManually t c =
            some (HRESULT.S_OK, (fi.cbMaxPacketSize + fi.cbMinPacketSize) / 2 * k) ∧
          |(k : ℤ) - specPacketIndex fi (sp.dwFlags &&& MFASF_SPLITTER_REVERSE != 0) t| ≤ 1) ∧
    (seekSession fileQuarter 0).GetSeekPositionManually 25 0 = some (HRESULT.S_OK, 500000) ∧
    (seekSession fileQuarter 1).GetSeekPositionManually 25 0 = some (HRESULT.S_OK, 1500000) := by
  refine ⟨?_, ?_, ?_⟩
  · intro m fi sp t c hfi hsp hfl hd h0 h1 hp havg
    refine ⟨⌊fl ((fi.cPackets : ℚ) *
      seekFraction fi (sp.dwFlags &&& MFASF_SPLITTER_REVERSE != 0) t)⌋.toNat, ?_, ?_⟩
    · rw [← averagepacketsize_eq fi havg]
      exact GetSeekPositionManually_defined m fi sp t c hfi hsp hfl hd h0 h1 hp
    · obtain ⟨a, _, e⟩ := seekProduct_bounds fi (sp.dwFlags &&& MFASF_SPLITTER_REVERSE != 0) t
        hd h0 h1 (lt_trans hp (by norm_num))
      have hlt := six_packets_lt fi.cPackets hp
      rw [Int.toNat_of_nonneg (Int.floor_nonneg.2 a)]
      exact floor_near (by linarith)
  · rw [GetSeekPositionManually_of_packets (seekSession fileQuarter 0) fileQuarter
      { dwFlags := 0 } 25 0 false 250 rfl rfl rfl (by decide) seekedPackets_quarter_fwd]
    decide
  · rw [GetSeekPositionManually_of_packets (seekSession fileQuarter 1) fileQuarter
      { dwFlags := 1 } 25 0 true 750 rfl rfl rfl (by decide) seekedPackets_quarter_rev]
    decide

/-- C1 witness: the general part of the theorem at the counterexample's file
(duration 10, 90 packets, time 7, forward). -/
theorem C1_witness_tenths :
    ((0 : Int) ≤ 7 ∧ (7 : Int) ≤ fileTenths.hnsPresentationDuration ∧
      fileTenths.cPackets < 2 ^ 31) ∧
    ∃ k : ℕ,
      (seekSession fileTenths 0).GetSeekPositionManually 7 0 =
          some (HRESULT.S_OK, (fileTenths.cbMaxPacketSize + fileTenths.cbMinPacketSize) / 2 * k) ∧
        |(k : ℤ) - specPacketIndex fileTenths
          ((({ dwFlags := 0 } : IMFASFSplitter).dwFlags &&& MFASF_SPLITTER_REVERSE) != 0) 7| ≤ 1 :=
  ⟨⟨by norm_num, by decide, by decide⟩,
    C1_interpolated_offset_within_one_packet.1 (seekSession fileTenths 0) fileTenths
      { dwFlags := 0 } 7 0 rfl rfl rfl (by decide) (by norm_num) (by decide) (by decide)
      (by decide)⟩

/-- C2: interpolated resolution is monotone in the seek time.  For every file
with a positive duration and times `t1 ≤ t2` inside the presentation: when the
packet count fits the `int` packet index (below `2^31`) both resolutions
return an offset, and whenever both return an offset (for any packet count)
the offsets are ordered, non-decreasing forward and non-increasing in reverse. -/
theorem C2_interpolated_offset_monotone (m : CASFManager) (fi : FILE_PROPERTIES_OBJECT)
    (sp : IMFASFSplitter) (t1 t2 : Int) (c : Nat) (hfi : m.m_fileinfo = some fi)
    (hsp : m.m_pSplitter = some sp) (hfl : FAILED sp.hrGetFlags = false)
    (hd : 0 < fi.hnsPresentationDuration) (h0 : 0 ≤ t1) (h12 : t1 ≤ t2)
    (h2 : t2 ≤ fi.hnsPresentationDuration) :
    (fi.cPackets < 2 ^ 31 →
      ∃ o1 o2 : Nat, m.GetSeekPositionManually t1 c = some (HRESULT.S_OK, o1) ∧
        m.GetSeekPositionManually t2 c = some (HRESULT.S_OK, o2)) ∧
    (∀ o1 o2 : Nat, m.GetSeekPositionManually t1 c = some (HRESULT.S_OK, o1) →
      m.GetSeekPositionManually t2 c = some (HRESULT.S_OK, o2) →
      (sp.dwFlags &&& MFASF_SPLITTER_REVERSE = 0 → o1 ≤ o2) ∧
        (sp.dwFlags &&& MFASF_SPLITTER_REVERSE ≠ 0 → o2 ≤ o1)) := by
  have h1 : t1 ≤ fi.hnsPresentationDuration := le_trans h12 h2
  have h02 : 0 ≤ t2 := le_trans h0 h12
  constructor
  · intro hp
    exact ⟨_, _, GetSeekPositionManually_defined m fi sp t1 c hfi hsp hfl hd h0 h1 hp,
      GetSeekPositionManually_defined m fi sp t2 c hfi hsp hfl hd h02 h2 hp⟩
  · intro o1 o2 e1 e2
    obtain ⟨_, r1⟩ := GetSeekPositionManually_some m fi sp t1 c hfi hsp hfl hd h0 h1 e1
    obtain ⟨_, r2⟩ := GetSeekPositionManually_some m fi sp t2 c hfi hsp hfl hd h02 h2 e2
    have hA : averagepacketsize fi < 2 ^ 32 := lt_trans (averagepacketsize_lt fi) (by norm_num)
    have hnn : ∀ (rev : Bool) (t : Int), 0 ≤ t → t ≤ fi.hnsPresentationDuration →
        0 ≤ ⌊fl ((fi.cPackets : ℚ) * seekFraction fi rev t)⌋ := by
      intro rev t ht0 ht1
      obtain ⟨a, _, _⟩ := seekFraction_bounds fi rev t hd ht0 ht1
      exact Int.floor_nonneg.2 (fl_nonneg (mul_nonneg (by positivity) a))
    have key : ∀ (x y : Int), 0 ≤ x → x ≤ y →
        (if x < 2 ^ 31 then averagepacketsize fi * x.toNat
          else wrap64 ((averagepacketsize fi : Int) * -(2 : Int) ^ 31)) ≤
        (if y < 2 ^ 31 then averagepacketsize fi * y.toNat
          else wrap64 ((averagepacketsize fi : Int) * -(2 : Int) ^ 31)) := by
      intro x y hx hxy
      by_cases cy : y < 2 ^ 31
      · have cx : x < 2 ^ 31 := lt_of_le_of_lt hxy cy
        rw [if_pos cx, if_pos cy]
        exact Nat.mul_le_mul_left _ (Int.toNat_le_toNat hxy)
      · rw [if_neg cy]
        by_cases cx : x < 2 ^ 31
        · rw [if_pos cx]
          exact offset_le_of_large _ _ hA hx cx
        · rw [if_neg cx]
    rw [r1, r2]
    constructor
    · intro hf
      have hb : (sp.dwFlags &&& MFASF_SPLITTER_REVERSE != 0) = false := by simp [hf]
      rw [hb]
      exact key _ _ (hnn false t1 h0 h1)
        (Int.floor_le_floor (seekProduct_mono_fwd fi t1 t2 hd h0 h12))
    · intro hr
      have hb : (sp.dwFlags &&& MFASF_SPLITTER_REVERSE != 0) = true := by simp [hr]
      rw [hb]
      exact key _ _ (hnn true t2 h02 h2)
        (Int.floor_le_floor (seekProduct_anti_rev fi t1 t2 hd h0 h12 h2))

/-- C2 witness: the theorem at the spec's example file, forward, times 25 and 50. -/
theorem C2_witness_quarter :
    ((0 : Int) ≤ 25 ∧ (25 : Int) ≤ 50 ∧ (50 : Int) ≤ fileQuarter.hnsPresentationDuration) ∧
    ((fileQuarter.cPackets < 2 ^ 31 →
      ∃ o1 o2 : Nat,
        (seekSession fileQuarter 0).GetSeekPositionManually 25 0 = some (HRESULT.S_OK, o1) ∧
        (seekSession fileQuarter 0).GetSeekPositionManually 50 0 = some (HRESULT.S_OK, o2)) ∧
    (∀ o1 o2 : Nat,
      (seekSession fileQuarter 0).GetSeekPositionManually 25 0 = some (HRESULT.S_OK, o1) →
      (seekSession fileQuarter 0).GetSeekPositionManually 50 0 = some (HRESULT.S_OK, o2) →
      (({ dwFlags := 0 } : IMFASFSplitter).dwFlags &&& MFASF_SPLITTER_REVERSE = 0 → o1 ≤ o2) ∧
        (({ dwFlags := 0 } : IMFASFSplitter).dwFlags &&& MFASF_SPLITTER_REVERSE ≠ 0 → o2 ≤ o1))) :=
  ⟨⟨by norm_num, by norm_num, by decide⟩,
    C2_interpolated_offset_monotone (seekSession fileQuarter 0) fileQuarter { dwFlags := 0 }
      25 50 0 rfl rfl rfl (by decide) (by norm_num) (by norm_num) (by decide)⟩

/-- C3 counterexample: for a file of 215 packets whose duration is
55066912986023250 units, at time 768375530037533 the forward resolution
returns 2 packets and the reverse one 211; their sum, 213 packets, is neither
`packetCount` nor `packetCount - 1` packets. -/
theorem C3_counterexample_sum_two_short :
    (seekSession fileLong 0).GetSeekPositionManually 768375530037533 0 =
        some (HRESULT.S_OK, 4000) ∧
      (seekSession fileLong 1).GetSeekPositionManually 768375530037533 0 =
        some (HRESULT.S_OK, 422000) ∧
      averagepacketsize fileLong = 2000 ∧
      4000 + 422000 ≠ 2000 * fileLong.cPackets ∧
      4000 + 422000 ≠ 2000 * (fileLong.cPackets - 1) := by
  have hT : fl ((768375530037533 : Int) : ℚ) = 768375530037533 := by
    simpa using fl_natCast 768375530037533 (by norm_num)
  have hD : fl (fileLong.hnsPresentationDuration : ℚ) = 55066912986023248 := by
    simp only [fileLong]
    exact fl_eval_rat 55 6883364123252906 _ (by norm_num) (by norm_num) (by norm_num)
      (by rw [abs_lt]; constructor <;> norm_num) (by norm_num)
  refine ⟨?_, ?_, ?_, ?_, ?_⟩
  · rw [seekSession_fwd_eval fileLong 768375530037533 0 768375530037533 55066912986023248
      (8043638404233809 / 576460752303423488) (3377699720527869 / 1125899906842624)
      (by decide) hT hD
      (fl_eval_rat (-7) 8043638404233809 _ (by norm_num) (by norm_num) (by norm_num)
        (by rw [abs_lt]; constructor <;> norm_num) (by norm_num))
      (by
        simp only [fileLong]
        exact fl_eval_rat 1 6755399441055738 _ (by norm_num) (by norm_num) (by norm_num)
          (by rw [abs_lt]; constructor <;> norm_num) (by norm_num))]
    rw [toInt32_of_nonneg (by norm_num) (by norm_num)]
    norm_num [averagepacketsize, wrap32, wrap64, fileLong]
    rfl
  · rw [seekSession_rev_eval fileLong 768375530037533 0 768375530037533 55066912986023248
      54298537455985712 (4440758702337419 / 4503599627370496)
      (7459086882832383 / 35184372088832) (by decide) hT hD
      (fl_eval_rat 55 6787317181998214 _ (by norm_num) (by norm_num) (by norm_num)
        (by rw [abs_lt]; constructor <;> norm_num) (by norm_num))
      (fl_eval_rat (-1) 8881517404674838 _ (by norm_num) (by norm_num) (by norm_num)
        (by rw [abs_lt]; constructor <;> norm_num) (by norm_num))
      (by
        simp only [fileLong]
        exact fl_eval_rat 7 7459086882832383 _ (by norm_num) (by norm_num) (by norm_num)
          (by rw [abs_lt]; constructor <;> norm_num) (by norm_num))]
    rw [toInt32_of_nonneg (by norm_num) (by norm_num)]
    norm_num [averagepacketsize, wrap32, wrap64, fileLong]
    rfl
  · decide
  · decide
  · decide

/-- C3 (amended): for every file with a positive duration and a packet count
below `2^31`, and every time inside the presentation, the forward offset plus
the reverse offset at the same time falls short of
`averagepacketsize * packetCount` by zero, one or two average packet sizes. -/
theorem C3_forward_reverse_sum (m : CASFManager) (fi : FILE_PROPERTIES_OBJECT)
    (spF spR : IMFASFSplitter) (t : Int) (c : Nat) (hfi : m.m_fileinfo = some fi)
    (hF : spF.dwFlags &&& MFASF_SPLITTER_REVERSE = 0)
    (hR : spR.dwFlags &&& MFASF_SPLITTER_REVERSE ≠ 0)
    (hflF : FAILED spF.hrGetFlags = false) (hflR : FAILED spR.hrGetFlags = false)
    (hd : 0 < fi.hnsPresentationDuration) (h0 : 0 ≤ t) (h1 : t ≤ fi.hnsPresentationDuration)
    (hp : fi.cPackets < 2 ^ 31) :
    ∃ oF oR j : Nat,
      ({ m with m_pSplitter := some spF }).GetSeekPositionManually t c =
          some (HRESULT.S_OK, oF) ∧
        ({ m with m_pSplitter := some spR }).GetSeekPositionManually t c =
          some (HRESULT.S_OK, oR) ∧
        j ≤ 2 ∧ oF + oR + averagepacketsize fi * j = averagepacketsize fi * fi.cPackets := by
  have eF := GetSeekPositionManually_defined ({ m with m_pSplitter := some spF }) fi spF t c
    hfi rfl hflF hd h0 h1 hp
  have eR := GetSeekPositionManually_defined ({ m with m_pSplitter := some spR }) fi spR t c
    hfi rfl hflR hd h0 h1 hp
  have bF : (spF.dwFlags &&& MFASF_SPLITTER_REVERSE != 0) = false := by simp [hF]
  have bR : (spR.dwFlags &&& MFASF_SPLITTER_REVERSE != 0) = true := by simp [hR]
  rw [bF] at eF
  rw [bR] at eR
  obtain ⟨a0, _, ae⟩ := seekProduct_bounds fi false t hd h0 h1 (lt_trans hp (by norm_num))
  obtain ⟨b0, _, be⟩ := seekProduct_bounds fi true t hd h0 h1 (lt_trans hp (by norm_num))
  simp only [Bool.false_eq_true, if_false] at ae
  simp only [if_true] at be
  have hlt := six_packets_lt fi.cPackets hp
  have hdq : (0 : ℚ) < (fi.hnsPresentationDuration : ℚ) := by exact_mod_cast hd
  have hsum : (fi.cPackets : ℚ) * ((t : ℚ) / fi.hnsPresentationDuration) +
      (fi.cPackets : ℚ) * (((fi.hnsPresentationDuration : ℚ) - t) / fi.hnsPresentationDuration) =
      fi.cPackets := by
    field_simp
    ring
  set X := fl ((fi.cPackets : ℚ) * seekFraction fi false t)
  set Y := fl ((fi.cPackets : ℚ) * seekFraction fi true t)
  rw [abs_le] at ae be
  have hXl := Int.floor_le X
  have hXu := Int.lt_floor_add_one X
  have hYl := Int.floor_le Y
  have hYu := Int.lt_floor_add_one Y
  have hx0 : 0 ≤ ⌊X⌋ := Int.floor_nonneg.2 a0
  have hy0 : 0 ≤ ⌊Y⌋ := Int.floor_nonneg.2 b0
  have up : ((⌊X⌋ + ⌊Y⌋ : ℤ) : ℚ) < ((fi.cPackets + 1 : ℤ) : ℚ) := by
    push_cast; linarith [ae.1, ae.2, be.1, be.2]
  have lo : ((fi.cPackets - 3 : ℤ) : ℚ) < ((⌊X⌋ + ⌊Y⌋ : ℤ) : ℚ) := by
    push_cast; linarith [ae.1, ae.2, be.1, be.2]
  have up2 : ⌊X⌋ + ⌊Y⌋ < fi.cPackets + 1 := by exact_mod_cast up
  have lo2 : (fi.cPackets : ℤ) - 3 < ⌊X⌋ + ⌊Y⌋ := by exact_mod_cast lo
  refine ⟨_, _, ((fi.cPackets : ℤ) - (⌊X⌋ + ⌊Y⌋)).toNat, eF, eR, by omega, ?_⟩
  rw [← Nat.mul_add, ← Nat.mul_add]
  congr 1
  omega

/-- C3 witness: the theorem at the spec's example file and time 25. -/
theorem C3_witness_quarter :
    ((0 : Int) ≤ 25 ∧ (25 : Int) ≤ fileQuarter.hnsPresentationDuration ∧
      fileQuarter.cPackets < 2 ^ 31) ∧
    ∃ oF oR j : Nat,
      ({ seekSession fileQuarter 0 with
          m_pSplitter := some { dwFlags := 0 } }).GetSeekPositionManually 25 0 =
          some (HRESULT.S_OK, oF) ∧
        ({ seekSession fileQuarter 0 with
          m_pSplitter := some { dwFlags := 1 } }).GetSeekPositionManually 25 0 =
          some (HRESULT.S_OK, oR) ∧
        j ≤ 2 ∧
        oF + oR + averagepacketsize fileQuarter * j =
          averagepacketsize fileQuarter * fileQuarter.cPackets :=
  ⟨⟨by norm_num, by decide, by decide⟩,
    C3_forward_reverse_sum (seekSession fileQuarter 0) fileQuarter { dwFlags := 0 }
      { dwFlags := 1 } 25 0 rfl (by decide) (by decide) rfl rfl (by decide) (by norm_num)
      (by decide) (by decide)⟩

/-- C4 counterexample: with 2147483648 (`2^31`) packets of average size 2000
the forward resolution at `time = duration` converts 2147483648.0 to `int`,
which no `int` holds: the packet index is `INT_MIN`, and the call returns
`S_OK` with the offset `2^64 - 2000 * 2^31 = 18446739778742255616`, not
`averagepacketsize * packetCount = 4294967296000`. -/
theorem C4_counterexample_packet_count_overflow :
    (seekSession fileManyPackets 0).GetSeekPositionManually 100 0 =
        some (HRESULT.S_OK, 18446739778742255616) ∧
      averagepacketsize fileManyPackets * fileManyPackets.cPackets = 4294967296000 ∧
      fileManyPackets.cPackets < 2 ^ 32 ∧
      (100 : Int) = fileManyPackets.hnsPresentationDuration := by
  refine ⟨?_, by decide, by decide, by decide⟩
  rw [seekSession_fwd_eval fileManyPackets 100 0 100 100 1 2147483648 (by decide)
    (by simpa using fl_natCast 100 (by norm_num))
    (by simpa [fileManyPackets] using fl_natCast 100 (by norm_num))
    (by
      have : (100 : ℚ) / 100 = 1 := by norm_num
      rw [this]; exact fl_one)
    (by
      simp only [fileManyPackets]
      simpa using fl_natCast 2147483648 (by norm_num))]
  rw [toInt32_of_large (by norm_num) (by norm_num)]
  decide

/-- C4 (amended): for every file with a positive duration, forward
interpolated resolution returns offset 0 at time 0 (for every packet count),
and at `time = duration` it returns `averagepacketsize * packetCount` whenever
the packet count is below `2^31`, the average being the 32-bit
`(max + min) / 2` of the source. -/
theorem C4_interpolated_endpoints (m : CASFManager) (fi : FILE_PROPERTIES_OBJECT)
    (sp : IMFASFSplitter) (c : Nat) (hfi : m.m_fileinfo = some fi)
    (hsp : m.m_pSplitter = some sp) (hfl : FAILED sp.hrGetFlags = false)
    (hfwd : sp.dwFlags &&& MFASF_SPLITTER_REVERSE = 0)
    (hd : 0 < fi.hnsPresentationDuration) :
    m.GetSeekPositionManually 0 c = some (HRESULT.S_OK, 0) ∧
      (fi.cPackets < 2 ^ 31 →
        m.GetSeekPositionManually (fi.hnsPresentationDuration : Int) c =
          some (HRESULT.S_OK, averagepacketsize fi * fi.cPackets)) := by
  have hb : (sp.dwFlags &&& MFASF_SPLITTER_REVERSE != 0) = false := by simp [hfwd]
  have hdq : (0 : ℚ) < (fi.hnsPresentationDuration : ℚ) := by exact_mod_cast hd
  have hD := fl_pos hdq
  constructor
  · exact GetSeekPositionManually_zero m fi sp c hfi hsp hfl hfwd hd
  · intro hp
    rw [GetSeekPositionManually_eq m fi sp _ c hfi hsp hfl, hb]
    have hX : fl ((fi.cPackets : ℚ) * seekFraction fi false (fi.hnsPresentationDuration : Int)) =
        fi.cPackets := by
      simp only [seekFraction, Bool.false_eq_true, if_false, Int.cast_natCast]
      rw [div_self hD.ne.symm, fl_one, mul_one]
      exact fl_natCast _ (lt_trans hp (by norm_num))
    unfold seekedPackets
    rw [if_neg (by omega), hX]
    have hfloor : ⌊(fi.cPackets : ℚ)⌋ = (fi.cPackets : ℤ) := Int.floor_natCast _
    rw [toInt32_of_nonneg (by positivity) (by rw [hfloor]; exact_mod_cast hp), hfloor]
    simp only [Option.map_some']
    rw [wrap64_mul _ _ (averagepacketsize_lt fi) (by positivity) (by exact_mod_cast hp)]
    simp

/-- C4 witness: the theorem at the spec's example file. -/
theorem C4_witness_quarter :
    (0 < fileQuarter.hnsPresentationDuration) ∧
    ((seekSession fileQuarter 0).GetSeekPositionManually 0 0 = some (HRESULT.S_OK, 0) ∧
      (fileQuarter.cPackets < 2 ^ 31 →
        (seekSession fileQuarter 0).GetSeekPositionManually
            (fileQuarter.hnsPresentationDuration : Int) 0 =
          some (HRESULT.S_OK, averagepacketsize fileQuarter * fileQuarter.cPackets))) :=
  ⟨by decide,
    C4_interpolated_endpoints (seekSession fileQuarter 0) fileQuarter { dwFlags := 0 } 0
      rfl rfl rfl (by decide) (by decide)⟩

/-- C5 counterexample: on an opened session without index object and without
selected stream the resolver succeeds with the interpolated offset 500000; with
an index object present it fails, but with `E_FAIL`, not `MF_E_NOT_INITIALIZED`. -/
theorem C5_counterexample_no_stream_selected :
    openedSession.m_guidCurrentMediaType = GUID.GUID_NULL ∧
      (openedSession.GetSeekPosition 25 0 0).map (fun (r : HRESULT × CASFManager × Nat × Int) => (r.1, r.2.2.1)) =
        some (HRESULT.S_OK, 500000) ∧
      (({ openedSession with m_pIndexer := some plainIndex }).GetSeekPosition 25 0 0).map
          (fun (r : HRESULT × CASFManager × Nat × Int) => r.1) = some HRESULT.E_FAIL ∧
      HRESULT.E_FAIL ≠ HRESULT.MF_E_NOT_INITIALIZED := by
  refine ⟨rfl, ?_, by decide, by decide⟩
  rw [GetSeekPosition_manual _ _ _ _ (Or.inr rfl),
    GetSeekPositionManually_of_packets openedSession fileQuarter {} 25 0 false 250 rfl rfl rfl
      (by decide) seekedPackets_quarter_fwd]
  decide

/-- C5 (amended): on a session in which no stream has been selected (the
current media type is still the null type), `GetSeekPosition` fails with
`E_FAIL`, leaving the offset untouched, when an index object is present, and
performs interpolated resolution (returning what `GetSeekPositionManually`
returns) when no index object is present. -/
theorem C5_seek_without_selected_stream (m : CASFManager) (t : Int) (c : Nat) (a : Int)
    (hnull : m.m_guidCurrentMediaType = GUID.GUID_NULL) :
    (∀ ix, m.m_pIndexer = some ix → m.GetSeekPosition t c a = some (HRESULT.E_FAIL, m, c, a)) ∧
      (m.m_pIndexer = none →
        m.GetSeekPosition t c a =
          (m.GetSeekPositionManually t c).map fun r => (r.1, m, r.2, a)) := by
  constructor
  · intro ix hix
    simp [CASFManager.GetSeekPosition, hnull, hix]
  · intro hix
    exact GetSeekPosition_manual m t c a (Or.inr hix)

/-- C5 witness: the theorem at an opened session without selected stream. -/
theorem C5_witness_opened_session :
    openedSession.m_guidCurrentMediaType = GUID.GUID_NULL ∧
    ((∀ ix, openedSession.m_pIndexer = some ix →
        openedSession.GetSeekPosition 25 0 0 = some (HRESULT.E_FAIL, openedSession, 0, 0)) ∧
      (openedSession.m_pIndexer = none →
        openedSession.GetSeekPosition 25 0 0 =
          (openedSession.GetSeekPositionManually 25 0).map
            fun r => (r.1, openedSession, r.2, 0))) :=
  ⟨rfl, C5_seek_without_selected_stream openedSession 25 0 0 rfl⟩

/-- C6 counterexample: on an opened session on which no stream was selected,
`GenerateSamples` scans the data region and returns `S_OK` when no index
object exists, and fails with `E_FAIL` (not `MF_E_NOT_INITIALIZED`) when one
exists; the callback is not invoked. -/
theorem C6_counterexample_opened_session :
    openedSession.m_guidCurrentMediaType = GUID.GUID_NULL ∧
      (openedSession.GenerateSamples 0 0 {} oneChunk).map
          (fun (r : HRESULT × ScanState) => (r.1, r.2.sink, r.2.reads)) = some (HRESULT.S_OK, [], [(1000, 4096)]) ∧
      (({ openedSession with m_pIndexer := some plainIndex }).GenerateSamples 0 0 {} oneChunk).map
          (fun (r : HRESULT × ScanState) => (r.1, r.2.sink, r.2.reads)) = some (HRESULT.E_FAIL, [], []) := by
  refine ⟨rfl, ?_, by decide⟩
  have h := GetSeekPositionManually_zero
    { openedSession with m_pSplitter := some { dwFlags := 0 } } fileQuarter { dwFlags := 0 } 0
    rfl rfl rfl (by decide) (by decide)
  rw [GenerateSamples_of_seek openedSession {} 0 0 {} oneChunk
    (HRESULT.S_OK, { openedSession with m_pSplitter := some { dwFlags := 0 } }, 0, 0)
    rfl rfl rfl (by rw [GetSeekPosition_manual _ _ _ _ (Or.inr rfl), h]; rfl)]
  decide

/-- C6 (amended): on a session on which no stream is selected (null current
media type), `GenerateSamples` fails with `MF_E_NOT_INITIALIZED`, touching
nothing, when the session is unopened (no demultiplexer); and in every case,
opened or not, whatever it returns, the display callback is invoked zero times. -/
theorem C6_extract_without_selected_stream (m : CASFManager) (t : Int) (flags : Nat)
    (info : SAMPLE_INFO) (env : ScanEnv) (hnull : m.m_guidCurrentMediaType = GUID.GUID_NULL) :
    (m.m_pSplitter = none →
      m.GenerateSamples t flags info env =
        some (HRESULT.MF_E_NOT_INITIALIZED,
          { mgr := m, info := info, sink := [], reads := [], fComplete := false })) ∧
      (∀ r, m.GenerateSamples t flags info env = some r → r.2.sink = []) := by
  constructor
  · intro hsp
    simp [CASFManager.GenerateSamples, hsp]
  · intro r h
    unfold CASFManager.GenerateSamples at h
    cases hsp : m.m_pSplitter with
    | none =>
      simp only [hsp, Option.some.injEq] at h
      subst h; rfl
    | some sp =>
      simp only [hsp] at h
      split_ifs at h <;>
        first
          | (simp only [Option.some.injEq] at h; subst h; rfl)
          | (rw [Option.bind_eq_some] at h
             obtain ⟨g, hg, h⟩ := h
             have hgn : g.2.1.m_guidCurrentMediaType = GUID.GUID_NULL := by
               rw [GetSeekPosition_of_null _ t 0 0 g (by exact hnull) hg]; exact hnull
             split_ifs at h
             · simp only [Option.some.injEq] at h
               subst h; rfl
             · exact afterSeek_sink_of_null _ _ _ _ _ _ _ r hgn h)

/-- C6 witness: the theorem at a freshly constructed, unopened session. -/
theorem C6_witness_new_session :
    CASFManager.new.m_guidCurrentMediaType = GUID.GUID_NULL ∧
    ((CASFManager.new.m_pSplitter = none →
      CASFManager.new.GenerateSamples 0 0 {} oneChunk =
        some (HRESULT.MF_E_NOT_INITIALIZED,
          { mgr := CASFManager.new, info := {}, sink := [], reads := [], fComplete := false })) ∧
      (∀ r, CASFManager.new.GenerateSamples 0 0 {} oneChunk = some r → r.2.sink = [])) :=
  ⟨rfl, C6_extract_without_selected_stream CASFManager.new 0 0 {} oneChunk rfl⟩

/-- C7 (code evaluated at the failing input): a video session whose index
answers the request for time 100 with offset 0 and approximate time 50, and a
key frame at time 60.  `GenerateSamples` compares the key frame with the
requested 100 and emits nothing; the same scan run against the approximate
time 50 emits the key frame. -/
theorem C7_scan_uses_requested_time :
    (indexedVideoSession.GetSeekPosition 100 0 0).map
        (fun (g : HRESULT × CASFManager × Nat × Int) => (g.1, g.2.2.1, g.2.2.2)) =
        some (HRESULT.S_OK, 0, 50) ∧
      (indexedVideoSession.GenerateSamples 100 0 {} keyFrameAt60).map
        (fun (r : HRESULT × ScanState) => (r.1, r.2.sink, r.2.fComplete)) =
        some (HRESULT.S_OK, [], false) ∧
      (GenerateSamples.afterSeek indexedVideoSession HRESULT.S_OK 0 50 false {} keyFrameAt60).map
        (fun (r : HRESULT × ScanState) => (r.1, r.2.sink, r.2.fComplete)) =
        some (HRESULT.S_OK,
          [{ fSeekedKeyFrame := 1, wStreamNumber := 0, cBufferCount := 0, hnsSampleTime := 60,
             cbTotalLength := 0 }], true) := by
  decide

/-- C8 (code evaluated at the failing input): a transform that offers no
output type at all.  `ConfigureDecoder` reports `E_FAIL`, yet `Initialize`
returns `S_OK`, with the transform unloaded.  In general the only failure
`Initialize` ever returns is `E_INVALIDARG`: every other failure is replaced
by the result of `UnLoad`. -/
theorem C8_initialize_reports_success :
    (loadedWithoutTypes.ConfigureDecoder (some compressedVideoType) {}).map
        (fun (r : HRESULT × CDecoder) => r.1) =
        some HRESULT.E_FAIL ∧
      (CDecoder.new.Initialize (GUID.other 9) (some compressedVideoType)
        { transform := some transformWithoutTypes }).map
        (fun (r : HRESULT × CDecoder) => (r.1, r.2.m_pMFT)) = some (HRESULT.S_OK, none) ∧
      (∀ (d : CDecoder) (clsid : GUID) (ty : Option IMFMediaType) (env : InitEnv)
        (r : HRESULT × CDecoder),
        d.Initialize clsid ty env = some r → FAILED r.1 = true → r.1 = HRESULT.E_INVALIDARG) :=
  ⟨by decide, by decide, Initialize_failure⟩

/-- C9 (code evaluated at the failing input): the transform yields one output
buffer and then reports needs-more-input.  `ProcessVideo` returns `S_OK`, and
the media controller holds no bitmap: `CreateBitmapForKeyFrame` was not called.
In general no call of `ProcessVideo` changes the media controller. -/
theorem C9_process_video_builds_no_bitmap :
    (decoderOneOutput.ProcessVideo (some {})).map
        (fun (r : HRESULT × CDecoder) => (r.1, r.2.m_pMediaController)) =
      some (HRESULT.S_OK,
        some { m_pAudioTestSample := none, m_pBitmap := none, m_Width := 0, m_Height := 0,
               m_hWaveOut := false, m_fHasTestMedia := false }) ∧
      (∀ (d : CDecoder) (pSample : Option IMFSample) (r : HRESULT × CDecoder),
        d.ProcessVideo pSample = some r → r.2.m_pMediaController = d.m_pMediaController) :=
  ⟨by decide, ProcessVideo_controller⟩

/-- C10 (code evaluated at the failing input): the first `ProcessOutput`
fails with `E_FAIL`, the second reports needs-more-input.  `ProcessVideo`
keeps draining after the error and returns `S_OK`; `ProcessAudio` on the same
responses stops with `E_FAIL`. -/
theorem C10_process_video_ignores_output_error :
    (decoderOutputError.ProcessVideo (some {})).map (fun (r : HRESULT × CDecoder) => r.1) =
        some HRESULT.S_OK ∧
      (decoderOutputError.ProcessAudio (some {})).map (fun (r : HRESULT × CDecoder) => r.1) =
        some HRESULT.E_FAIL := by
  decide

/-- C12 (code evaluated at the failing input): on a session whose profile
declares zero streams `EnumerateStreams` returns `S_OK` with empty arrays and
count 0, because the guard tests `&cStreams == 0`.  For a profile in which
every `GetStream` and `GetStreamType` succeeds it returns the stream numbers
and major types in profile order, with the count equal to the number of
streams, as at the session with an audio stream 1 and a video stream 2. -/
theorem C12_enumerate_zero_streams_succeeds :
    sessionWithoutStreams.EnumerateStreams 7 {} =
        some { hr := HRESULT.S_OK, pwStreamNumbers := some [], pguidMajorType := some [],
               cTotalStreams := 0 } ∧
      sessionTwoStreams.EnumerateStreams 7 {} =
        some { hr := HRESULT.S_OK, pwStreamNumbers := some [1, 2],
               pguidMajorType := some [GUID.MFMediaType_Audio, GUID.MFMediaType_Video],
               cTotalStreams := 2 } ∧
      (∀ (m : CASFManager) (ci : IMFASFContentInfo) (c : Nat),
        m.m_pContentInfo = some ci → FAILED ci.hrGetProfile = false →
        FAILED ci.profile.hrGetStreamCount = false →
        (∀ s ∈ ci.profile.streams,
          FAILED s.hrGetStream = false ∧ FAILED s.hrGetStreamType = false) →
        ∃ hr, FAILED hr = false ∧
          m.EnumerateStreams c {} =
            some { hr := hr,
                   pwStreamNumbers := some (ci.profile.streams.map fun s => s.wStreamNumber),
                   pguidMajorType := some (ci.profile.streams.map fun s => s.guidStreamType),
                   cTotalStreams := ci.profile.streams.length }) := by
  refine ⟨by decide, by decide, ?_⟩
  intro m ci c hci hp hc hall
  have h := EnumerateStreams_loop_ok ci.profile.streams ci.profile.hrGetStreamCount [] [] hc hall
  refine ⟨(EnumerateStreams.loop ci.profile.streams ci.profile.hrGetStreamCount [] []).1, h.1, ?_⟩
  unfold CASFManager.EnumerateStreams
  simp only [hci, hp, hc, h.1, h.2, addressOfStreamCountIsNull, Bool.false_eq_true, if_false,
    List.nil_append]
  rfl

/-- C13 counterexample: a fresh session opens a file and selects its audio
stream 1, both with success.  After `Reset` followed by `Reset` the session
still holds stream number 1 and the audio media type, where a freshly
constructed session holds 0 and the null type. -/
theorem C13_counterexample_selection_survives_reset :
    ((CASFManager.new.OpenASFFile fileWithAudioStream).bind fun o =>
        (o.2.SelectStream 1 GUID.GUID_NULL audioDecoderEnv).map
          fun (r : HRESULT × CASFManager × GUID) =>
            (o.1, r.1, r.2.1.Reset.Reset.m_CurrentStreamID,
              r.2.1.Reset.Reset.m_guidCurrentMediaType)) =
        some (HRESULT.S_OK, HRESULT.S_OK, 1, GUID.MFMediaType_Audio) ∧
      CASFManager.new.m_CurrentStreamID = 0 ∧
      CASFManager.new.m_guidCurrentMediaType = GUID.GUID_NULL := by
  decide

/-- C13 (amended): for every session state, `Reset` followed by `Reset` (a
`void` method, which cannot fail) leaves the state of a freshly constructed
session except for the selected stream number and media type, which keep their
values; hence it leaves the fresh state exactly when no stream number and no
media type were recorded. -/
theorem C13_reset_twice_keeps_selection (m : CASFManager) :
    m.Reset.Reset =
        { CASFManager.new with
          m_CurrentStreamID := m.m_CurrentStreamID,
          m_guidCurrentMediaType := m.m_guidCurrentMediaType } ∧
      (m.Reset.Reset = CASFManager.new ↔
        m.m_CurrentStreamID = 0 ∧ m.m_guidCurrentMediaType = GUID.GUID_NULL) := by
  have h : m.Reset.Reset =
      { CASFManager.new with
        m_CurrentStreamID := m.m_CurrentStreamID,
        m_guidCurrentMediaType := m.m_guidCurrentMediaType } := rfl
  refine ⟨h, ?_⟩
  constructor
  · intro e
    have e1 := congrArg CASFManager.m_CurrentStreamID e
    have e2 := congrArg CASFManager.m_guidCurrentMediaType e
    exact ⟨e1, e2⟩
  · rintro ⟨e1, e2⟩
    rw [h, e1, e2]
    rfl

/-- C14: `Reset` is idempotent on every session state, and after `Reset` the
decoder, demultiplexer, index, content information, byte stream, data buffer
and file properties references are absent and the data region offset and
length are 0.  The decoder's own `Reset`, which it calls first, is idempotent
as well and leaves no transform and no media controller. -/
theorem C14_reset_idempotent :
    (∀ m : CASFManager,
      m.Reset.Reset = m.Reset ∧
        m.Reset.m_pDecoder = none ∧ m.Reset.m_pSplitter = none ∧ m.Reset.m_pIndexer = none ∧
        m.Reset.m_pContentInfo = none ∧ m.Reset.m_pByteStream = none ∧
        m.Reset.m_pDataBuffer = none ∧ m.Reset.m_fileinfo = none ∧
        m.Reset.m_cbDataOffset = 0 ∧ m.Reset.m_cbDataLength = 0) ∧
      (CASFManager.new.Reset.m_pDecoder = none ∧ CASFManager.new.Reset.m_cbDataLength = 0) ∧
      (∀ d : CDecoder,
        d.Reset.Reset = d.Reset ∧ d.Reset.m_pMFT = none ∧ d.Reset.m_pMediaController = none) :=
  ⟨fun _ => ⟨rfl, rfl, rfl, rfl, rfl, rfl, rfl, rfl, rfl, rfl⟩, ⟨rfl, rfl⟩,
    fun _ => ⟨rfl, rfl, rfl⟩⟩

/-- C15 counterexample: a reverse audio extraction from the end of a 10 s file.
The boundary is 50,000,000.  The demultiplexer delivers a sample stamped
70,000,000 whose `GetBufferCount` fails: it is decoded, `GetSampleInfo` leaves
the record as it was, and the callback receives a record with timestamp 0,
which lies before the boundary. -/
theorem C15_counterexample_stale_timestamp :
    audioSession.GetTestDuration 100000000 (scanReverse {} 1) = some 50000000 ∧
      (audioSession.GenerateSamples 100000000 1 {} sampleWithoutBufferCount).map
          (fun (r : HRESULT × ScanState) => (r.1, r.2.sink)) =
        some (HRESULT.S_OK,
          [{ fSeekedKeyFrame := 0, wStreamNumber := 0, cBufferCount := 0, hnsSampleTime := 0,
             cbTotalLength := 0 }]) :=
  audioSession_reverse_eval

/-- C15 (amended): in an audio extraction, with `b` the boundary computed by
`GetTestDuration` for the requested time and the scan direction, every record
handed to the callback carries a timestamp that has not reached `b` (below it
forward, above it in reverse) or the timestamp the caller's record held before
the call; and when `GetBufferCount` and `GetTotalLength` succeed on every
sample of the environment, every record carries a timestamp that has not
reached `b`, in whatever order the samples come. -/
theorem C15_audio_records_within_boundary (m : CASFManager) (sp : IMFASFSplitter) (t : Int)
    (flags : Nat) (info : SAMPLE_INFO) (env : ScanEnv) (r : HRESULT × ScanState) (b : Int)
    (haudio : m.m_guidCurrentMediaType = GUID.MFMediaType_Audio)
    (hsp : m.m_pSplitter = some sp)
    (hb : m.GetTestDuration t (scanReverse sp flags) = some b)
    (h : m.GenerateSamples t flags info env = some r) :
    (∀ rec ∈ r.2.sink,
        withinBoundary (scanReverse sp flags) b rec.hnsSampleTime ∨
          rec.hnsSampleTime = info.hnsSampleTime) ∧
      ((∀ s ∈ scanSamples env.chunks,
          FAILED s.hrGetBufferCount = false ∧ FAILED s.hrGetTotalLength = false) →
        ∀ rec ∈ r.2.sink, withinBoundary (scanReverse sp flags) b rec.hnsSampleTime) := by
  rcases GenerateSamples_audio_scan m sp t flags info env r haudio hsp h with
    h0 | ⟨m3, b1, off, len, h3, hb1, hloop⟩
  · rw [h0]
    exact ⟨fun _ hrec => absurd hrec (List.not_mem_nil _),
      fun _ _ hrec => absurd hrec (List.not_mem_nil _)⟩
  · have hbb : b1 = b := by
      rw [hb] at hb1
      exact (Option.some.inj hb1).symm
    rw [hbb] at hloop
    constructor
    · exact loop_audio_records t b _ info.hnsSampleTime env.chunks off len HRESULT.S_OK
        { mgr := m3, info := info } r h3 (Or.inr rfl)
        (fun _ hrec => absurd hrec (List.not_mem_nil _)) hloop
    · intro hS
      exact loop_audio_records_strict t b _ env.chunks off len HRESULT.S_OK
        { mgr := m3, info := info } r h3
        (fun _ hrec => absurd hrec (List.not_mem_nil _)) hS hloop

/-- C15 witness: the theorem at the reverse extraction from the end of the
10 s file, which returns. -/
theorem C15_witness_reverse_extraction :
    ∃ r : HRESULT × ScanState,
      audioSession.GenerateSamples 100000000 1 {} sampleWithoutBufferCount = some r ∧
      ∀ rec ∈ r.2.sink,
        withinBoundary (scanReverse {} 1) 50000000 rec.hnsSampleTime ∨
          rec.hnsSampleTime = 0 :=
  match hx : audioSession.GenerateSamples 100000000 1 {} sampleWithoutBufferCount with
  | some r =>
    ⟨r, rfl,
      (C15_audio_records_within_boundary audioSession {} 100000000 1 {}
        sampleWithoutBufferCount r 50000000 rfl rfl audioSession_reverse_eval.1 hx).1⟩
  | none => absurd audioSession_reverse_eval.2 (by rw [hx]; simp)

/-- C17 counterexample: play duration 100,000,000, no preroll.  In reverse
from seek time 200,000,000 the code returns 150,000,000, beyond the upper end
100,000,000 of the interval; forward from seek time -100,000,000 it returns
-50,000,000, before 0.  The clamped values are 100,000,000 and 0. -/
theorem C17_counterexample_one_sided_clamp :
    (seekSession fileTenSeconds 0).GetTestDuration 200000000 true = some 150000000 ∧
      specBoundary fileTenSeconds 200000000 true = 100000000 ∧
      (seekSession fileTenSeconds 0).GetTestDuration (-100000000) false = some (-50000000) ∧
      specBoundary fileTenSeconds (-100000000) false = 0 := by
  decide

/-- C17 (amended): where the 64-bit arithmetic does not wrap, the boundary of
`GetTestDuration` is clamped on one side only: forward it is the smaller of
seek time + 50,000,000 and play duration - preroll, in reverse the larger of
seek time - 50,000,000 and 0.  It is the value clamped into
`[0, playDuration - preroll]` whenever the seek time is at least -50,000,000
and at most play duration - preroll + 50,000,000. -/
theorem C17_boundary_one_sided (m : CASFManager) (fi : FILE_PROPERTIES_OBJECT) (t : Int)
    (hfi : m.m_fileinfo = some fi)
    (hlo : -(2 : Int) ^ 63 ≤ t - TEST_AUDIO_DURATION)
    (hhi : t + TEST_AUDIO_DURATION < (2 : Int) ^ 63)
    (hpre : fi.hnspreroll ≤ fi.hnsPlayDuration)
    (hmax : (fi.hnsPlayDuration : Int) - fi.hnspreroll < (2 : Int) ^ 63) :
    m.GetTestDuration t false =
        some (min (t + TEST_AUDIO_DURATION) ((fi.hnsPlayDuration : Int) - fi.hnspreroll)) ∧
      m.GetTestDuration t true = some (max (t - TEST_AUDIO_DURATION) 0) ∧
      (-TEST_AUDIO_DURATION ≤ t →
        t ≤ (fi.hnsPlayDuration : Int) - fi.hnspreroll + TEST_AUDIO_DURATION →
        m.GetTestDuration t false = some (specBoundary fi t false) ∧
          m.GetTestDuration t true = some (specBoundary fi t true)) := by
  have hD : TEST_AUDIO_DURATION = 50000000 := rfl
  have hp : (fi.hnspreroll : Int) ≤ fi.hnsPlayDuration := by exact_mod_cast hpre
  have w1 : wrapI64 ((fi.hnsPlayDuration : Int) - fi.hnspreroll) =
      (fi.hnsPlayDuration : Int) - fi.hnspreroll := wrapI64_of_range _ (by omega) hmax
  have w2 : wrapI64 (t + TEST_AUDIO_DURATION) = t + TEST_AUDIO_DURATION :=
    wrapI64_of_range _ (by omega) hhi
  have w3 : wrapI64 (t - TEST_AUDIO_DURATION) = t - TEST_AUDIO_DURATION :=
    wrapI64_of_range _ hlo (by omega)
  have hf : m.GetTestDuration t false =
      some (min (t + TEST_AUDIO_DURATION) ((fi.hnsPlayDuration : Int) - fi.hnspreroll)) := by
    unfold CASFManager.GetTestDuration
    simp only [hfi, w1, w2, Bool.false_eq_true, if_false]
    split_ifs with h
    · rw [min_eq_right (by omega)]
    · rw [min_eq_left (by omega)]
  have hr : m.GetTestDuration t true = some (max (t - TEST_AUDIO_DURATION) 0) := by
    unfold CASFManager.GetTestDuration
    simp only [hfi, w3, if_true]
    split_ifs with h
    · rw [max_eq_right (by omega)]
    · rw [max_eq_left (by omega)]
  refine ⟨hf, hr, ?_⟩
  intro h0 h1
  rw [hf, hr]
  unfold specBoundary
  simp only [Bool.false_eq_true, if_false, if_true]
  rw [hD] at *
  constructor
  · congr 1
    omega
  · congr 1
    omega

/-- C17 witness: the theorem at the 10 s file and seek time 70,000,000, where
the forward boundary is the clamped 100,000,000 and the reverse one 20,000,000. -/
theorem C17_witness_ten_seconds :
    (seekSession fileTenSeconds 0).GetTestDuration 70000000 false = some 100000000 ∧
      (seekSession fileTenSeconds 0).GetTestDuration 70000000 true = some 20000000 :=
  have h := C17_boundary_one_sided (seekSession fileTenSeconds 0) fileTenSeconds 70000000 rfl
    (by decide) (by decide) (by decide) (by decide)
  ⟨h.1.trans (by decide), h.2.1.trans (by decide)⟩

/-- C18: `SelectStream` with stream number 0 returns `E_INVALIDARG` in every
session state and every environment, and hands back the session and the
caller's media type unchanged: no call on the demultiplexer or the decoder is
made and the selected stream number and media type keep their values. -/
theorem C18_select_stream_zero (m : CASFManager) (guid : GUID) (env : SelectEnv) :
    m.SelectStream 0 guid env = some (HRESULT.E_INVALIDARG, m, guid) := by
  simp [CASFManager.SelectStream]

/-- C19: on a selected video stream without index object, and on every audio
stream with or without one, the resolver returns what interpolated resolution
returns for the same time, leaving the session and the approximate time
untouched; it succeeds whenever the demultiplexer answers `GetFlags`, the
duration is positive, the time lies in `[0, duration]` and the packet count is
below `2^31`.  A session that opened a file whose index position is not
inside the file holds no index object. -/
theorem C19_resolver_falls_back (m : CASFManager) (t : Int) (c : Nat) (a : Int)
    (h : (m.m_guidCurrentMediaType = GUID.MFMediaType_Video ∧ m.m_pIndexer = none) ∨
      m.m_guidCurrentMediaType = GUID.MFMediaType_Audio) :
    m.GetSeekPosition t c a =
        (m.GetSeekPositionManually t c).map (fun r => (r.1, m, r.2, a)) ∧
      (∀ (fi : FILE_PROPERTIES_OBJECT) (sp : IMFASFSplitter),
        m.m_fileinfo = some fi → m.m_pSplitter = some sp → FAILED sp.hrGetFlags = false →
        0 < fi.hnsPresentationDuration → 0 ≤ t → t ≤ fi.hnsPresentationDuration →
        fi.cPackets < 2 ^ 31 →
        ∃ off, m.GetSeekPositionManually t c = some (HRESULT.S_OK, off) ∧
          m.GetSeekPosition t c a = some (HRESULT.S_OK, m, off, a)) ∧
      (∀ (m0 : CASFManager) (env : OpenEnv) (r : HRESULT × CASFManager),
        FAILED env.hrMFCreateFile = false → env.qwIndexOffset ≥ env.qwLength →
        m0.OpenASFFile env = some r → r.2.m_pIndexer = none) := by
  have e : m.GetSeekPosition t c a =
      (m.GetSeekPositionManually t c).map (fun r => (r.1, m, r.2, a)) :=
    GetSeekPosition_manual m t c a (h.elim (fun x => Or.inr x.2) Or.inl)
  refine ⟨e, ?_, fun m0 env r h1 h2 h3 => OpenASFFile_without_index m0 env r h1 h2 h3⟩
  intro fi sp hfi hsp hfl hd h0 h1 hp
  have hm := GetSeekPositionManually_defined m fi sp t c hfi hsp hfl hd h0 h1 hp
  exact ⟨_, hm, by rw [e, hm]; rfl⟩

/-- C19 witness: the theorem at an opened session without index object on
which video stream 1 is selected. -/
theorem C19_witness_video_without_index :
    ((videoSessionWithoutIndex.m_guidCurrentMediaType = GUID.MFMediaType_Video ∧
        videoSessionWithoutIndex.m_pIndexer = none) ∨
      videoSessionWithoutIndex.m_guidCurrentMediaType = GUID.MFMediaType_Audio) ∧
    videoSessionWithoutIndex.GetSeekPosition 25 0 0 =
      (videoSessionWithoutIndex.GetSeekPositionManually 25 0).map
        (fun r => (r.1, videoSessionWithoutIndex, r.2, 0)) :=
  ⟨Or.inl ⟨rfl, rfl⟩,
    (C19_resolver_falls_back videoSessionWithoutIndex 25 0 0 (Or.inl ⟨rfl, rfl⟩)).1⟩

/-- C20: `ProcessAudio` on a loaded decoder whose transform answers
`GetOutputStreamInfo`.  If the push fails, that error is returned and nothing
is pulled.  Otherwise, if the transform yields the outputs `outs` (each one
appended by the media controller) and the next iteration is `s`, the call
returns with exactly the payloads of `outs` appended in order to the test clip:
with `S_OK` when `s` reports needs-more-input, with the error of the pull when
it fails otherwise, and with the error of the append (creation of the clip,
conversion or `AddBuffer`) when that fails; what the script holds after `s` is
not pulled. -/
theorem C20_process_audio_drain (d : CDecoder) (mft : IMFTransform) (mc : CMediaController)
    (ps : ProcessScript) (rest : List ProcessScript) (x : IMFSample)
    (hmft : d.m_pMFT = some mft) (hmc : d.m_pMediaController = some mc)
    (hps : mft.process = ps :: rest) (hinfo : FAILED ps.hrGetOutputStreamInfo = false) :
    (FAILED ps.hrProcessInput = true →
        d.ProcessAudio (some x) =
          some (ps.hrProcessInput, { d with m_pMFT := some { mft with process := rest } })) ∧
      (FAILED ps.hrProcessInput = false →
        ∀ (outs : List DrainStep) (s : DrainStep) (tail : List DrainStep),
          ps.drain = outs ++ s :: tail → (∀ o ∈ outs, o.yieldsOutput) → s.buffersCreated →
          (s.hrProcessOutput = HRESULT.MF_E_TRANSFORM_NEED_MORE_INPUT →
            d.audioReturns x HRESULT.S_OK (d.testClip ++ outs.map fun o => o.payload)) ∧
          (s.hrProcessOutput ≠ HRESULT.MF_E_TRANSFORM_NEED_MORE_INPUT →
            (FAILED s.hrProcessOutput = true →
              d.audioReturns x s.hrProcessOutput (d.testClip ++ outs.map fun o => o.payload)) ∧
            (FAILED s.hrProcessOutput = false →
              (mc.m_pAudioTestSample = none ∧ outs = [] ∧ FAILED s.hrCreateTestSample = true →
                d.audioReturns x s.hrCreateTestSample
                  (d.testClip ++ outs.map fun o => o.payload)) ∧
              (¬ (mc.m_pAudioTestSample = none ∧ outs = [] ∧
                  FAILED s.hrCreateTestSample = true) →
                (FAILED s.hrConvert = true →
                  d.audioReturns x s.hrConvert (d.testClip ++ outs.map fun o => o.payload)) ∧
                (FAILED s.hrConvert = false → FAILED s.hrAppend = true →
                  d.audioReturns x s.hrAppend
                    (d.testClip ++ outs.map fun o => o.payload)))))) := by
  constructor
  · intro hpush
    unfold CDecoder.ProcessAudio
    simp only [hmft, hmc, hps, hinfo, hpush, Bool.false_eq_true, if_false, if_true]
  · intro hpush outs s tail hdrain hall hs
    obtain ⟨hrK, mcK, k1, k2, k3, k5, k4⟩ :=
      ProcessAudio_loop_outputs outs (s :: tail) ps.hrProcessInput mc hpush hall
    have hPA : d.ProcessAudio (some x) =
        (ProcessAudio.loop (s :: tail) hrK mcK).map fun r =>
          (r.1, { d with m_pMFT := some { mft with process := rest },
                         m_pMediaController := some r.2 }) := by
      unfold CDecoder.ProcessAudio
      simp only [hmft, hmc, hps, hinfo, hpush, Bool.false_eq_true, if_false, hdrain, k4]
    have hclip : d.testClip = mc.m_pAudioTestSample.getD [] := by
      simp [CDecoder.testClip, hmc]
    obtain ⟨b1, b2, b3⟩ := hs
    have hstep : ProcessAudio.loop (s :: tail) hrK mcK =
        if s.hrProcessOutput = HRESULT.MF_E_TRANSFORM_NEED_MORE_INPUT then
          some (HRESULT.S_OK, mcK)
        else if FAILED s.hrProcessOutput then some (s.hrProcessOutput, mcK)
        else if FAILED (mcK.AddToAudioTestSample s).1 then some (mcK.AddToAudioTestSample s)
        else ProcessAudio.loop tail (mcK.AddToAudioTestSample s).1
          (mcK.AddToAudioTestSample s).2 := by
      rw [ProcessAudio.loop]
      simp only [SUCCEEDED, k1, b1, b2, b3, Bool.not_false, Bool.false_eq_true, if_true, if_false]
    have hret : ∀ (hr : HRESULT) (mcR : CMediaController),
        ProcessAudio.loop (s :: tail) hrK mcK = some (hr, mcR) →
        mcR.m_pAudioTestSample.getD [] = mcK.m_pAudioTestSample.getD [] →
        d.audioReturns x hr (d.testClip ++ outs.map fun o => o.payload) := by
      intro hr mcR e1 e2
      refine ⟨_, by rw [hPA, e1]; rfl, ?_⟩
      rw [hclip]
      simp only [CDecoder.testClip, Option.some_bind]
      rw [e2, k2]
    refine ⟨fun hneed => hret _ mcK (by rw [hstep, if_pos hneed]) rfl, fun hneed => ⟨?_, ?_⟩⟩
    · intro hfail
      exact hret _ mcK (by rw [hstep, if_neg hneed, if_pos hfail]) rfl
    · intro hok
      obtain ⟨f1, f2, f3⟩ := AddToAudioTestSample_failure mcK s
      have hfailed : ∀ e : HRESULT, FAILED e = true → (mcK.AddToAudioTestSample s).1 = e →
          d.audioReturns x e (d.testClip ++ outs.map fun o => o.payload) := by
        intro e he1 he2
        have hf : FAILED (mcK.AddToAudioTestSample s).1 = true := by rw [he2]; exact he1
        refine hret e (mcK.AddToAudioTestSample s).2 ?_ ?_
        · rw [hstep, if_neg hneed, if_neg (by simp [hok]), if_pos hf, ← he2]
        · rw [f1, if_pos hf, List.append_nil]
      constructor
      · rintro ⟨c1, c2, c3⟩
        have hnone : mcK.m_pAudioTestSample = none := by rw [k5 c2]; exact c1
        exact hfailed _ c3 (f2 hnone c3)
      · intro hnc
        have hnc2 : ¬ (mcK.m_pAudioTestSample = none ∧ FAILED s.hrCreateTestSample = true) := by
          rintro ⟨n1, n2⟩
          exact hnc ⟨(k3 n1).1, (k3 n1).2, n2⟩
        exact ⟨fun h2 => hfailed _ h2 ((f3 hnc2).1 h2),
          fun h2 h3 => hfailed _ h3 ((f3 hnc2).2 h2 h3)⟩

/-- C20 witness: the theorem at a decoder whose transform yields the payloads
3 and 5 and then reports needs-more-input.  `ProcessAudio` returns `S_OK` with
the clip `[3, 5]`; the output scripted after the signal is not pulled. -/
theorem C20_witness_two_outputs :
    audioDecoderTwoOutputs.audioReturns {} HRESULT.S_OK [3, 5] :=
  ((C20_process_audio_drain audioDecoderTwoOutputs _ {} _ [] {} rfl rfl rfl rfl).2 rfl
    [{ payload := 3 }, { payload := 5 }]
    { hrProcessOutput := HRESULT.MF_E_TRANSFORM_NEED_MORE_INPUT } [{ payload := 8 }] rfl
    (by decide) (by decide)).1 rfl


/-- C21: the decoder session state machine.  Without a loaded transform
`StartDecoding` and `StopDecoding` return `MF_E_NOT_INITIALIZED` and leave the
session as it is.  With a transform loaded that answers the notification with
`hr`, each returns `hr` and has sent one notification; `StartDecoding` leaves
the state `STREAMING` and `StopDecoding` leaves it `NOT_STREAMING` when `hr`
is a success, and both leave the state as it was when `hr` is a failure, so
the state after the call is the new one exactly when the notification
succeeded unless it was that state before. -/
theorem C21_decoder_state_machine (d : CDecoder) :
    (d.m_pMFT = none →
      d.StartDecoding = some (HRESULT.MF_E_NOT_INITIALIZED, d) ∧
      d.StopDecoding = some (HRESULT.MF_E_NOT_INITIALIZED, d)) ∧
    (∀ (mft : IMFTransform) (hr : HRESULT) (rest : List HRESULT),
      d.m_pMFT = some mft → mft.messages = hr :: rest →
      d.StartDecoding =
          some (hr, { d with
            m_pMFT := some { mft with messages := rest },
            m_DecoderState := if SUCCEEDED hr then STREAMING else d.m_DecoderState }) ∧
      d.StopDecoding =
          some (hr, { d with
            m_pMFT := some { mft with messages := rest },
            m_DecoderState := if SUCCEEDED hr then NOT_STREAMING else d.m_DecoderState }) ∧
      (∀ r : HRESULT × CDecoder, d.StartDecoding = some r →
        (SUCCEEDED hr = true → r.2.GetDecoderStatus = STREAMING) ∧
        (FAILED hr = true → r.2.GetDecoderStatus = d.GetDecoderStatus) ∧
        (d.GetDecoderStatus ≠ STREAMING →
          (r.2.GetDecoderStatus = STREAMING ↔ SUCCEEDED hr = true))) ∧
      (∀ r : HRESULT × CDecoder, d.StopDecoding = some r →
        (SUCCEEDED hr = true → r.2.GetDecoderStatus = NOT_STREAMING) ∧
        (FAILED hr = true → r.2.GetDecoderStatus = d.GetDecoderStatus) ∧
        (d.GetDecoderStatus ≠ NOT_STREAMING →
          (r.2.GetDecoderStatus = NOT_STREAMING ↔ SUCCEEDED hr = true)))) := by
  constructor
  · intro h
    simp [CDecoder.StartDecoding, CDecoder.StopDecoding, h]
  · intro mft hr rest hm hmsg
    have e1 : d.StartDecoding =
        some (hr, { d with
          m_pMFT := some { mft with messages := rest },
          m_DecoderState := if SUCCEEDED hr then STREAMING else d.m_DecoderState }) := by
      unfold CDecoder.StartDecoding
      simp only [hm, hmsg]
      by_cases hs : SUCCEEDED hr = true
      · simp [hs]
      · simp [hs]
    have e2 : d.StopDecoding =
        some (hr, { d with
          m_pMFT := some { mft with messages := rest },
          m_DecoderState := if SUCCEEDED hr then NOT_STREAMING else d.m_DecoderState }) := by
      unfold CDecoder.StopDecoding
      simp only [hm, hmsg]
      by_cases hs : SUCCEEDED hr = true
      · simp [hs]
      · simp [hs]
    refine ⟨e1, e2, ?_, ?_⟩
    · intro r hr1
      rw [e1] at hr1
      simp only [Option.some.injEq] at hr1
      subst hr1
      simp only [CDecoder.GetDecoderStatus, SUCCEEDED]
      by_cases hf : FAILED hr = true
      · simp [hf]
      · simp only [Bool.not_eq_true] at hf
        simp [hf]
    · intro r hr1
      rw [e2] at hr1
      simp only [Option.some.injEq] at hr1
      subst hr1
      simp only [CDecoder.GetDecoderStatus, SUCCEEDED]
      by_cases hf : FAILED hr = true
      · simp [hf]
      · simp only [Bool.not_eq_true] at hf
        simp [hf]

/-- C22 (code evaluated at the failing input): `Initialize` never writes the streaming state, so it returns with the
state it was called in.  A session that is `STREAMING` and is re-initialized
with success holds the newly created transform and is still `STREAMING`; the
extraction that follows sends no begin-streaming notification (both scripted
answers of the new transform are still pending after it), whereas after the
first initialization of a new session the extraction sends it (one answer is
pending). -/
theorem C22_reinitialize_keeps_streaming_state :
    (∀ (d : CDecoder) (clsid : GUID) (ty : Option IMFMediaType) (env : InitEnv)
        (r : HRESULT × CDecoder), d.Initialize clsid ty env = some r →
        r.2.GetDecoderStatus = d.GetDecoderStatus) ∧
    streamingVideoDecoder.GetDecoderStatus = STREAMING ∧
    streamingVideoDecoder.Initialize (GUID.other 9) (some compressedVideoType) videoInitEnv =
      some (HRESULT.S_OK, reinitializedVideoDecoder) ∧
    reinitializedVideoDecoder.m_pMFT = some freshVideoTransform ∧
    reinitializedVideoDecoder.GetDecoderStatus = STREAMING ∧
    (((videoSessionWith reinitializedVideoDecoder).GenerateSamples 50 0 {}
        chunkWithoutSample).map fun x => (x.1, x.2.reads, pendingMessages x)) =
      some (HRESULT.S_OK, [(1000, 4096)], [HRESULT.S_OK, HRESULT.S_OK]) ∧
    CDecoder.new.Initialize (GUID.other 9) (some compressedVideoType) videoInitEnv =
      some (HRESULT.S_OK, newVideoDecoder) ∧
    (((videoSessionWith newVideoDecoder).GenerateSamples 50 0 {}
        chunkWithoutSample).map fun x => (x.1, x.2.reads, pendingMessages x)) =
      some (HRESULT.S_OK, [(1000, 4096)], [HRESULT.S_OK]) := by
  refine ⟨fun d clsid ty env r h => Initialize_state d clsid ty env r h, by decide, by decide,
    by decide, by decide, ?_, by decide, ?_⟩
  · rw [videoSessionWith_scan reinitializedVideoDecoder reinitializedVideoDecoder _ rfl]
    decide
  · rw [videoSessionWith_scan newVideoDecoder
      { newVideoDecoder with
        m_pMFT := some { freshVideoTransform with messages := [HRESULT.S_OK] },
        m_DecoderState := STREAMING } _ rfl]
    decide

/-- C24 counterexample: a forward scan of 4097 bytes from offset
`2^32 - 2048`, in which completion is never marked, issues its second read at
offset 2048: the 32-bit offset has wrapped, whereas the claim has the second
read start at `start + 4096 = 2^32 + 2048`. -/
theorem C24_counterexample_forward_wrap :
    (CASFManager.GenerateSamplesLoop 0 0 false twoPlainChunks 4294965248 4097 HRESULT.S_OK
        { mgr := openedSession }).map (fun r => (r.1, r.2.reads, r.2.fComplete)) =
      some (HRESULT.S_OK, [(4294965248, 4096), (2048, 1)], false) ∧
    specReadStart false 4294965248 4097 1 = 4294969344 ∧ specReadSize 4097 1 = 1 := by
  decide

/-- C24 (amended): the reads of the chunk loop over `len` bytes from `start`
(32-bit values) are, in this order, the first reads of the sequence whose
`k`-th member has size `min(4096, len - 4096 * k)` and the offset
`start + 4096 * k` forward, `start - 4096 * k - size` in reverse, reduced
modulo `2^32`; there are at most `ceil(len / 4096)` of them, and exactly that
many when the loop returns a success without completion marked.  Every read
but the last is 4096 bytes long, none is empty, and the sizes sum to `len`.
In exact arithmetic each read of the sequence starts where the one before
ends (forward) or ends where the one before starts (reverse).  The offsets are the exact ones,
so that the reads are contiguous and do not overlap, when
`start + len ≤ 2^32` forward and when `len ≤ start` in reverse. -/
theorem C24_chunking (seek test : Int) (rev : Bool) (chunks : List ChunkResp)
    (start len : Nat) (hr : HRESULT) (st : ScanState) (r : HRESULT × ScanState)
    (hstart : start < 2 ^ 32) (hlen : len < 2 ^ 32)
    (h : CASFManager.GenerateSamplesLoop seek test rev chunks start len hr st = some r) :
    (∃ n, n ≤ specReadCount len ∧
      r.2.reads = st.reads ++ (List.range n).map
        (fun k => (wrap32 (specReadStart rev start len k), specReadSize len k)) ∧
      (FAILED r.1 = false → r.2.fComplete = false → n = specReadCount len)) ∧
    (∀ k, k + 1 < specReadCount len → specReadSize len k = 4096) ∧
    (∀ k, k < specReadCount len → 0 < specReadSize len k ∧ specReadSize len k ≤ 4096) ∧
    ((List.range (specReadCount len)).map (specReadSize len)).sum = len ∧
    (∀ k, specReadStart false start len (k + 1) =
        specReadStart false start len k + specReadSize len k ∨
      specReadCount len ≤ k + 1) ∧
    (∀ k, specReadStart true start len (k + 1) + specReadSize len (k + 1) =
        specReadStart true start len k ∨
      specReadCount len ≤ k + 1) ∧
    (start + len ≤ 2 ^ 32 → ∀ k, k < specReadCount len →
      (wrap32 (specReadStart false start len k) : Int) = specReadStart false start len k) ∧
    (len ≤ start → ∀ k, k < specReadCount len →
      0 ≤ specReadStart true start len k ∧
      (wrap32 (specReadStart true start len k) : Int) = specReadStart true start len k) := by
  refine ⟨?_, ?_, ?_, ?_, ?_, ?_, ?_, ?_⟩
  · obtain ⟨n, hn, e, hall⟩ := loop_reads seek test rev chunks start len hr st r hstart hlen h
    exact ⟨n, hn, e, hall⟩
  · intro k hk
    unfold specReadCount at hk
    unfold specReadSize
    omega
  · intro k hk
    unfold specReadCount at hk
    unfold specReadSize
    omega
  · apply specReadSize_sum
    unfold specReadCount
    omega
  · intro k
    by_cases hk : k + 1 < specReadCount len
    · left
      unfold specReadCount at hk
      unfold specReadStart specReadSize
      simp only [Bool.false_eq_true, if_false]
      omega
    · right
      omega
  · intro k
    by_cases hk : k + 1 < specReadCount len
    · left
      unfold specReadCount at hk
      unfold specReadStart specReadSize
      simp only [if_true]
      omega
    · right
      omega
  · intro hfit k hk
    unfold specReadCount at hk
    unfold specReadStart wrap32
    simp only [Bool.false_eq_true, if_false]
    omega
  · intro hfit k hk
    unfold specReadCount at hk
    unfold specReadStart specReadSize wrap32
    simp only [if_true]
    omega

/-- C24 witness: the theorem at a forward scan of 5000 bytes from offset 1000
on the opened session, with two chunks: the reads are `[1000, 5096)` and
`[5096, 6000)`. -/
theorem C24_witness_two_reads :
    ∃ n, n = specReadCount 5000 ∧
      [((1000 : Nat), (4096 : Nat)), (5096, 904)] = [] ++ (List.range n).map
        (fun k => (wrap32 (specReadStart false 1000 5000 k), specReadSize 5000 k)) := by
  obtain ⟨n, _, e, hall⟩ :=
    (C24_chunking 0 0 false twoPlainChunks 1000 5000 HRESULT.S_OK { mgr := openedSession }
      (HRESULT.S_OK, { mgr := openedSession, info := { wStreamNumber := 0 },
                       reads := [(1000, 4096), (5096, 904)] })
      (by decide) (by decide) rfl).1
  exact ⟨n, hall rfl rfl, e⟩

/-- C25: the chunk loop returns, and exhaustion of the range is a success.
Let every chunk of the environment hold successful answers of the read, of
`ParseData` and of `GetNextSample` up to one that announces no further sample,
let there be a chunk for each of the `ceil(len / 4096)` iterations, and let
the routing methods return on the samples delivered: `I k` is a class of scan
states, with a byte stream, on which a routing method returns for each of `k`
further samples, and the scan starts in `I n` for the number `n` of samples of
the environment.  Then the loop returns a success; if completion was not
marked it has issued exactly `ceil(len / 4096)` reads, those of the whole
range.  For `len = 0` the loop returns `S_OK` at once with the state
untouched, whatever the environment. -/
theorem C25_loop_terminates_on_exhaustion (I : Nat → ScanState → Prop) (seek test : Int)
    (rev : Bool) (chunks : List ChunkResp) (off len : Nat) (st : ScanState)
    (hstream : ∀ (k : Nat) (a : ScanState), I k a → ∃ bs, a.mgr.m_pByteStream = some bs)
    (hmono : ∀ (k : Nat) (a : ScanState), I (k + 1) a → I k a)
    (hreads : ∀ (k : Nat) (a : ScanState) (rd : Nat × Nat), I k a →
      I k { a with reads := a.reads ++ [rd] })
    (hinfo : ∀ (k : Nat) (a : ScanState) (ws : Nat), I k a →
      I k { a with info := { a.info with wStreamNumber := ws } })
    (haudio : ∀ (k : Nat) (a : ScanState) (s : IMFSample), s ∈ scanSamples chunks →
      I (k + 1) a → a.mgr.m_pDecoder.isSome = true →
      a.mgr.m_guidCurrentMediaType = GUID.MFMediaType_Audio →
      ∃ x, CASFManager.SendAudioSampleToDecoder a s test rev = some x ∧ I k x.2)
    (hvideo : ∀ (k : Nat) (a : ScanState) (s : IMFSample), s ∈ scanSamples chunks →
      I (k + 1) a → a.mgr.m_pDecoder.isSome = true →
      a.mgr.m_guidCurrentMediaType = GUID.MFMediaType_Video →
      ∃ x, CASFManager.SendKeyFrameToDecoder a s seek rev = some x ∧ I k x.2)
    (hoff : off < 2 ^ 32) (hlen : len < 2 ^ 32)
    (hchunks : ∀ c ∈ chunks, c.succeeds = true)
    (hfuel : specReadCount len ≤ chunks.length) (hI : I (scanSamples chunks).length st) :
    (∃ r, CASFManager.GenerateSamplesLoop seek test rev chunks off len HRESULT.S_OK st =
        some r ∧ FAILED r.1 = false ∧ I 0 r.2 ∧
      (r.2.fComplete = false →
        r.2.reads = st.reads ++ chunkReads rev off len (specReadCount len) ∧
        r.2.reads.length = st.reads.length + specReadCount len)) ∧
    (∀ (chunks0 : List ChunkResp) (st0 : ScanState),
      CASFManager.GenerateSamplesLoop seek test rev chunks0 off 0 HRESULT.S_OK st0 =
        some (HRESULT.S_OK, st0)) := by
  constructor
  · obtain ⟨r, hr, hok, hIr⟩ := loop_runs_graded I (fun s => s ∈ scanSamples chunks) seek test
      rev hstream hmono hreads hinfo haudio hvideo chunks hchunks
      (fun c hc n hn s hs => mem_scanSamples chunks c n s hc hn hs) 0 off len HRESULT.S_OK st
      hlen hfuel (by rw [Nat.zero_add]; exact hI) rfl
    refine ⟨r, hr, hok, hIr, fun hc => ?_⟩
    obtain ⟨n, _, e, hall⟩ := loop_reads seek test rev chunks off len HRESULT.S_OK st r hoff hlen hr
    rw [hall hok hc] at e
    refine ⟨e, ?_⟩
    rw [e]
    simp [chunkReads]
  · intro chunks0 st0
    unfold CASFManager.GenerateSamplesLoop
    simp

/-- C25 witness: the theorem at a forward audio scan of 5000 bytes from offset
1000 with boundary 50,000,000 on the audio session, whose decoder session is
started and decodes the sample each of the two chunks delivers: the loop
returns `S_OK` after the two reads `[1000, 5096)` and `[5096, 6000)` of the
range, completion not marked, with the records stamped 10 and 20 handed to
the display callback and both outputs in the test clip. -/
theorem C25_witness_audio_scan :
    (CASFManager.GenerateSamplesLoop 0 50000000 false twoAudioChunks 1000 5000
        HRESULT.S_OK { mgr := audioSession }).map
      (fun (r : HRESULT × ScanState) => (r.1, r.2.reads, r.2.fComplete,
        r.2.sink.map (fun i => i.hnsSampleTime), r.2.mgr.m_pDecoder.map CDecoder.testClip)) =
      some (HRESULT.S_OK, [(1000, 4096), (5096, 904)], false, [10, 20], some [3, 5]) ∧
    specReadCount 5000 = 2 ∧
    ∃ r, CASFManager.GenerateSamplesLoop 0 50000000 false twoAudioChunks 1000 5000
        HRESULT.S_OK { mgr := audioSession } = some r ∧ FAILED r.1 = false ∧
      r.2.fComplete = false ∧
      r.2.reads = [] ++ chunkReads false 1000 5000 (specReadCount 5000) ∧
      r.2.reads.length = 0 + specReadCount 5000 := by
  refine ⟨audioSession_two_chunks_run, by decide, ?_⟩
  have hsamples : ∀ s ∈ scanSamples twoAudioChunks,
      FAILED s.hrGetSampleTime = false ∧ s.hnsSampleTime < 50000000 := by decide
  obtain ⟨r, h1, h2, h3, h4⟩ :=
    (C25_loop_terminates_on_exhaustion audioScanClass 0 50000000 false twoAudioChunks 1000 5000
      { mgr := audioSession }
      (fun _ a ha => ⟨_, ha.2.1⟩)
      (fun k a ha => ⟨ha.1, ha.2.1, ha.2.2.1,
        ha.2.2.2.elim (fun x => Or.inl ⟨by omega, x.2⟩)
          (fun y => y.elim (fun x => Or.inr (Or.inl ⟨by omega, x.2⟩))
            (fun x => absurd x.1 (by omega)))⟩)
      (fun _ _ _ ha => ha) (fun _ _ _ ha => ha)
      (by
        intro k a s hs ha _ _
        obtain ⟨hts, htime⟩ := hsamples s hs
        have hw : withinBoundary false 50000000 s.hnsSampleTime := by
          unfold withinBoundary
          simpa using htime
        obtain ⟨a1, a2, _, a4⟩ := ha
        rcases a4 with ⟨hk, hdec⟩ | ⟨hk, hdec⟩ | ⟨hk, _⟩
        · exact ⟨_, SendAudioSampleToDecoder_decodes a s 50000000 false audioDecoder
            (HRESULT.S_OK,
              { audioDecoder with
                m_pMFT := some { messages := [HRESULT.S_OK],
                                 process := [{ drain := [{ payload := 3 },
                                     { hrProcessOutput := HRESULT.MF_E_TRANSFORM_NEED_MORE_INPUT }] },
                                   { drain := [{ payload := 5 },
                                     { hrProcessOutput := HRESULT.MF_E_TRANSFORM_NEED_MORE_INPUT }] }] },
                m_DecoderState := STREAMING })
            (HRESULT.S_OK, audioDecoderAfterOne) hdec hts hw rfl rfl rfl rfl,
            a1, a2, rfl, Or.inr (Or.inl ⟨by omega, rfl⟩)⟩
        · exact ⟨_, SendAudioSampleToDecoder_decodes a s 50000000 false audioDecoderAfterOne
            (s.hrGetSampleTime, audioDecoderAfterOne) (HRESULT.S_OK, audioDecoderAfterTwo)
            hdec hts hw rfl hts rfl rfl,
            a1, a2, rfl, Or.inr (Or.inr ⟨by omega, rfl⟩)⟩
        · omega)
      (by
        intro k a s _ ha _ hV
        rw [ha.1] at hV
        exact absurd hV (by decide))
      (by decide) (by decide) (by decide) (by decide)
      ⟨rfl, rfl, rfl, Or.inl ⟨by decide, rfl⟩⟩).1
  exact ⟨r, h1, h2, h3.2.2.1, h4 h3.2.2.1⟩

/-- C26: let `GenerateSamples` get past `Flush` and the resolver on a session
whose decoder session is not streaming and whose `StartDecoding` fails.  Then
whatever it returns, the session is left without decoder session, the display
callback has not been called, the code returned is `S_OK` or a code the
environment gave during the scan, and a success means that the whole range
was read.  When moreover every chunk of the environment holds successful
answers, there is a chunk for each iteration and the byte stream exists,
`GenerateSamples` returns a success after the reads of the whole range. -/
theorem C26_start_failure_is_dropped (m : CASFManager) (sp : IMFASFSplitter) (d : CDecoder)
    (s0 : HRESULT × CDecoder) (t : Int) (flags : Nat) (info : SAMPLE_INFO) (env : ScanEnv)
    (g : HRESULT × CASFManager × Nat × Int)
    (hsp : m.m_pSplitter = some sp) (hflush : FAILED sp.hrFlush = false)
    (hseek : (if FAILED sp.hrSetFlags then m
      else { m with m_pSplitter := some { sp with dwFlags := flags } }).GetSeekPosition t 0 0 =
        some g)
    (hgok : FAILED g.1 = false)
    (hd : m.m_pDecoder = some d) (hns : d.GetDecoderStatus ≠ STREAMING)
    (hstart : d.StartDecoding = some s0) (hfail : FAILED s0.1 = true) :
    (∀ r, m.GenerateSamples t flags info env = some r →
      r.2.mgr.m_pDecoder = none ∧ r.2.sink = [] ∧
      (r.1 = HRESULT.S_OK ∨ r.1 ∈ scanCodes env.chunks) ∧
      (FAILED r.1 = false →
        r.2.reads = chunkReads (scanReverse sp flags)
          (scanStart m g.2.2.1 (scanReverse sp flags)) (scanLength m g.2.2.1)
          (specReadCount (scanLength m g.2.2.1)))) ∧
    ((∀ c ∈ env.chunks, c.succeeds = true) →
      specReadCount (scanLength m g.2.2.1) ≤ env.chunks.length →
      m.m_pByteStream ≠ none →
      ∃ r, m.GenerateSamples t flags info env = some r ∧ FAILED r.1 = false ∧
        r.2.mgr.m_pDecoder = none ∧ r.2.sink = [] ∧
        r.2.reads = chunkReads (scanReverse sp flags)
          (scanStart m g.2.2.1 (scanReverse sp flags)) (scanLength m g.2.2.1)
          (specReadCount (scanLength m g.2.2.1))) := by
  obtain ⟨f1, f2, f3, f4, f5, f6⟩ := GenerateSamples_frame m sp t flags g hseek
  have hstartEq : ∀ rev, scanStart g.2.1 g.2.2.1 rev = scanStart m g.2.2.1 rev := by
    intro rev
    unfold scanStart
    rw [f4, f5]
  have hlenEq : scanLength g.2.1 g.2.2.1 = scanLength m g.2.2.1 := by
    unfold scanLength
    rw [f4]
  have hgs : m.GenerateSamples t flags info env =
      (if g.2.1.m_guidCurrentMediaType = GUID.MFMediaType_Audio then
          g.2.1.GetTestDuration t (scanReverse sp flags)
        else some 0).bind fun b =>
        CASFManager.GenerateSamplesLoop t b (scanReverse sp flags) env.chunks
          (scanStart m g.2.2.1 (scanReverse sp flags)) (scanLength m g.2.2.1) HRESULT.S_OK
          { mgr := { g.2.1 with m_pDecoder := none }, info := info } := by
    rw [GenerateSamples_afterSeek m sp t flags info env g hsp hflush hseek hgok,
      afterSeek_start_fails g.2.1 g.1 g.2.2.1 t (scanReverse sp flags) info env d s0
        (f3.trans hd) hns hstart hfail, hstartEq, hlenEq]
  have hfacts : ∀ r, m.GenerateSamples t flags info env = some r →
      r.2.mgr.m_pDecoder = none ∧ r.2.sink = [] ∧
      (r.1 = HRESULT.S_OK ∨ r.1 ∈ scanCodes env.chunks) ∧
      (FAILED r.1 = false →
        r.2.reads = chunkReads (scanReverse sp flags)
          (scanStart m g.2.2.1 (scanReverse sp flags)) (scanLength m g.2.2.1)
          (specReadCount (scanLength m g.2.2.1))) := by
    intro r h
    rw [hgs, Option.bind_eq_some] at h
    obtain ⟨b, _, h⟩ := h
    obtain ⟨e1, e2, e3⟩ := loop_without_decoder _ _ _ _ _ _ _ _ r rfl h
    obtain ⟨n, _, e4, hall⟩ := loop_reads _ _ _ _ _ _ _ _ r (scanStart_lt _ _ _)
      (scanLength_lt _ _) h
    refine ⟨by rw [e1], e2, loop_code _ _ _ _ _ _ _ _ r h, fun hok => ?_⟩
    rw [hall hok e3] at e4
    simpa using e4
  refine ⟨hfacts, fun hchunks hfuel hbs => ?_⟩
  have hb : ∃ b, (if g.2.1.m_guidCurrentMediaType = GUID.MFMediaType_Audio then
      g.2.1.GetTestDuration t (scanReverse sp flags) else some 0) = some b := by
    by_cases hA : g.2.1.m_guidCurrentMediaType = GUID.MFMediaType_Audio
    · rw [if_pos hA]
      have hA1 : (if FAILED sp.hrSetFlags then m
          else { m with m_pSplitter := some { sp with dwFlags := flags } }).m_guidCurrentMediaType =
            GUID.MFMediaType_Audio := by
        rw [← hA, f1]
        split_ifs <;> rfl
      obtain ⟨fi, hfi⟩ := GetSeekPosition_audio_fileinfo _ t 0 0 g hA1 hseek hgok
      have hfi2 : g.2.1.m_fileinfo = some fi := by
        rw [f2, ← hfi]
        split_ifs <;> rfl
      exact GetTestDuration_defined g.2.1 fi t _ hfi2
    · rw [if_neg hA]
      exact ⟨0, rfl⟩
  obtain ⟨b, hb⟩ := hb
  obtain ⟨bs, hbs1⟩ : ∃ bs, m.m_pByteStream = some bs := by
    cases hx : m.m_pByteStream with
    | none => exact absurd hx hbs
    | some bs => exact ⟨bs, rfl⟩
  obtain ⟨r, hr, hok, _⟩ := loop_runs
    (fun a => a.mgr.m_pDecoder = none ∧ a.mgr.m_pByteStream = some bs) (fun _ => True)
    t b (scanReverse sp flags)
    (fun a ha => ⟨_, ha.2⟩) (fun _ _ ha => ha) (fun _ _ ha => ha)
    (fun a _ _ ha hd1 _ => by rw [ha.1] at hd1; simp at hd1)
    (fun a _ _ ha hd1 _ => by rw [ha.1] at hd1; simp at hd1)
    env.chunks hchunks (fun _ _ _ _ _ _ => trivial)
    (scanStart m g.2.2.1 (scanReverse sp flags)) (scanLength m g.2.2.1) HRESULT.S_OK
    { mgr := { g.2.1 with m_pDecoder := none }, info := info }
    (scanLength_lt _ _) hfuel ⟨rfl, f6.trans hbs1⟩ rfl
  have hgr : m.GenerateSamples t flags info env = some r := by
    rw [hgs, hb]
    exact hr
  obtain ⟨a1, a2, _, a4⟩ := hfacts r hgr
  exact ⟨r, hgr, hok, a1, a2, a4 hok⟩

/-- C26 witness: the theorem at the indexed video session whose transform
answers the begin streaming message with `E_FAIL`, on one chunk without
sample: the extraction returns a success after the read of the whole region,
without decoder session and without record. -/
theorem C26_witness_failing_start :
    ∃ r, (videoSessionWith decoderFailingStart).GenerateSamples 50 0 {} chunkWithoutSample =
        some r ∧ FAILED r.1 = false ∧ r.2.mgr.m_pDecoder = none ∧ r.2.sink = [] ∧
      r.2.reads = chunkReads (scanReverse {} 0)
        (scanStart (videoSessionWith decoderFailingStart) 0 (scanReverse {} 0))
        (scanLength (videoSessionWith decoderFailingStart) 0)
        (specReadCount (scanLength (videoSessionWith decoderFailingStart) 0)) :=
  (C26_start_failure_is_dropped (videoSessionWith decoderFailingStart) {} decoderFailingStart
    (HRESULT.E_FAIL, { decoderFailingStart with m_pMFT := some { messages := [] } }) 50 0 {}
    chunkWithoutSample (HRESULT.S_OK, videoSessionWith decoderFailingStart, 0, 50)
    rfl rfl rfl rfl rfl (by decide) rfl rfl).2 (by decide) (by decide) (by decide)

/-- C27 (code evaluated at the failing input): index resolution calls `SetFlags` on the index only for the reverse
direction and never clears its flags.  A reverse resolution on an indexed
stream whose `SetFlags` succeeds queries the seek position with the
reverse-playback flag and leaves it on the index; a forward resolution leaves
the index as it is and queries with the flags it finds there.  So on the
session `sessionTwoEntryIndex` a first forward extraction reads from the
forward entry (offset 100), but after a reverse extraction the forward
extraction queries the index still in reverse-playback mode and reads from the
reverse-playback entry (offset 300). -/
theorem C27_forward_resolution_after_reverse :
    (∀ (ix : IMFASFIndexer) (ws : Nat) (t : Int) (c : Nat) (a : Int),
      FAILED (ix.indexStatus ws).1 = false → (ix.indexStatus ws).2 = true →
      (FAILED ix.hrSetFlags = false →
        (GetSeekPositionWithIndexer ix ws t true c a).2.1.dwFlags =
            MFASF_INDEXER_READ_FOR_REVERSEPLAYBACK ∧
          (GetSeekPositionWithIndexer ix ws t true c a).1 =
            (ix.seekPosition ws t MFASF_INDEXER_READ_FOR_REVERSEPLAYBACK).1) ∧
      (GetSeekPositionWithIndexer ix ws t false c a).2.1.dwFlags = ix.dwFlags ∧
      (GetSeekPositionWithIndexer ix ws t false c a).1 = (ix.seekPosition ws t ix.dwFlags).1 ∧
      (FAILED (ix.seekPosition ws t ix.dwFlags).1 = false →
        (GetSeekPositionWithIndexer ix ws t false c a).2.2 =
          (ix.seekPosition ws t ix.dwFlags).2)) ∧
    (sessionTwoEntryIndex.GenerateSamples 50 0 {} chunkWithoutSample).map
        (fun r => (r.1, r.2.reads, r.2.mgr.indexFlags)) =
      some (HRESULT.S_OK, [(1100, 3996)], some 0) ∧
    ((sessionTwoEntryIndex.GenerateSamples 50 MFASF_SPLITTER_REVERSE {} chunkWithoutSample).bind
        fun r1 => (r1.2.mgr.GenerateSamples 50 0 {} chunkWithoutSample).map
          fun r2 => (r1.1, r1.2.reads, r1.2.mgr.indexFlags, r2.1, r2.2.reads,
            r2.2.mgr.indexFlags)) =
      some (HRESULT.S_OK, [(1000, 3796)], some MFASF_INDEXER_READ_FOR_REVERSEPLAYBACK,
        HRESULT.S_OK, [(1300, 3796)], some MFASF_INDEXER_READ_FOR_REVERSEPLAYBACK) := by
  refine ⟨?_, ?_, ?_⟩
  · intro ix ws t c a hst hidx
    have h1 : ¬ (((ix.indexStatus ws).1 != HRESULT.MF_E_BUFFERTOOSMALL) = true ∧
        FAILED (ix.indexStatus ws).1 = true) := by
      rw [hst]
      simp
    refine ⟨fun hset => ?_, ?_, ?_, ?_⟩
    · unfold GetSeekPositionWithIndexer
      simp only [h1, hidx, hset, if_false, Bool.not_true, Bool.false_eq_true, and_false,
        if_true]
      constructor <;> split_ifs <;> rfl
    · unfold GetSeekPositionWithIndexer
      simp only [h1, hidx, if_false, Bool.not_true, Bool.false_eq_true, false_and]
      split_ifs <;> rfl
    · unfold GetSeekPositionWithIndexer
      simp only [h1, hidx, if_false, Bool.not_true, Bool.false_eq_true, false_and]
      split_ifs <;> rfl
    · intro hok
      unfold GetSeekPositionWithIndexer
      simp only [h1, hidx, if_false, Bool.not_true, Bool.false_eq_true, false_and, hok]
  · rw [sessionTwoEntryIndex_forward_scan]
    rfl
  · rw [sessionTwoEntryIndex_reverse_result]
    simp only [Option.some_bind]
    rw [sessionAfterReverse_forward_scan]
    rfl

/-- C28 counterexample: a file of play duration `2^63 - 1` without preroll
and the forward seek time `2^63 - 1` satisfy the preconditions of the claim;
the sum `hnsSeekTime + TEST_AUDIO_DURATION` leaves the signed 64-bit range,
and the boundary returned is negative, before the seek time and more than
50,000,000 units away from it. -/
theorem C28_counterexample_sum_overflows :
    (0 : Nat) ≤ 9223372036854775807 ∧ ((9223372036854775807 : Int) - 0 < 2 ^ 63) ∧
    (seekSession { hnsPlayDuration := 9223372036854775807 } 0).GetTestDuration
        9223372036854775807 false = some (-9223372036804775809) := by
  decide

/-- C28 (amended): for a file with `preroll ≤ playDuration` and
`playDuration - preroll < 2^63` and a seek time in
`[0, playDuration - preroll]` which, in a forward scan, is below
`2^63 - 50,000,000`, `GetTestDuration` returns a boundary in
`[0, playDuration - preroll]` that lies on the scan-direction side of the seek
time (forward at or after it, in reverse at or before it) and at most
50,000,000 units away from it. -/
theorem C28_boundary_within_five_seconds (m : CASFManager) (fi : FILE_PROPERTIES_OBJECT)
    (t : Int) (rev : Bool) (hfi : m.m_fileinfo = some fi)
    (hpre : fi.hnspreroll ≤ fi.hnsPlayDuration)
    (hmax : (fi.hnsPlayDuration : Int) - fi.hnspreroll < 2 ^ 63)
    (h0 : 0 ≤ t) (h1 : t ≤ (fi.hnsPlayDuration : Int) - fi.hnspreroll)
    (hsum : rev = false → t + 50000000 < 2 ^ 63) :
    ∃ b : Int, m.GetTestDuration t rev = some b ∧
      0 ≤ b ∧ b ≤ (fi.hnsPlayDuration : Int) - fi.hnspreroll ∧
      (rev = false → t ≤ b ∧ b - t ≤ 50000000) ∧
      (rev = true → b ≤ t ∧ t - b ≤ 50000000) := by
  unfold CASFManager.GetTestDuration
  simp only [hfi, TEST_AUDIO_DURATION]
  have hM : wrapI64 ((fi.hnsPlayDuration : Int) - fi.hnspreroll) =
      (fi.hnsPlayDuration : Int) - fi.hnspreroll := by
    unfold wrapI64
    omega
  cases rev with
  | true =>
    have hw : wrapI64 (t - 50000000) = t - 50000000 := by
      unfold wrapI64
      omega
    simp only [if_true, hw]
    by_cases hlt : t - 50000000 < 0
    · rw [if_pos hlt]
      exact ⟨0, rfl, by omega, by omega, by simp, fun _ => ⟨by omega, by omega⟩⟩
    · rw [if_neg hlt]
      exact ⟨_, rfl, by omega, by omega, by simp, fun _ => ⟨by omega, by omega⟩⟩
  | false =>
    have hs := hsum rfl
    have hw : wrapI64 (t + 50000000) = t + 50000000 := by
      unfold wrapI64
      omega
    simp only [Bool.false_eq_true, if_false, hw, hM]
    by_cases hgt : t + 50000000 > (fi.hnsPlayDuration : Int) - fi.hnspreroll
    · rw [if_pos hgt]
      exact ⟨_, rfl, by omega, by omega, fun _ => ⟨by omega, by omega⟩, by simp⟩
    · rw [if_neg hgt]
      exact ⟨_, rfl, by omega, by omega, fun _ => ⟨by omega, by omega⟩, by simp⟩

/-- C28 witness: the theorem at the 10 s file, forward from 70,000,000, where
the boundary is the end of the file, 30,000,000 units after the seek time. -/
theorem C28_witness_ten_seconds :
    ∃ b : Int, (seekSession fileTenSeconds 0).GetTestDuration 70000000 false = some b ∧
      0 ≤ b ∧ b ≤ (fileTenSeconds.hnsPlayDuration : Int) - fileTenSeconds.hnspreroll ∧
      (70000000 : Int) ≤ b ∧ b - 70000000 ≤ 50000000 := by
  obtain ⟨b, h1, h2, h3, h4, _⟩ :=
    C28_boundary_within_five_seconds (seekSession fileTenSeconds 0) fileTenSeconds 70000000
      false rfl (by decide) (by decide) (by decide) (by decide) (fun _ => by decide)
  exact ⟨b, h1, h2, h3, (h4 rfl).1, (h4 rfl).2⟩

/-- C29: an extraction that gets past `Flush` and the resolver runs the chunk
loop with the start `scanStart` and the length `scanLength`, which are the
64-bit values reduced modulo `2^32`: the length is
`(dataLength - seekOffset) mod 2^32`, the forward start
`(dataOffset + seekOffset) mod 2^32` and the reverse start
`(dataLength + dataOffset - seekOffset) mod 2^32`.  They are the exact values
when `seekOffset ≤ dataLength` and `dataOffset + dataLength < 2^32`.  On the
session `sessionIndexPastEnd` the index answers the seek offset 5000 for a
data region of 4096 bytes at offset 1000: the length is the wrapped value
`2^32 - 904`, and the first read, at offset 6000, lies past the end of the
data region. -/
theorem C29_scan_range_modulo :
    (∀ (m : CASFManager) (sp : IMFASFSplitter) (t : Int) (flags : Nat) (info : SAMPLE_INFO)
        (env : ScanEnv) (g : HRESULT × CASFManager × Nat × Int) (r : HRESULT × ScanState),
      m.m_pSplitter = some sp → FAILED sp.hrFlush = false →
      (if FAILED sp.hrSetFlags then m
        else { m with m_pSplitter := some { sp with dwFlags := flags } }).GetSeekPosition t 0 0 =
          some g →
      FAILED g.1 = false → m.GenerateSamples t flags info env = some r →
      ∃ (b : Int) (m3 : CASFManager),
        CASFManager.GenerateSamplesLoop t b (scanReverse sp flags) env.chunks
          (scanStart m g.2.2.1 (scanReverse sp flags)) (scanLength m g.2.2.1) HRESULT.S_OK
          { mgr := m3, info := info } = some r) ∧
    (∀ (m : CASFManager) (s : Nat),
      (scanLength m s : Int) = ((m.m_cbDataLength : Int) - s) % 2 ^ 32 ∧
      (scanStart m s false : Int) = ((m.m_cbDataOffset : Int) + s) % 2 ^ 32 ∧
      (scanStart m s true : Int) = ((m.m_cbDataLength : Int) + m.m_cbDataOffset - s) % 2 ^ 32) ∧
    (∀ (m : CASFManager) (s : Nat), s ≤ m.m_cbDataLength →
      m.m_cbDataOffset + m.m_cbDataLength < 2 ^ 32 →
      scanLength m s = m.m_cbDataLength - s ∧ scanStart m s false = m.m_cbDataOffset + s ∧
      scanStart m s true = m.m_cbDataLength + m.m_cbDataOffset - s) ∧
    ((sessionIndexPastEnd.GetSeekPosition 50 0 0).map (fun g => (g.1, g.2.2.1)) =
        some (HRESULT.S_OK, 5000) ∧
      sessionIndexPastEnd.m_cbDataLength < 5000 ∧
      scanLength sessionIndexPastEnd 5000 = 4294966392 ∧
      (sessionIndexPastEnd.GenerateSamples 50 0 {} nextSampleFails).map (fun r => r.2.reads) =
        some [(6000, 4096)] ∧
      sessionIndexPastEnd.m_cbDataOffset + sessionIndexPastEnd.m_cbDataLength ≤ 6000) := by
  refine ⟨?_, ?_, ?_, ?_⟩
  · intro m sp t flags info env g r hsp hflush hseek hgok h
    rw [GenerateSamples_afterSeek m sp t flags info env g hsp hflush hseek hgok] at h
    obtain ⟨b, m3, _, hl⟩ := afterSeek_loop _ _ _ _ _ _ _ r h
    obtain ⟨_, _, _, f4, f5, _⟩ := GenerateSamples_frame m sp t flags g hseek
    refine ⟨b, m3, ?_⟩
    unfold scanStart scanLength at hl ⊢
    rw [f4, f5] at hl
    exact hl
  · intro m s
    unfold scanLength scanStart wrap32
    simp only [Bool.false_eq_true, if_false, if_true]
    refine ⟨?_, ?_, ?_⟩ <;> omega
  · intro m s hs hfit
    unfold scanLength scanStart wrap32
    simp only [Bool.false_eq_true, if_false, if_true]
    refine ⟨?_, ?_, ?_⟩ <;> omega
  · refine ⟨rfl, by decide, by decide, ?_, by decide⟩
    rw [GenerateSamples_of_seek sessionIndexPastEnd {} 50 0 {} nextSampleFails
      (HRESULT.S_OK, sessionIndexPastEnd, 5000, 50) rfl rfl rfl rfl]
    rfl

end ASFParser
